import Mathlib

/-!
# v-mix: session / source lifecycle of the `Mixer` coordinator

Shallow embedding of `src/Mixer.cpp` (the `Mixer` member functions, the bodies of the
background tasks `loadSession`, `importSession` and `saveSession`, the document the
save task builds), of `src/SessionSource.cpp` (the member functions of
`SessionSource`, the initialization of a `SessionFileSource`, the staleness check of a
`RenderSource`), of the line index of `AppLog` in `src/Log.cpp`, and of the fill loop of
`MixingView::textureMixingQuadratic` in `src/View.cpp`.

Conventions of the embedding

* A `Source*` is a `SourceId` (object identity); the null pointer is `none` of
  `Option SourceId`.  The attributes of the Source objects live in a heap
  `Mixer.src : SourceId → Source`.
* A `SourceList::iterator` into the front Session is an `Option SourceId`:
  `some s` designates the list element holding `s`, `none` is `session_->end()`.
* `s->group(mode)` is the pair `⟨s, mode⟩`; the children of `scene.ws()` of a view
  are a list of such nodes.
* Transform fields, textures and frame buffers (floating point / GPU state) are not
  part of the state; calls that only touch them (`setDepth`, `setAlpha`,
  `copyTransform`, `setResolution`, `centerSource`, `View::update`) leave the
  modelled state unchanged.
* For the effect of a background task on the Mixer, its body runs as one atomic step
  of the state and the wait loop on `sessionThreadActive_` is the guard of that step;
  the protocol of the flag itself is studied on `SessionThreads`, where each access
  to the flag is a step of its own.
-/

namespace VMix

/-- A `Source*`: the identity of a Source object. -/
abbrev SourceId := Nat

namespace View

/-- The `View::Mode` values used to index the per-view nodes of a Source. -/
inductive Mode where
  | RENDERING
  | MIXING
  | GEOMETRY
  | LAYER
  | TRANSITION
  deriving DecidableEq

end View

namespace Source

/-- Modelled from the spec: the `Source::Mode` status values (`Source.h` is not part of
the sources); `SELECTED` and `CURRENT` are the two that `Mixer.cpp` sets. -/
inductive Mode where
  | UNSPECIFIED
  | CANDIDATE
  | VISIBLE
  | SELECTED
  | CURRENT
  deriving DecidableEq

end Source

/-- Modelled from the spec: the attributes of a Source object that `Mixer.cpp` reads or
writes through `name()`, `setName`, `setMode` and `failed()` (`Source.h` is not part of
the sources). -/
structure Source where
  name : String
  mode : Source.Mode
  failed : Bool
  deriving DecidableEq

/-- A scene node `s->group(mode)`: the node of Source `s` for the view `mode`. -/
structure Node where
  source : SourceId
  view : View.Mode
  deriving DecidableEq

/-- The accessor `Source::group(View::Mode)`. -/
def Source.group (s : SourceId) (m : View.Mode) : Node := ⟨s, m⟩

namespace Group

/-- Modelled from the spec: `Group::attach` (`Scene.cpp` is not part of the sources)
adds the node to the children of the group. -/
def attach (children : List Node) (child : Node) : List Node := children ++ [child]

/-- Modelled from the spec: `Group::detatch` (`Scene.cpp` is not part of the sources)
removes one attachment of the node from the children of the group, if there is one. -/
def detatch (children : List Node) (child : Node) : List Node := children.erase child

end Group

/-- Modelled from the spec: a Session (`Session.cpp` is not part of the sources) is an
ordered sequence of Sources with a filename and at most one recorded failed Source;
`sid` is the identity of the Session object. -/
structure Session where
  sid : Nat
  sources : List SourceId
  filename : String
  failedSource : Option SourceId
  deriving DecidableEq

namespace Session

/-- The object built by `new Session`: empty sequence, empty filename. -/
def empty (sid : Nat) : Session := ⟨sid, [], "", none⟩

/-- Modelled from the spec: `addSource` appends at the end of the sequence and returns
the handle of the new element. -/
def addSource (S : Session) (s : SourceId) : Session × Option SourceId :=
  ({ S with sources := S.sources ++ [s] }, some s)

/-- Modelled from the spec: `deleteSource` removes the Source from the sequence. -/
def deleteSource (S : Session) (s : SourceId) : Session :=
  { S with sources := S.sources.erase s }

/-- Modelled from the spec: `popSource` removes and returns the front-most Source, or
returns null when the sequence is empty. -/
def popSource (S : Session) : Option SourceId × Session :=
  match S.sources with
  | [] => (none, S)
  | s :: rest => (some s, { S with sources := rest })

/-- Modelled from the spec: `numSource` is the length of the sequence. -/
def numSource (S : Session) : Nat := S.sources.length

/-- Modelled from the spec: `update` visits the Sources in sequence order and records
at most one failed Source for the tick, the first one found (null when none fails). -/
def update (failed : SourceId → Bool) (S : Session) : Session :=
  { S with failedSource := S.sources.find? failed }

/-- Modelled from the spec: `find(Source*)`, linear lookup with `end` for not found. -/
def find (S : Session) (s : SourceId) : Option SourceId :=
  if s ∈ S.sources then some s else none

/-- Modelled from the spec: `index(iterator)`, the position of the element in the
sequence, `-1` for `end`. -/
def index (S : Session) (it : Option SourceId) : Int :=
  match it with
  | none => -1
  | some s => if s ∈ S.sources then (S.sources.indexOf s : Int) else -1

/-- Modelled from the spec: `setFilename`. -/
def setFilename (S : Session) (f : String) : Session := { S with filename := f }

end Session

namespace Selection

/-- Modelled from the spec: `Selection::contains` (`Selection.cpp` is not part of the
sources). -/
def contains (sel : List SourceId) (s : SourceId) : Bool := decide (s ∈ sel)

/-- Modelled from the spec: `Selection::set` makes the Source the only selected one. -/
def set (_sel : List SourceId) (s : SourceId) : List SourceId := [s]

/-- Modelled from the spec: `Selection::remove`. -/
def remove (sel : List SourceId) (s : SourceId) : List SourceId := sel.filter (fun x => x ≠ s)

/-- Modelled from the spec: `Selection::clear`. -/
def clear (_sel : List SourceId) : List SourceId := []

/-- Modelled from the spec: `Selection::size`. -/
def size (sel : List SourceId) : Nat := sel.length

end Selection

namespace Session

/-- Modelled from the spec: `find(Node*)`, the element whose Source owns the node, `end`
for a null node or a node of no Source of the sequence. -/
def findNode (S : Session) (node : Option Node) : Option SourceId :=
  match node with
  | none => none
  | some n => if n.source ∈ S.sources then some n.source else none

/-- Modelled from the spec: `find(std::string)`, the first element whose Source has the
name (`names` reads the name of a Source object), `end` for not found. -/
def findName (S : Session) (names : SourceId → String) (namesource : String) :
    Option SourceId :=
  S.sources.find? (fun x => names x = namesource)

/-- Modelled from the spec: `find(int)`, the element at the position, `end` for a
position outside the sequence. -/
def findIndex (S : Session) (index : Int) : Option SourceId :=
  if index < 0 then none else S.sources[index.toNat]?

/-- Modelled from the spec: `begin()`, the first element, `end` when the sequence is
empty. -/
def begin (S : Session) : Option SourceId := S.sources.head?

/-- Modelled from the spec: the increment of an iterator that designates the Source
`c` of the sequence: the element after it, `end` after the last one. -/
def next (S : Session) (c : SourceId) : Option SourceId :=
  S.sources[S.sources.indexOf c + 1]?

end Session

/-- Modelled from the spec: `recentSessions.push` (`Settings.h` is not part of the
sources) records the path as the most recent entry of the list. -/
def historyPush (h : List String) (f : String) : List String := f :: h.filter (fun x => x ≠ f)

/-- The state of the `Mixer` singleton together with the file-static flags of
`Mixer.cpp` and the global `View::need_deep_update_`. -/
structure Mixer where
  /-- heap of the Source objects -/
  src : SourceId → Source
  /-- front Session (never null after construction) -/
  session_ : Session
  /-- back Session, `none` for `nullptr` -/
  back_session_ : Option Session
  /-- cursor into the front Session, `none` for `session_->end()` -/
  current_source_ : Option SourceId
  current_source_index_ : Int
  candidate_sources_ : List SourceId
  /-- the Selection returned by `selection()` -/
  selection : List SourceId
  /-- children of `mixing_.scene.ws()` -/
  mixing_ws : List Node
  /-- children of `geometry_.scene.ws()` -/
  geometry_ws : List Node
  /-- children of `layer_.scene.ws()` -/
  layer_ws : List Node
  /-- the view `current_view_` points to -/
  current_view_ : View.Mode
  /-- `View::need_deep_update_` -/
  need_deep_update_ : Bool
  /-- `update_time_`, `none` for `GST_CLOCK_TIME_NONE` -/
  update_time_ : Option Nat
  sessionThreadActive_ : Bool
  sessionSwapRequested_ : Bool
  sessionImportRequested_ : Bool
  /-- identity handed out by the next `new Session` -/
  nextSession : Nat
  /-- title of the main window -/
  title : String
  /-- `Settings::application.recentSessions` -/
  recentSessions : List String
  /-- `Settings::application.recentImport`, the list of recently imported files -/
  recentImport : List String := []
  /-- `Settings::application.recentImport.path` -/
  recentImportPath : String := ""

namespace Mixer

/-- The workspace children of the view `m` (`MIXING`, `GEOMETRY` or `LAYER`). -/
def ws (st : Mixer) (m : View.Mode) : List Node :=
  match m with
  | .MIXING => st.mixing_ws
  | .GEOMETRY => st.geometry_ws
  | .LAYER => st.layer_ws
  | _ => []

/-- `s->setName(n)` on the heap. -/
def setName (st : Mixer) (s : SourceId) (n : String) : Mixer :=
  { st with src := fun x => if x = s then { st.src x with name := n } else st.src x }

/-- `s->setMode(m)` on the heap. -/
def setMode (st : Mixer) (s : SourceId) (m : Source.Mode) : Mixer :=
  { st with src := fun x => if x = s then { st.src x with mode := m } else st.src x }

/-- The names of the Sources of the front Session, in sequence order. -/
def names (st : Mixer) : List String := st.session_.sources.map (fun x => (st.src x).name)

/-- The tentative name `renameSource` starts from: the requested name, or `"source"`
when the requested name is empty (refuse to rename to an empty name). -/
def renameBase (newname : String) : String := if newname = "" then "source" else newname

/-- The `while` loop of `Mixer::renameSource`: as long as a Source of the front Session
has the tentative name (`std::find_if` with `Source::hasName`), the next candidate is
`basename + std::to_string(++count)`.  `count` is an `int` in the source and a natural
number here; it never exceeds the number of Sources plus two.  `none` when the fuel
runs out. -/
def renameLoop (names : List String) (basename : String) :
    Nat → String → Nat → Option String
  | 0, _, _ => none
  | fuel + 1, tentativename, count =>
    if tentativename ∈ names then
      renameLoop names basename fuel (basename ++ toString (count + 1)) (count + 1)
    else some tentativename

/-- `Mixer::renameSource` run with a given fuel for its loop. -/
def renameSourceFuel (fuel : Nat) (st : Mixer) (s : Option SourceId) (newname : String) :
    Option Mixer :=
  match s with
  | none => some st
  | some s =>
    -- tentative new name; refuse to rename to an empty name
    let tentativename := renameBase newname
    -- trivial case : same name as current
    if tentativename = (st.src s).name then some st
    else
      match renameLoop st.names tentativename fuel tentativename 1 with
      | none => none
      | some n => some (st.setName s n)

/-- `Mixer::renameSource`; the loop gets two more steps than the front Session has
Sources, which is always enough (see `renameLoop_terminates`). -/
def renameSource (st : Mixer) (s : Option SourceId) (newname : String) : Option Mixer :=
  renameSourceFuel (st.session_.sources.length + 2) st s newname

/-- `Mixer::unsetCurrentSource`. -/
def unsetCurrentSource (st : Mixer) : Mixer :=
  let st1 : Mixer :=
    match st.current_source_ with
    | none => st
    | some c =>
      -- current source is part of a selection, just change status
      if Selection.size st.selection > 1 then st.setMode c .SELECTED
      -- current source is the only selected source, unselect too
      else { st with selection := Selection.remove st.selection c }
  { st1 with current_source_ := none, current_source_index_ := -1 }

/-- `Mixer::setCurrentSource(SourceList::iterator)`. -/
def setCurrentSource (st : Mixer) (it : Option SourceId) : Mixer :=
  -- nothing to do if already current
  if st.current_source_ = it then st
  else
    -- clear current (even if it is invalid)
    let st1 := st.unsetCurrentSource
    match it with
    | none => st1
    | some s =>
      let st2 : Mixer :=
        { st1 with current_source_ := some s,
                   current_source_index_ := st1.session_.index (some s) }
      let st3 : Mixer :=
        if Selection.contains st2.selection s then st2
        else { st2 with selection := Selection.set st2.selection s }
      st3.setMode s .CURRENT

/-- `Mixer::indexCurrentSource`. -/
def indexCurrentSource (st : Mixer) : Int := st.current_source_index_

/-- `Mixer::currentSource`: the Source under the cursor, null at `end`. -/
def currentSource (st : Mixer) : Option SourceId := st.current_source_

/-- `Mixer::setView`. -/
def setView (st : Mixer) (m : View.Mode) : Mixer :=
  match m with
  | .GEOMETRY => { st with current_view_ := .GEOMETRY }
  | .LAYER => { st with current_view_ := .LAYER }
  | _ => { st with current_view_ := .MIXING }

/-- The three `attach` calls that add the nodes of a Source to the views. -/
def attachSource (st : Mixer) (s : SourceId) : Mixer :=
  { st with mixing_ws := Group.attach st.mixing_ws (Source.group s .MIXING),
            geometry_ws := Group.attach st.geometry_ws (Source.group s .GEOMETRY),
            layer_ws := Group.attach st.layer_ws (Source.group s .LAYER) }

/-- The three `detatch` calls that remove the nodes of a Source from the views. -/
def detatchSource (st : Mixer) (s : SourceId) : Mixer :=
  { st with mixing_ws := Group.detatch st.mixing_ws (Source.group s .MIXING),
            geometry_ws := Group.detatch st.geometry_ws (Source.group s .GEOMETRY),
            layer_ws := Group.detatch st.layer_ws (Source.group s .LAYER) }

/-- `Mixer::insertSource`. -/
def insertSource (st : Mixer) (s : Option SourceId) (makecurrent : Bool) : Mixer :=
  match s with
  | none => st
  | some s =>
    -- Add source to Session
    let r := st.session_.addSource s
    let st1 : Mixer := { st with session_ := r.1 }
    -- default depth and alpha: transform fields only
    -- add sources Nodes to all views
    let st2 := st1.attachSource s
    if makecurrent then
      -- switch to Mixing view to show source created, set this new source as current
      (st2.setView .MIXING).setCurrentSource r.2
    else st2

/-- `Mixer::deleteSource`. -/
def deleteSource (st : Mixer) (s : Option SourceId) : Mixer :=
  match s with
  | none => st
  | some s =>
    -- in case it was the current source...
    let st1 := st.unsetCurrentSource
    -- in case it was selected..
    let st2 : Mixer := { st1 with selection := Selection.remove st1.selection s }
    -- remove source Nodes from all views
    let st3 := st2.detatchSource s
    -- delete source
    { st3 with session_ := st3.session_.deleteSource s }

/-- `Mixer::addSource`. -/
def addSource (st : Mixer) (s : Option SourceId) : Mixer :=
  match s with
  | none => st
  | some s => { st with candidate_sources_ := st.candidate_sources_ ++ [s] }

/-- The loop of `Mixer::merge`: `popSource` until it returns null, inserting every
popped Source without making it current.  Returns the Mixer and the drained Session;
when the fuel runs out the Session is returned as it stands. -/
def mergeLoop : Nat → Mixer → Session → Mixer × Session
  | 0, st, S => (st, S)
  | fuel + 1, st, S =>
    match S.popSource with
    | (none, S1) => (st, S1)
    | (some s, S1) => mergeLoop fuel (st.insertSource (some s) false) S1

/-- `Mixer::merge`; the loop gets one more step than the Session has Sources (see
`mergeLoop_drains`), and the drained Session is deleted. -/
def merge (st : Mixer) (session : Option Session) : Mixer :=
  match session with
  | none => st
  | some S => (mergeLoop (S.sources.length + 1) st S).1

/-- `Mixer::swap`.  The test `if (session_)` of the source always succeeds: the front
Session is set by the constructor and only ever replaced by a non-null back Session. -/
def swap (st : Mixer) : Mixer :=
  match st.back_session_ with
  | none => st
  | some back =>
    -- clear selection
    let st1 : Mixer := { st with selection := Selection.clear st.selection }
    -- detatch current session's nodes from views
    let st2 := st1.session_.sources.foldl detatchSource st1
    -- swap back and front
    let tmp := st2.session_
    let st3 : Mixer := { st2 with session_ := back, back_session_ := some tmp }
    -- attach new session's nodes to views
    let st4 := st3.session_.sources.foldl attachSource st3
    -- copy of views config, resolution: transform fields only
    -- request reordering in depth for views; no current source; reset timer
    let st5 : Mixer :=
      { st4 with need_deep_update_ := true,
                 current_source_ := none,
                 current_source_index_ := -1,
                 update_time_ := none }
    -- delete back
    { st5 with back_session_ := none }

/-- The first block of `Mixer::update`: change session when threaded loading is
finished. -/
def updateSwap (st : Mixer) : Mixer :=
  if st.sessionSwapRequested_ then
    let st1 : Mixer := { st with sessionSwapRequested_ := false }
    match st1.back_session_ with
    | some _ =>
      let st2 := st1.swap
      { st2 with title := st2.session_.filename,
                 recentSessions := historyPush st2.recentSessions st2.session_.filename }
    | none => st1
  else st

/-- The second block of `Mixer::update`: merge the imported session. -/
def updateImport (st : Mixer) : Mixer :=
  if st.sessionImportRequested_ then
    let st1 : Mixer := { st with sessionImportRequested_ := false }
    let st2 := st1.merge st1.back_session_
    { st2 with back_session_ := none }
  else st

/-- The candidate block of `Mixer::update`: when the queue is not empty, its front
Source is inserted and popped.  `makecurrent` is the default value of the second
parameter of `insertSource`, declared in `Mixer.h` (not part of the sources). -/
def updateCandidate (st : Mixer) (makecurrent : Bool) : Mixer :=
  match st.candidate_sources_ with
  | [] => st
  | c :: rest => { st.insertSource (some c) makecurrent with candidate_sources_ := rest }

/-- The failure block of `Mixer::update`: update the front Session, then delete the
failed Source it recorded, if any.  The `failed()` reports are read from the heap. -/
def updateFailed (st : Mixer) : Mixer :=
  -- update session and associated sources
  let st1 : Mixer := { st with session_ := st.session_.update (fun x => (st.src x).failed) }
  -- delete failed sources (one by one)
  st1.deleteSource st1.session_.failedSource

/-- The rest of `Mixer::update` after the two flag blocks: time base, promotion of one
candidate, update of the front Session and removal of the recorded failed Source,
update of the views and end of the deep update.  `now` is the value of
`gst_util_get_timestamp`. -/
def updateSources (st : Mixer) (now : Nat) (makecurrent : Bool) : Mixer :=
  -- compute dt
  let st1 : Mixer := { st with update_time_ := some now }
  -- insert source candidate for this session
  let st2 := st1.updateCandidate makecurrent
  let st3 := st2.updateFailed
  -- update views; deep updates shall be performed only 1 frame
  { st3 with need_deep_update_ := false }

/-- `Mixer::update`, one tick of the render thread. -/
def update (st : Mixer) (now : Nat) (makecurrent : Bool) : Mixer :=
  (st.updateSwap.updateImport).updateSources now makecurrent

/-- `Mixer::open`, the part run by the caller: discard the previous back Session,
create an empty one and launch the `loadSession` task on it.  The task body is the
step `loadSession`, run later with the identity of this Session. -/
def open_ (st : Mixer) : Mixer :=
  { st with back_session_ := some (Session.empty st.nextSession),
            nextSession := st.nextSession + 1 }

/-- `Mixer::import`, the part run by the caller: as `open_`, the task launched is
`importSession`. -/
def import_ (st : Mixer) : Mixer :=
  { st with back_session_ := some (Session.empty st.nextSession),
            nextSession := st.nextSession + 1 }

/-- `Mixer::clear`. -/
def clear (st : Mixer) : Mixer :=
  { st with back_session_ := some (Session.empty st.nextSession),
            nextSession := st.nextSession + 1,
            sessionSwapRequested_ := true }

/-- `Mixer::set`. -/
def set (st : Mixer) (s : Option Session) : Mixer :=
  match s with
  | none => st
  | some S => { st with back_session_ := some S, sessionSwapRequested_ := true }

/-- What `SessionCreator::load` writes into the Session with identity `target` when the
parse succeeds: the Sources it created.  The Session is reached through the pointer the
task was launched with, so it is found whether it is still the back Session or has
become the front one; a Session deleted meanwhile is not part of the state. -/
def populate (st : Mixer) (target : Nat) (loaded : List SourceId) (filename : Option String) :
    Mixer :=
  let fill (S : Session) : Session :=
    if S.sid = target then
      { S with sources := S.sources ++ loaded, filename := filename.getD S.filename }
    else S
  { st with session_ := fill st.session_, back_session_ := st.back_session_.map fill }

/-- The body of the background task `loadSession(filename, session)` after its wait
loop, as one step: `target` is the identity of `session`, `parsed` is `none` when
`creator.load` fails and the list of created Sources when it succeeds. -/
def loadSession (st : Mixer) (filename : String) (target : Nat) (parsed : Option (List SourceId)) :
    Mixer :=
  let st1 : Mixer := { st with sessionThreadActive_ := true }
  let st2 : Mixer :=
    match parsed with
    | some loaded =>
      -- loaded ok
      { st1.populate target loaded (some filename) with sessionSwapRequested_ := true }
    | none => st1
  { st2 with sessionThreadActive_ := false }

/-- The body of the background task `importSession(filename, session)` after its wait
loop, as one step. -/
def importSession (st : Mixer) (target : Nat) (parsed : Option (List SourceId)) : Mixer :=
  let st1 : Mixer := { st with sessionThreadActive_ := true }
  let st2 : Mixer :=
    match parsed with
    | some loaded =>
      { st1.populate target loaded none with sessionImportRequested_ := true }
    | none => st1
  { st2 with sessionThreadActive_ := false }

/-- The number of times the node of Source `s` for the view `m` is attached to the
workspace of that view. -/
def attachCount (st : Mixer) (s : SourceId) (m : View.Mode) : Nat :=
  (st.ws m).count (Source.group s m)

/-- The nodes attached to the workspaces of the Mixing, Geometry and Layer views are
exactly the nodes of the Sources of the front Session, each once per occurrence in the
sequence (the order of the children of a workspace does not matter). -/
def attachedFront (st : Mixer) : Prop :=
  st.mixing_ws.Perm (st.session_.sources.map (fun s => Source.group s .MIXING)) ∧
  st.geometry_ws.Perm (st.session_.sources.map (fun s => Source.group s .GEOMETRY)) ∧
  st.layer_ws.Perm (st.session_.sources.map (fun s => Source.group s .LAYER))

instance (st : Mixer) : Decidable st.attachedFront := by
  unfold attachedFront; infer_instance

/-- The two states agree on everything but the cursor, the selection, the current view
and the modes of the Sources: same Sessions, same workspaces, same queue, same flags,
same names and failure reports. -/
def sameSessions (a b : Mixer) : Prop :=
  a.session_ = b.session_ ∧ a.back_session_ = b.back_session_ ∧
  a.mixing_ws = b.mixing_ws ∧ a.geometry_ws = b.geometry_ws ∧ a.layer_ws = b.layer_ws ∧
  a.candidate_sources_ = b.candidate_sources_ ∧
  a.sessionSwapRequested_ = b.sessionSwapRequested_ ∧
  a.sessionImportRequested_ = b.sessionImportRequested_ ∧
  a.sessionThreadActive_ = b.sessionThreadActive_ ∧
  a.nextSession = b.nextSession ∧
  ∀ x, (a.src x).name = (b.src x).name ∧ (a.src x).failed = (b.src x).failed

/-- The number of Sources of the front Session that report failed. -/
def failingCount (st : Mixer) : Nat :=
  st.session_.sources.countP (fun x => (st.src x).failed)

/-- No candidate is queued and neither a swap nor an import is requested. -/
def quiet (st : Mixer) : Prop :=
  st.candidate_sources_ = [] ∧ st.sessionSwapRequested_ = false ∧
  st.sessionImportRequested_ = false

instance (st : Mixer) : Decidable st.quiet := by
  unfold quiet; infer_instance

/-- A run of ticks: `update` at each of the given timestamps, in order. -/
def run (makecurrent : Bool) (st : Mixer) : List Nat → Mixer
  | [] => st
  | now :: rest => run makecurrent (st.update now makecurrent) rest

/-- A Mixer right after construction of its members: the given heap and front
sequence, no back Session, no current Source, nothing selected, queued or attached,
all flags cleared. -/
def fresh (src : SourceId → Source) (sources : List SourceId) : Mixer :=
  { src := src, session_ := ⟨0, sources, "", none⟩, back_session_ := none,
    current_source_ := none, current_source_index_ := -1, candidate_sources_ := [],
    selection := [], mixing_ws := [], geometry_ws := [], layer_ws := [],
    current_view_ := .MIXING, need_deep_update_ := false, update_time_ := none,
    sessionThreadActive_ := false, sessionSwapRequested_ := false,
    sessionImportRequested_ := false, nextSession := 1, title := "", recentSessions := [] }

/-- The state `fresh` with the nodes of the front Sources attached to the three views. -/
def live (src : SourceId → Source) (sources : List SourceId) : Mixer :=
  { fresh src sources with
    mixing_ws := sources.map (fun s => Source.group s .MIXING),
    geometry_ws := sources.map (fun s => Source.group s .GEOMETRY),
    layer_ws := sources.map (fun s => Source.group s .LAYER) }

/-- Example state: the Sources `0` and `1` are live, `1` is current and selected, a back
Session with the Sources `5` and `6` has been loaded and the swap is requested. -/
def swapReady : Mixer :=
  { live (fun _ => ⟨"", .VISIBLE, false⟩) [0, 1] with
    back_session_ := some ⟨1, [5, 6], "b.mix", none⟩,
    nextSession := 2,
    current_source_ := some 1,
    current_source_index_ := 1,
    selection := [1],
    update_time_ := some 7,
    sessionSwapRequested_ := true }

/-- Example state: the Sources `0`, `1`, `2` are live, `0` is current, `0` and `1` are
selected. -/
def cursorOn : Mixer :=
  { live (fun x => ⟨"", if x = 0 then .CURRENT else if x = 1 then .SELECTED else .VISIBLE,
      false⟩) [0, 1, 2] with
    current_source_ := some 0,
    current_source_index_ := 0,
    selection := [0, 1] }

/-- Example state: the Sources `0` and `1` are live, `0` is current and the only
selected Source. -/
def cursorAlone : Mixer :=
  { live (fun x => ⟨"", if x = 0 then .CURRENT else .VISIBLE, false⟩) [0, 1] with
    current_source_ := some 0,
    current_source_index_ := 0,
    selection := [0] }

/-- The arguments `Mixer::saveas` hands to the detached `saveSession` task: the target
path and the Session (by identity). -/
structure SaveTask where
  filename : String
  session : Nat
  deriving DecidableEq

/-- `Mixer::saveas`: the configuration of the views is copied into the Session
(transform fields only), then the `saveSession` task is launched on the front
Session. -/
def saveas (st : Mixer) (filename : String) : Mixer × Option SaveTask :=
  (st, some ⟨filename, st.session_.sid⟩)

/-- `Mixer::save`. -/
def save (st : Mixer) : Mixer × Option SaveTask :=
  if st.session_.filename ≠ "" then st.saveas st.session_.filename else (st, none)

/-- The Session with identity `target`, front or back, is replaced by its image under
`f`: a write through the `Session*` a task was launched with. -/
def onSession (st : Mixer) (target : Nat) (f : Session → Session) : Mixer :=
  { st with session_ := if st.session_.sid = target then f st.session_ else st.session_,
            back_session_ := st.back_session_.map (fun S => if S.sid = target then f S else S) }

/-- The body of the background task `saveSession(filename, session)` after its wait
loop, as one step: `target` is the identity of `session`, `written` is the result of
`XMLSaveDoc` on the document built (see `saveDocument`). -/
def saveSession (st : Mixer) (filename : String) (target : Nat) (written : Bool) : Mixer :=
  let st1 : Mixer := { st with sessionThreadActive_ := true }
  let st2 : Mixer :=
    if written then
      -- all ok
      { st1.onSession target (fun S => S.setFilename filename) with
        recentSessions := historyPush st1.recentSessions filename }
    else st1
  { st2 with sessionThreadActive_ := false }

/-- What `SystemToolkit` reports for a path (`SystemToolkit.h` is not part of the
sources): `file_exists`, `extension_filename`, `base_filename`, `path_filename`. -/
structure FileInfo where
  file_exists : Bool
  extension_filename : String
  base_filename : String
  path_filename : String

/-- `Mixer::createSourceFile`.  `info` is what `SystemToolkit` reports for `path`; `ss`
and `ms` are the objects `new SessionSource` and `new MediaSource` return, whose
attributes as constructed are in the heap.  Returns the Source (null when the file does
not exist) and the new state; `none` only if the loop of `renameSource` ran out of
fuel. -/
def createSourceFile (st : Mixer) (path : String) (info : FileInfo) (ss ms : SourceId) :
    Option (Option SourceId × Mixer) :=
  -- sanity check
  if info.file_exists then
    -- test type of file by extension: a session source for "mix", a media source otherwise
    let s : SourceId := if info.extension_filename = "mix" then ss else ms
    -- remember in recent media
    let st1 : Mixer :=
      { st with recentImport := historyPush st.recentImport path,
                recentImportPath := info.path_filename }
    -- propose a new name based on uri
    match st1.renameSource (some s) info.base_filename with
    | none => none
    | some st2 => some (some s, st2)
  else
    -- Log::Notify
    some (none, st)

/-- `Mixer::findSource(Node*)`. -/
def findSourceNode (st : Mixer) (node : Option Node) : Option SourceId :=
  st.session_.findNode node

/-- `Mixer::findSource(std::string)`. -/
def findSourceName (st : Mixer) (namesource : String) : Option SourceId :=
  st.session_.findName (fun x => (st.src x).name) namesource

/-- `Mixer::setCurrentSource(Node*)`. -/
def setCurrentSourceNode (st : Mixer) (node : Option Node) : Mixer :=
  st.setCurrentSource (st.session_.findNode node)

/-- `Mixer::setCurrentSource(std::string)`. -/
def setCurrentSourceName (st : Mixer) (namesource : String) : Mixer :=
  st.setCurrentSource (st.session_.findName (fun x => (st.src x).name) namesource)

/-- `Mixer::setCurrentSource(Source*)`; a null pointer is found in no Session. -/
def setCurrentSourcePtr (st : Mixer) (s : Option SourceId) : Mixer :=
  st.setCurrentSource (s.bind st.session_.find)

/-- `Mixer::setCurrentSource(int)`. -/
def setCurrentSourceIndex (st : Mixer) (index : Int) : Mixer :=
  st.setCurrentSource (st.session_.findIndex index)

/-- `Mixer::setCurrentNext`.  The source increments the cursor without a test.  From
an element of the front Session `it++` is the element after it.  From `end` it is the
first element, `end` again for an empty sequence: the `std::list` is circular, the
node after `end` is the first one.  `none` only for a cursor that designates no
Source of the sequence, which no state reached through the member functions has. -/
def setCurrentNext (st : Mixer) : Option Mixer :=
  match st.current_source_ with
  | none =>
    let it := st.session_.begin
    let it := if it = none then st.session_.begin else it
    some (st.setCurrentSource it)
  | some c =>
    if c ∈ st.session_.sources then
      let it := st.session_.next c
      let it := if it = none then st.session_.begin else it
      some (st.setCurrentSource it)
    else none

/-- The cursor and the current index agree: without current Source the index is `-1`;
with a current Source, it is a Source of the front Session and the index is its
position in the sequence. -/
def cursorConsistent (st : Mixer) : Prop :=
  (st.current_source_ = none → st.current_source_index_ = -1) ∧
  ∀ c, st.current_source_ = some c →
    c ∈ st.session_.sources ∧ st.current_source_index_ = (st.session_.sources.indexOf c : Int)

/-- The states of the cursor reachable from a constructed Mixer (no current Source,
current index `-1`) through the member functions that move the cursor or change the
sequence of the front Session.  The iterator overload of `setCurrentSource` gets an
iterator of the front Session: `end`, or one that designates a Source of it. -/
inductive CursorReachable : Mixer → Prop where
  | construct (st : Mixer) : st.current_source_ = none → st.current_source_index_ = -1 →
      CursorReachable st
  | setCurrentSource (st : Mixer) (it : Option SourceId) : CursorReachable st →
      (∀ s, it = some s → s ∈ st.session_.sources) → CursorReachable (st.setCurrentSource it)
  | setCurrentSourceNode (st : Mixer) (node : Option Node) : CursorReachable st →
      CursorReachable (st.setCurrentSourceNode node)
  | setCurrentSourceName (st : Mixer) (namesource : String) : CursorReachable st →
      CursorReachable (st.setCurrentSourceName namesource)
  | setCurrentSourcePtr (st : Mixer) (s : Option SourceId) : CursorReachable st →
      CursorReachable (st.setCurrentSourcePtr s)
  | setCurrentSourceIndex (st : Mixer) (index : Int) : CursorReachable st →
      CursorReachable (st.setCurrentSourceIndex index)
  | setCurrentNext (st st1 : Mixer) : CursorReachable st → st.setCurrentNext = some st1 →
      CursorReachable st1
  | unsetCurrentSource (st : Mixer) : CursorReachable st →
      CursorReachable st.unsetCurrentSource
  | insertSource (st : Mixer) (s : Option SourceId) (makecurrent : Bool) :
      CursorReachable st → CursorReachable (st.insertSource s makecurrent)
  | deleteSource (st : Mixer) (s : Option SourceId) : CursorReachable st →
      CursorReachable (st.deleteSource s)
  | merge (st : Mixer) (session : Option Session) : CursorReachable st →
      CursorReachable (st.merge session)
  | swap (st : Mixer) : CursorReachable st → CursorReachable st.swap

end Mixer

/-- The resolution of a frame buffer, in pixels.  (A `glm::vec3` in the source.) -/
abbrev Resolution := Nat × Nat

/-- The state of a `SessionSource` (`SessionSource.cpp`): the nested Session it owns
(`none` for `nullptr`) and its flags; `ready_` and `active_` are inherited from
`Source`. -/
structure SessionSource where
  session_ : Option Session
  failed_ : Bool
  ready_ : Bool
  active_ : Bool
  paused_ : Bool
  timer_ : Nat
  deriving DecidableEq

namespace SessionSource

/-- The constructor `SessionSource::SessionSource`: `sid` is the identity of the
Session built by `new Session`.  `ready_` and `active_` start as `Source` leaves them
(`Source.cpp` is not part of the sources): not ready, active. -/
def new (sid : Nat) : SessionSource :=
  { session_ := some (Session.empty sid), failed_ := false, ready_ := false,
    active_ := true, paused_ := false, timer_ := 0 }

/-- `SessionSource::detach`: returns the Session given away and the new state; `sid` is
the identity of the Session built by `new Session`. -/
def detach (s : SessionSource) (sid : Nat) : Option Session × SessionSource :=
  -- remember pointer to give away
  let giveaway := s.session_
  -- work on a new session; un-ready; ask to delete me
  (giveaway, { s with session_ := some (Session.empty sid), ready_ := false, failed_ := true })

/-- `SessionSource::failed`. -/
def failed (s : SessionSource) : Bool := s.failed_

/-- `SessionSource::setActive`.  Modelled from the spec: `Source::setActive`
(`Source.cpp` is not part of the sources) records the activation; the call
`session_->setActive(active_)` passes it on to the nested Sources, whose activation
is not part of the state. -/
def setActive (s : SessionSource) (on_ : Bool) : SessionSource :=
  { s with active_ := on_ }

/-- `SessionSource::update`.  `failed` is what the nested Sources report during
`session_->update(dt)`, `elapsed` the value `guint64(dt * 1000.f) * GST_USECOND` added
to the 64-bit timer.  `Source::update(dt)` touches transform fields only. -/
def update (s : SessionSource) (failed : SourceId → Bool) (elapsed : Nat) : SessionSource :=
  match s.session_ with
  | none => s
  | some S =>
    -- update content
    let S1 : Session := if s.active_ && !s.paused_ then S.update failed else S
    let timer1 : Nat :=
      if s.active_ && !s.paused_ then (s.timer_ + elapsed) % 2 ^ 64 else s.timer_
    -- delete a source which failed
    match S1.failedSource with
    | some f =>
      let S2 := S1.deleteSource f
      -- fail session if all sources failed
      { s with session_ := some S2, timer_ := timer1,
               failed_ := if S2.numSource < 1 then true else s.failed_ }
    | none => { s with session_ := some S1, timer_ := timer1 }

/-- `SessionSource::replay`: the nested Sources are replayed (their playing position is
not part of the state) and the timer is reset. -/
def replay (s : SessionSource) : SessionSource :=
  match s.session_ with
  | some _ => { s with timer_ := 0 }
  | none => s

end SessionSource

/-- The state of a `SessionFileSource`: a `SessionSource` with the path, the two
initialization flags, the validity of the future `sessionLoader_`, and what
`Source::attach` sets: the render buffer (`none` for `nullptr`, else its resolution)
and whether the rendering nodes are attached.  `overlay_children` counts the children
of `overlays_[View::TRANSITION]` (the loading icon and the centre mark),
`deep_updates` the increments of `View::need_deep_update_`. -/
structure SessionFileSource extends SessionSource where
  path_ : String
  initialized_ : Bool
  wait_for_sources_ : Bool
  loader_valid : Bool
  renderbuffer_ : Option Resolution
  rendering_attached : Bool
  overlay_children : Nat
  deep_updates : Nat
  deriving DecidableEq

/-- What the outside delivers to one call of `SessionFileSource::init`.
`loaded` is the outcome of `sessionLoader_.wait_for`: `none` when the task is not
finished in time, `some r` when it is, `r` being the Session `Session::load` returns
(`none` for null).  `isInitialized` and `failed` are the reports of the nested
Sources after `session_->update(dt_)`; `resolution` is that of `session_->frame()`. -/
structure InitEnv where
  loaded : Option (Option Session)
  isInitialized : SourceId → Bool
  failed : SourceId → Bool
  resolution : Resolution

namespace SessionFileSource

/-- The constructor `SessionFileSource::SessionFileSource`. -/
def new (sid : Nat) : SessionFileSource :=
  { SessionSource.new sid with
    path_ := "", initialized_ := false, wait_for_sources_ := false, loader_valid := false,
    renderbuffer_ := none, rendering_attached := false, overlay_children := 2,
    deep_updates := 0 }

/-- `SessionFileSource::load`; `sid` is the identity of the Session built by
`new Session` when the path is empty. -/
def load (s : SessionFileSource) (p : String) (sid : Nat) : SessionFileSource :=
  -- delete session
  let s1 : SessionFileSource := { s with path_ := p, session_ := none }
  -- init session
  let s2 : SessionFileSource :=
    if p = "" then
      -- empty session
      { s1 with session_ := some (Session.empty sid) }
    else
      -- launch a thread to load the session file
      { s1 with loader_valid := true }
  -- will be ready after init and one frame rendered
  { s2 with initialized_ := false, ready_ := false }

/-- Modelled from the spec: `Source::attach(FrameBuffer*)` (`Source.cpp` is not part of
the sources) sets the render buffer of the source and attaches the rendering nodes. -/
def attach (s : SessionFileSource) (renderbuffer : Resolution) : SessionFileSource :=
  { s with renderbuffer_ := some renderbuffer, rendering_attached := true }

/-- The first part of `SessionFileSource::init`, up to the test of `initialized_`.
`none` when `wait_for` is called on a future without shared state (no load launched,
or its result already taken). -/
def initSession (s : SessionFileSource) (env : InitEnv) : Option SessionFileSource :=
  match s.session_ with
  | none =>
    -- init is first about getting the loaded session
    if s.loader_valid then
      match env.loaded with
      | some result =>
        -- the loader finished
        let s1 : SessionFileSource := { s with session_ := result, loader_valid := false }
        if result.isNone then some { s1 with failed_ := true } else some s1
      | none => some s
    else none
  | some S =>
    if s.wait_for_sources_ then
      -- force update of of all sources; update to draw framebuffer
      let s1 : SessionFileSource :=
        { s with active_ := true, session_ := some (S.update env.failed) }
      -- if all sources are ready, done with initialization!
      if (S.update env.failed).sources.all env.isInitialized then
        some { s1 with wait_for_sources_ := false, initialized_ := true }
      else some s1
    else if !s.failed_ then
      -- set resolution; update to draw framebuffer
      let s1 : SessionFileSource := { s with session_ := some (S.update env.failed) }
      -- create Frame buffer matching size of session, attach rendering nodes
      let s2 := s1.attach env.resolution
      -- wait for all sources to init
      if (S.update env.failed).numSource > 0 then some { s2 with wait_for_sources_ := true }
      else some { s2 with initialized_ := true }
    else some s

/-- The last part of `SessionFileSource::init`: once initialized, remove the loading
icon (nothing to remove when the overlay is empty) and ask for a deep update. -/
def initDone (s : SessionFileSource) : SessionFileSource :=
  if s.initialized_ then
    { s with overlay_children := s.overlay_children - 1, deep_updates := s.deep_updates + 1 }
  else s

/-- `SessionFileSource::init`. -/
def init (s : SessionFileSource) (env : InitEnv) : Option SessionFileSource :=
  (s.initSession env).map initDone

/-- `SessionFileSource::render`. -/
def render (s : SessionFileSource) (env : InitEnv) : Option SessionFileSource :=
  if !s.initialized_ then s.init env
  else
    -- render the media player into frame buffer
    some { s with ready_ := true }

/-- The states a `SessionFileSource` reaches from its construction through `load`,
`init` and `render`. -/
inductive Reachable : SessionFileSource → Prop where
  | new (sid : Nat) : Reachable (SessionFileSource.new sid)
  | load (s : SessionFileSource) (p : String) (sid : Nat) :
      Reachable s → Reachable (s.load p sid)
  | init (s s1 : SessionFileSource) (env : InitEnv) :
      Reachable s → s.init env = some s1 → Reachable s1
  | render (s s1 : SessionFileSource) (env : InitEnv) :
      Reachable s → s.render env = some s1 → Reachable s1

/-- Example: what is delivered to `init` when the load task has finished with a Session
holding the Source `5`, which does not report initialized yet. -/
def envLoaded : InitEnv :=
  { loaded := some (some ⟨1, [5], "a.mix", none⟩), isInitialized := fun _ => false,
    failed := fun _ => false, resolution := (1280, 720) }

/-- Example: as `envLoaded`, every nested Source reporting initialized. -/
def envReady : InitEnv :=
  { loaded := some (some ⟨1, [5], "a.mix", none⟩), isInitialized := fun _ => true,
    failed := fun _ => false, resolution := (1280, 720) }

/-- `SessionSource::update` on a `SessionFileSource`, which does not override it. -/
def update (s : SessionFileSource) (failed : SourceId → Bool) (elapsed : Nat) :
    SessionFileSource :=
  { s with toSessionSource := s.toSessionSource.update failed elapsed }

/-- `SessionSource::setActive` on a `SessionFileSource`, which does not override it. -/
def setActive (s : SessionFileSource) (on_ : Bool) : SessionFileSource :=
  { s with toSessionSource := s.toSessionSource.setActive on_ }

/-- `SessionSource::replay` on a `SessionFileSource`, which does not override it. -/
def replay (s : SessionFileSource) : SessionFileSource :=
  { s with toSessionSource := s.toSessionSource.replay }

/-- `SessionSource::detach` on a `SessionFileSource`, which does not override it. -/
def detach (s : SessionFileSource) (sid : Nat) : Option Session × SessionFileSource :=
  ((s.toSessionSource.detach sid).1, { s with toSessionSource := (s.toSessionSource.detach sid).2 })

/-- Example: what is delivered to `init` when the load task has finished with a null
Session. -/
def envNull : InitEnv :=
  { loaded := some none, isInitialized := fun _ => false, failed := fun _ => false,
    resolution := (1280, 720) }

/-- Example: a `SessionFileSource` that was loaded with a Session holding one Source,
has allocated its render buffer and waits for the nested Source, and is then told to
load another file. -/
def reloadedWhileWaiting : Option SessionFileSource :=
  (((SessionFileSource.new 0).load "a.mix" 9).init envLoaded).bind (fun s1 =>
    (s1.init envLoaded).map (fun s2 => s2.load "b.mix" 9))

end SessionFileSource

/-- What a `RenderSource` reads of a frame buffer: its resolution and its texture
index. -/
structure FrameBuffer where
  resolution : Resolution
  texture : Nat
  deriving DecidableEq

/-- The state of a `RenderSource` (`SessionSource.cpp`): the render target
`renderbuffer_` (`none` for `nullptr`, else its resolution), and the Session it is
bound to (`none` for `nullptr`), of which it reads `frame()` only (`none` when
`frame()` is null).  `deep_updates` counts the increments of
`View::need_deep_update_`. -/
structure RenderSource where
  renderbuffer_ : Option Resolution
  session_ : Option (Option FrameBuffer)
  rendering_attached : Bool
  deep_updates : Nat
  deriving DecidableEq

namespace RenderSource

/-- The constructor `RenderSource::RenderSource`: no Session, no render target. -/
def new : RenderSource :=
  { renderbuffer_ := none, session_ := none, rendering_attached := false, deep_updates := 0 }

/-- `RenderSource::failed`.  `none` when the call dereferences a null `frame()`.  The
comparison `!=` of the two `glm::vec3` is the inequality of the resolutions. -/
def failed (s : RenderSource) : Option Bool :=
  match s.renderbuffer_, s.session_ with
  | some rb, some frame =>
    match frame with
    | some fb => some (rb != fb.resolution)
    | none => none
  | _, _ => some false

/-- `RenderSource::init`; `textureBlack` is `Resource::getTextureBlack()`.
Modelled from the spec: `Source::attach(FrameBuffer*)` sets the render buffer of the
source and attaches the rendering nodes. -/
def init (s : RenderSource) (textureBlack : Nat) : RenderSource :=
  match s.session_ with
  | some (some fb) =>
    if fb.texture ≠ textureBlack then
      -- create Frame buffer matching size of output session
      -- set the renderbuffer of the source and attach rendering nodes
      -- deep update to reorder
      { s with renderbuffer_ := some fb.resolution, rendering_attached := true,
               deep_updates := s.deep_updates + 1 }
    else s
  | _ => s

end RenderSource

/-- A node of the XML document built by `saveSession`.  `source s` stands for the
subtree the `SessionVisitor` writes for the Source `s`, `transform m` for the element
`SessionVisitor::NodeToXML` builds from the configuration node of the view `m`. -/
inductive XMLNode where
  | element (name : String) (attributes : List (String × Int)) (children : List XMLNode)
  | source (s : SourceId)
  | transform (m : View.Mode)

namespace XMLNode

/-- `InsertEndChild` on an element. -/
def insertEndChild (parent child : XMLNode) : XMLNode :=
  match parent with
  | element n a c => element n a (c ++ [child])
  | other => other

/-- `SetAttribute` on an element. -/
def setAttribute (e : XMLNode) (key : String) (value : Int) : XMLNode :=
  match e with
  | element n a c => element n (a ++ [(key, value)]) c
  | other => other

/-- The children of an element. -/
def children : XMLNode → List XMLNode
  | element _ _ c => c
  | _ => []

/-- The name of an element. -/
def name : XMLNode → Option String
  | element n _ _ => some n
  | _ => none

/-- The attributes of an element. -/
def attributes : XMLNode → List (String × Int)
  | element _ a _ => a
  | _ => []

end XMLNode

/-- Modelled from the spec: what `(*iter)->accept(sv)` does with a `SessionVisitor` on
the element `sessionNode` (`SessionVisitor.cpp` is not part of the sources): one child
subtree for the Source is appended. -/
def SessionVisitor.accept (sessionNode : XMLNode) (s : SourceId) : XMLNode :=
  sessionNode.insertEndChild (XMLNode.source s)

/-- The XML document `saveSession` builds, given as the list of the children of the
`XMLDocument` in the order of the `xmlDoc.InsertEndChild` calls.  `appName`, `major`
and `minor` are `APP_NAME`, `XML_VERSION_MAJOR` and `XML_VERSION_MINOR` of `defines.h`
(not part of the sources). -/
def saveDocument (appName : String) (major minor : Int) (S : Session) : List XMLNode :=
  let version :=
    ((XMLNode.element appName [] []).setAttribute "major" major).setAttribute "minor" minor
  -- 1. list of sources
  let sessionNode := S.sources.foldl SessionVisitor.accept (XMLNode.element "Session" [] [])
  -- 2. config of views
  let mixing := (XMLNode.element "Mixing" [] []).insertEndChild (XMLNode.transform .MIXING)
  let geometry := (XMLNode.element "Geometry" [] []).insertEndChild (XMLNode.transform .GEOMETRY)
  let layer := (XMLNode.element "Layer" [] []).insertEndChild (XMLNode.transform .LAYER)
  let render := (XMLNode.element "Rendering" [] []).insertEndChild (XMLNode.transform .RENDERING)
  let views :=
    ((((XMLNode.element "Views" [] []).insertEndChild mixing).insertEndChild geometry
      ).insertEndChild layer).insertEndChild render
  [version, sessionNode, views]

/-- Where a background task (`loadSession`, `importSession` or `saveSession` of
`Mixer.cpp`) stands in its body.  Each access to the atomic `sessionThreadActive_` is
one step: the read in the condition of the `while` loop, the store of `true` after the
loop, and the store of `false` at the end of the body. -/
inductive TaskPc where
  /-- in the loop `while (sessionThreadActive_) sleep_for(50ms)` -/
  | waiting
  /-- has read `sessionThreadActive_` as false and left the loop; the next statement
  is `sessionThreadActive_ = true` -/
  | passed
  /-- between `sessionThreadActive_ = true` and `sessionThreadActive_ = false`: loads,
  imports or saves -/
  | working
  /-- has executed `sessionThreadActive_ = false` and returned -/
  | done
  deriving DecidableEq

/-- The flag `sessionThreadActive_` and the background tasks started so far. -/
structure SessionThreads where
  sessionThreadActive_ : Bool
  tasks : List TaskPc
  deriving DecidableEq

namespace SessionThreads

/-- The launch `std::thread(...).detach()` of one more task body. -/
def start (p : SessionThreads) : SessionThreads :=
  { p with tasks := p.tasks ++ [.waiting] }

/-- The next step of task `i`, by its position in the body. -/
def step (p : SessionThreads) (i : Nat) : SessionThreads :=
  match p.tasks[i]? with
  | some .waiting =>
    -- while (sessionThreadActive_) sleep
    if p.sessionThreadActive_ then p else { p with tasks := p.tasks.set i .passed }
  | some .passed =>
    -- sessionThreadActive_ = true
    { sessionThreadActive_ := true, tasks := p.tasks.set i .working }
  | some .working =>
    -- the work of the body, then sessionThreadActive_ = false
    { sessionThreadActive_ := false, tasks := p.tasks.set i .done }
  | _ => p

/-- The tasks take their steps in the order of the schedule. -/
def run (p : SessionThreads) (schedule : List Nat) : SessionThreads :=
  schedule.foldl step p

/-- The number of tasks between setting and clearing the flag. -/
def working (p : SessionThreads) : Nat := p.tasks.count .working

end SessionThreads

/-- The `AppLog` of `Log.cpp`: the characters of the text buffer `Buf` (without its
terminating zero, so `Buf.size()` is the length of the list) and the vector
`LineOffsets`.  The `int` sizes and offsets of the source are natural numbers here
(a buffer below `2 ^ 31` characters). -/
structure AppLog where
  Buf : List Char
  LineOffsets : List Nat
  deriving DecidableEq

namespace AppLog

/-- `AppLog::Clear`. -/
def Clear (_log : AppLog) : AppLog := { Buf := [], LineOffsets := [0] }

/-- The constructor `AppLog::AppLog`, which calls `Clear`. -/
def new : AppLog := Clear { Buf := [], LineOffsets := [] }

/-- The `for` loop of `AppLog::AddLog`, with `n = new_size - old_size` iterations left:
every newline found at `old_size` records the offset `old_size + 1`. -/
def scanLines (Buf : List Char) : Nat → Nat → List Nat → List Nat
  | 0, _, LineOffsets => LineOffsets
  | n + 1, old_size, LineOffsets =>
    scanLines Buf n (old_size + 1)
      (if Buf[old_size]? = some '\n' then LineOffsets ++ [old_size + 1] else LineOffsets)

/-- `AppLog::AddLog`; `text` is what `Buf.appendfv(fmt, args)` appends, the formatted
message. -/
def AddLog (log : AppLog) (text : List Char) : AppLog :=
  let old_size := log.Buf.length
  let Buf := log.Buf ++ text ++ ['\n']
  { Buf := Buf, LineOffsets := scanLines Buf (Buf.length - old_size) old_size log.LineOffsets }

/-- The pair `line_start`, `line_end` that `AppLog::Draw` computes for `line_no`, as
offsets from `Buf.begin()`; `Buf.end()` is the offset `Buf.size()`.  `none` when
`line_no` is not an index of `LineOffsets`. -/
def lineRange (log : AppLog) (line_no : Nat) : Option (Int × Int) :=
  match log.LineOffsets[line_no]? with
  | none => none
  | some start =>
    some ((start : Int),
      if line_no + 1 < log.LineOffsets.length then
        ((log.LineOffsets.getD (line_no + 1) 0 : Nat) : Int) - 1
      else (log.Buf.length : Int))

/-- The positions immediately after each newline character of the buffer, in
increasing order. -/
def newlineOffsets (Buf : List Char) : List Nat :=
  ((List.range Buf.length).filter (fun k => Buf[k]? = some '\n')).map (fun k => k + 1)

/-- The logs reached from the constructor through `Clear` and `AddLog`. -/
inductive Logged : AppLog → Prop where
  | new : Logged AppLog.new
  | Clear (log : AppLog) : Logged log → Logged log.Clear
  | AddLog (log : AppLog) (text : List Char) : Logged log → Logged (log.AddLog text)

end AppLog

namespace MixingView

/-- The macro `CIRCLE_PIXELS` of `View.cpp`. -/
def CIRCLE_PIXELS : Nat := 64

/-- The array `GLubyte matrix[CIRCLE_PIXELS*CIRCLE_PIXELS * 4]` of
`MixingView::textureMixingQuadratic`: the byte at each index, `none` as long as
nothing was written there. -/
abbrev Matrix := Nat → Option Nat

/-- The number of bytes of the array `matrix`. -/
def matrixSize : Nat := CIRCLE_PIXELS * CIRCLE_PIXELS * 4

/-- `memmove(&matrix[dest], color, 4)`: the four bytes of `color` go to the indices
`dest` to `dest + 3`. -/
def memmove (matrix : Matrix) (dest : Nat) (color : Nat → Nat) : Matrix :=
  fun k => if dest ≤ k ∧ k < dest + 4 then some (color (k - dest)) else matrix k

/-- The destinations of the four `memmove` calls of the loop body for the loop indices
`i` and `j`, in the order of the source (the `int` expressions are evaluated on
natural numbers: with `i, j < CIRCLE_PIXELS / 2` no subtraction goes below zero). -/
def quadrantOffsets (i j : Nat) : List Nat :=
  [ j * 4 + i * CIRCLE_PIXELS * 4,
    (CIRCLE_PIXELS - j - 1) * 4 + i * CIRCLE_PIXELS * 4,
    j * 4 + (CIRCLE_PIXELS - i - 1) * CIRCLE_PIXELS * 4,
    (CIRCLE_PIXELS - j - 1) * 4 + (CIRCLE_PIXELS - i - 1) * CIRCLE_PIXELS * 4 ]

/-- The body of the inner loop.  `color i j` stands for the four bytes the body computes
in floating point from `l = i - 31` and `c = j - 31` (luminance three times, then
alpha); their values are not modelled. -/
def fillQuadrants (color : Nat → Nat → Nat → Nat) (matrix : Matrix) (i j : Nat) : Matrix :=
  (quadrantOffsets i j).foldl (fun m dest => memmove m dest (color i j)) matrix

/-- The inner loop `for (int j = 0; j < CIRCLE_PIXELS / 2; ++j)`. -/
def fillRow (color : Nat → Nat → Nat → Nat) (matrix : Matrix) (i : Nat) : Matrix :=
  (List.range (CIRCLE_PIXELS / 2)).foldl (fun m j => fillQuadrants color m i j) matrix

/-- The double loop of `MixingView::textureMixingQuadratic`, from the array as
declared. -/
def textureMixingQuadratic (color : Nat → Nat → Nat → Nat) : Matrix :=
  (List.range (CIRCLE_PIXELS / 2)).foldl (fun m i => fillRow color m i) (fun _ => none)

/-- The `memmove` calls of the double loop in execution order: destination and loop
indices. -/
def writes : List (Nat × Nat × Nat) :=
  (List.range (CIRCLE_PIXELS / 2)).flatMap (fun i =>
    (List.range (CIRCLE_PIXELS / 2)).flatMap (fun j =>
      (quadrantOffsets i j).map (fun dest => (dest, i, j))))

/-- The index in `matrix` of the first byte of the pixel at row `r`, column `c`. -/
def pixelOffset (r c : Nat) : Nat := c * 4 + r * CIRCLE_PIXELS * 4

/-- The four bytes of the pixel at row `r`, column `c` of the matrix. -/
def pixel (matrix : Matrix) (r c : Nat) : List (Option Nat) :=
  (List.range 4).map (fun k => matrix (pixelOffset r c + k))

end MixingView

/-- Example heap: Source `0` is named `a`, Source `1` is named `a2`, every other
Source has the empty name; none reports failed. -/
def heapA : SourceId → Source := fun x =>
  ⟨if x = 0 then "a" else if x = 1 then "a2" else "", .VISIBLE, false⟩

/-- Example heap: every Source is named `a`; none reports failed. -/
def heapSame : SourceId → Source := fun _ => ⟨"a", .VISIBLE, false⟩

/-- Example heap: every Source has the empty name and reports failed. -/
def heapFailed : SourceId → Source := fun _ => ⟨"", .VISIBLE, true⟩

/-- The value of a string of decimal digits. -/
def digitsValue (cs : List Char) : Nat := cs.foldl (fun a c => 10 * a + (c.toNat - 48)) 0

/-! ## Decimal suffixes are pairwise distinct -/

theorem digitChar_value (k : Nat) (h : k < 10) : (Nat.digitChar k).toNat - 48 = k := by
  interval_cases k <;> rfl

theorem toDigitsCore_value (fuel : Nat) : ∀ (n : Nat) (ds : List Char), n < fuel →
    ∃ pre, Nat.toDigitsCore 10 fuel n ds = pre ++ ds ∧ digitsValue pre = n := by
  induction fuel with
  | zero => intro n ds h; omega
  | succ fuel ih =>
    intro n ds h
    simp only [Nat.toDigitsCore]
    by_cases h0 : n / 10 = 0
    · refine ⟨[Nat.digitChar (n % 10)], by simp [h0], ?_⟩
      have hlt : n < 10 := by omega
      simp [digitsValue, digitChar_value (n % 10) (Nat.mod_lt _ (by decide))]
      omega
    · have hlt : n / 10 < fuel := by omega
      obtain ⟨pre, hpre, hval⟩ := ih (n / 10) (Nat.digitChar (n % 10) :: ds) hlt
      refine ⟨pre ++ [Nat.digitChar (n % 10)], by simp [h0, hpre], ?_⟩
      have hv : List.foldl (fun a c => 10 * a + (c.toNat - 48)) 0 pre = n / 10 := hval
      simp [digitsValue, List.foldl_append, hv,
        digitChar_value (n % 10) (Nat.mod_lt _ (by decide))]
      omega

theorem digitsValue_repr (n : Nat) : digitsValue (toString n).data = n := by
  obtain ⟨pre, hpre, hval⟩ := toDigitsCore_value (n + 1) n [] (by omega)
  have h : (toString n).data = pre := by
    show (Nat.repr n).data = pre
    simp [Nat.repr, Nat.toDigits, hpre, List.asString]
  rw [h, hval]

theorem toString_nat_injective (j k : Nat) (h : toString j = toString k) : j = k := by
  have := congrArg (fun s => digitsValue s.data) h
  simpa [digitsValue_repr] using this

theorem suffix_injective (base : String) (j k : Nat)
    (h : base ++ toString j = base ++ toString k) : j = k := by
  apply toString_nat_injective
  apply String.ext
  have := congrArg String.data h
  simp only [String.data_append] at this
  exact List.append_cancel_left this

/-- Among the `n + 1` names `base2 … base(n+2)` one is missing from a list of `n`
names. -/
theorem exists_free_suffix (names : List String) (base : String) :
    ∃ k, 2 ≤ k ∧ k ≤ names.length + 2 ∧ base ++ toString k ∉ names := by
  by_contra hcon
  push_neg at hcon
  have hle : (Finset.range (names.length + 1)).card ≤ names.toFinset.card := by
    apply Finset.card_le_card_of_injOn (fun i => base ++ toString (i + 2))
    · intro i hi
      simp only [Finset.mem_range] at hi
      simp only [List.mem_toFinset]
      exact hcon (i + 2) (by omega) (by omega)
    · intro i _ j _ hij
      have := suffix_injective base _ _ hij
      omega
  have := List.toFinset_card_le names
  simp at hle
  omega

namespace Mixer

/-! ## `renameSource` -/

theorem renameLoop_suffix (names : List String) (base : String) :
    ∀ (d c fuel : Nat), (∀ j, c ≤ j → j < c + d → base ++ toString j ∈ names) →
      base ++ toString (c + d) ∉ names → d < fuel →
      renameLoop names base fuel (base ++ toString c) c = some (base ++ toString (c + d)) := by
  intro d
  induction d with
  | zero =>
    intro c fuel _ hfree hfuel
    obtain ⟨f, rfl⟩ : ∃ f, fuel = f + 1 := ⟨fuel - 1, by omega⟩
    simp only [Nat.add_zero] at hfree
    simp [renameLoop, hfree]
  | succ d ih =>
    intro c fuel hused hfree hfuel
    obtain ⟨f, rfl⟩ : ∃ f, fuel = f + 1 := ⟨fuel - 1, by omega⟩
    have hc : base ++ toString c ∈ names := hused c (le_refl _) (by omega)
    have := ih (c + 1) f (fun j h1 h2 => hused j (by omega) (by omega))
      (by rwa [show c + 1 + d = c + (d + 1) by omega]) (by omega)
    simp only [renameLoop, hc, if_true]
    rw [this, show c + 1 + d = c + (d + 1) by omega]

/-- The loop started as `renameSource` starts it yields the base name when it is free
and otherwise the base name with the smallest free suffix `k ≥ 2`; it needs at most
`names.length + 2` steps. -/
theorem renameLoop_terminates (names : List String) (base : String) (fuel : Nat)
    (hfuel : names.length + 2 ≤ fuel) :
    ∃ n, renameLoop names base fuel base 1 = some n ∧ n ∉ names ∧
      (base ∉ names → n = base) ∧
      (base ∈ names → ∃ k, 2 ≤ k ∧ k ≤ names.length + 2 ∧ n = base ++ toString k ∧
        ∀ j, 2 ≤ j → j < k → base ++ toString j ∈ names) := by
  obtain ⟨f, rfl⟩ : ∃ f, fuel = f + 1 := ⟨fuel - 1, by omega⟩
  by_cases hb : base ∈ names
  · have hex : ∃ k, 2 ≤ k ∧ k ≤ names.length + 2 ∧ base ++ toString k ∉ names :=
      exists_free_suffix names base
    obtain ⟨h2, hle, hfree⟩ := Nat.find_spec hex
    have hmin : ∀ j, 2 ≤ j → j < Nat.find hex → base ++ toString j ∈ names := by
      intro j hj hlt
      have := Nat.find_min hex hlt
      by_contra hnot
      exact this ⟨hj, by omega, hnot⟩
    have hloop := renameLoop_suffix names base (Nat.find hex - 2) 2 f
      (fun j h1 h2 => hmin j h1 (by omega))
      (by rwa [show 2 + (Nat.find hex - 2) = Nat.find hex by omega]) (by omega)
    rw [show 2 + (Nat.find hex - 2) = Nat.find hex by omega] at hloop
    refine ⟨base ++ toString (Nat.find hex), ?_, hfree, fun h => absurd hb h, fun _ =>
      ⟨Nat.find hex, h2, hle, rfl, hmin⟩⟩
    simp only [renameLoop, hb, if_true]
    exact hloop
  · exact ⟨base, by simp [renameLoop, hb], hb, fun _ => rfl, fun h => absurd h hb⟩

/-- What `renameSource` does when the base name differs from the current name of `s`. -/
theorem renameSource_spec (st : Mixer) (s : SourceId) (newname : String)
    (hne : renameBase newname ≠ (st.src s).name) :
    ∃ st1, (∀ fuel, st.session_.sources.length + 2 ≤ fuel →
        st.renameSourceFuel fuel (some s) newname = some st1) ∧
      st.renameSource (some s) newname = some st1 ∧
      (renameBase newname ∉ st.names → (st1.src s).name = renameBase newname) ∧
      (renameBase newname ∈ st.names → ∃ k, 2 ≤ k ∧ k ≤ st.session_.sources.length + 2 ∧
        (st1.src s).name = renameBase newname ++ toString k ∧
        renameBase newname ++ toString k ∉ st.names ∧
        ∀ j, 2 ≤ j → j < k → renameBase newname ++ toString j ∈ st.names) ∧
      (∀ x, x ≠ s → st1.src x = st.src x) ∧
      (st1.src s).mode = (st.src s).mode ∧ (st1.src s).failed = (st.src s).failed ∧
      st1.session_ = st.session_ ∧ st1.candidate_sources_ = st.candidate_sources_ := by
  have hlen : st.names.length = st.session_.sources.length := by simp [names]
  obtain ⟨n, hn, _, hfree, hused⟩ :=
    renameLoop_terminates st.names (renameBase newname) (st.session_.sources.length + 2)
      (by omega)
  have hall : ∀ fuel, st.session_.sources.length + 2 ≤ fuel →
      st.renameSourceFuel fuel (some s) newname = some (st.setName s n) := by
    intro fuel hfuel
    obtain ⟨m, hm, _, hfree1, hused1⟩ :=
      renameLoop_terminates st.names (renameBase newname) fuel (by omega)
    have hmn : m = n := by
      by_cases hb : renameBase newname ∈ st.names
      · obtain ⟨k, hk2, _, hk, hkmin⟩ := hused hb
        obtain ⟨k1, hk12, _, hk1, hk1min⟩ := hused1 hb
        -- both are the smallest free suffix
        have hnfree : renameBase newname ++ toString k ∉ st.names := by
          rw [← hk]; assumption
        have hmfree : renameBase newname ++ toString k1 ∉ st.names := by
          rw [← hk1]; assumption
        have : k = k1 := by
          rcases Nat.lt_trichotomy k k1 with h | h | h
          · exact absurd (hk1min k hk2 h) hnfree
          · exact h
          · exact absurd (hkmin k1 hk12 h) hmfree
        rw [hk, hk1, this]
      · rw [hfree hb, hfree1 hb]
    simp only [renameSourceFuel, hne, if_false]
    rw [hm, hmn]
  refine ⟨st.setName s n, hall, hall _ (le_refl _), ?_, ?_, ?_, ?_, ?_, rfl, rfl⟩
  · intro hb
    simp [setName, hfree hb]
  · intro hb
    obtain ⟨k, hk2, hkle, hk, hkmin⟩ := hused hb
    refine ⟨k, hk2, by omega, by simp [setName, hk], ?_, hkmin⟩
    rw [← hk]; assumption
  · intro x hx
    simp [setName, hx]
  · simp [setName]
  · simp [setName]

/-- The name given by `renameSource` is the name of no Source of the front Session. -/
theorem renameSource_fresh (st : Mixer) (s : SourceId) (newname : String)
    (hne : renameBase newname ≠ (st.src s).name) :
    ∃ st1, st.renameSource (some s) newname = some st1 ∧ (st1.src s).name ∉ st.names ∧
      (∀ x, x ≠ s → st1.src x = st.src x) ∧ st1.session_ = st.session_ := by
  obtain ⟨st1, _, h1, hfree, hused, hoth, _, _, hsess, _⟩ := renameSource_spec st s newname hne
  refine ⟨st1, h1, ?_, hoth, hsess⟩
  by_cases hb : renameBase newname ∈ st.names
  · obtain ⟨k, _, _, hk, hkfree, _⟩ := hused hb
    rw [hk]; exact hkfree
  · rw [hfree hb]; exact hb

/-- C1, as stated, fails: the front Session holds one Source named `a`, the Source `1`
outside the Session is named `a` too; `renameSource(1, "a")` returns at the test
"same name as current" and the name of `1` still equals the name of a Source of the
front Session. -/
theorem renameSource_unique_counterexample :
    (fresh heapSame [0]).names.Nodup ∧ 1 ∉ (fresh heapSame [0]).session_.sources ∧
    ∃ st1, (fresh heapSame [0]).renameSource (some 1) "a" = some st1 ∧
      ∃ x ∈ st1.session_.sources, x ≠ 1 ∧ (st1.src 1).name = (st1.src x).name :=
  ⟨by decide, by decide, fresh heapSame [0], rfl, 0, by decide, by decide, by decide⟩

/-- C1, amended.  In a Mixer whose front Session has pairwise distinct source names,
for a Source `s` that is in the front Session, or that is outside it with a current
name different from the base name asked for: `renameSource` terminates, keeps the
sequence of the front Session, and afterwards the name of `s` differs from the name of
every other Source of the front Session and the names of the front Session are
pairwise distinct. -/
theorem renameSource_unique (st : Mixer) (s : SourceId) (newname : String)
    (hnd : st.names.Nodup)
    (hs : s ∈ st.session_.sources ∨ renameBase newname ≠ (st.src s).name) :
    ∃ st1, st.renameSource (some s) newname = some st1 ∧
      st1.session_.sources = st.session_.sources ∧
      (∀ x ∈ st1.session_.sources, x ≠ s → (st1.src s).name ≠ (st1.src x).name) ∧
      st1.names.Nodup := by
  by_cases hne : renameBase newname = (st.src s).name
  · -- trivial case : same name as current
    have hin : s ∈ st.session_.sources := by
      rcases hs with h | h
      · exact h
      · exact absurd hne h
    refine ⟨st, by simp [renameSource, renameSourceFuel, hne], rfl, ?_, hnd⟩
    intro x hx hxs heq
    exact hxs (List.inj_on_of_nodup_map hnd hx hin heq.symm)
  · obtain ⟨st1, h1, hfresh, hoth, hsess⟩ := renameSource_fresh st s newname hne
    have hold : ∀ x ∈ st.session_.sources, x ≠ s → (st1.src x).name ∈ st.names := by
      intro x hx hxs
      rw [hoth x hxs]
      exact List.mem_map.mpr ⟨x, hx, rfl⟩
    refine ⟨st1, h1, by rw [hsess], ?_, ?_⟩
    · intro x hx hxs heq
      rw [hsess] at hx
      exact hfresh (heq ▸ hold x hx hxs)
    · show (st1.session_.sources.map (fun x => (st1.src x).name)).Nodup
      rw [hsess]
      apply List.Nodup.map_on _ (List.Nodup.of_map _ hnd)
      intro x hx y hy heq
      by_cases hxs : x = s
      · by_cases hys : y = s
        · rw [hxs, hys]
        · exfalso
          rw [hxs] at heq
          exact hfresh (heq ▸ hold y hy hys)
      · by_cases hys : y = s
        · exfalso
          rw [hys] at heq
          exact hfresh (heq ▸ hold x hx hxs)
        · rw [hoth x hxs, hoth y hys] at heq
          exact List.inj_on_of_nodup_map hnd hx hy heq

/-- Witness of `renameSource_unique`: the front Sources are named `a` and `a2`, the
second one is renamed to `a`. -/
theorem renameSource_unique_witness :
    ∃ st1, (fresh heapA [0, 1]).renameSource (some 1) "a" = some st1 ∧
      st1.session_.sources = (fresh heapA [0, 1]).session_.sources ∧
      (∀ x ∈ st1.session_.sources, x ≠ 1 → (st1.src 1).name ≠ (st1.src x).name) ∧
      st1.names.Nodup :=
  renameSource_unique (fresh heapA [0, 1]) 1 "a" (by decide) (Or.inl (by decide))

/-- On the example heap the colliding rename of `2` to `a` gives `a3`. -/
theorem renameSource_example :
    ((fresh heapA [0, 1]).renameSource (some 2) "a").map (fun st => (st.src 2).name)
      = some "a3" := by
  decide

theorem mem_names (st : Mixer) (n : String) :
    n ∈ st.names ↔ ∃ x ∈ st.session_.sources, (st.src x).name = n := by
  simp [names]

/-- C2. Result of rename.  With `base` the requested name when that is not empty and
`"source"` when it is empty, and `base` different from the current name of `s`:
`renameSource` terminates (with every fuel of at least the number of Sources plus two,
the value it runs with included); the name of `s` becomes `base` when no Source of the
front Session has that name, and otherwise `base` followed by the decimal digits of the
smallest `k ≥ 2` such that no Source of the front Session is named `base` followed by
`k` (this `k` is at most the number of Sources plus two); every other Source and the
rest of the state are unchanged. -/
theorem renameSource_result (st : Mixer) (s : SourceId) (newname base : String)
    (hbase : (newname ≠ "" → base = newname) ∧ (newname = "" → base = "source"))
    (hne : base ≠ (st.src s).name) :
    ∃ st1, (∀ fuel, st.session_.sources.length + 2 ≤ fuel →
        st.renameSourceFuel fuel (some s) newname = some st1) ∧
      st.renameSource (some s) newname = some st1 ∧
      ((∀ x ∈ st.session_.sources, (st.src x).name ≠ base) → (st1.src s).name = base) ∧
      ((∃ x ∈ st.session_.sources, (st.src x).name = base) →
        ∃ k, 2 ≤ k ∧ k ≤ st.session_.sources.length + 2 ∧
          (st1.src s).name = base ++ toString k ∧
          digitsValue (toString k).data = k ∧
          (∀ x ∈ st.session_.sources, (st.src x).name ≠ base ++ toString k) ∧
          ∀ j, 2 ≤ j → j < k →
            ∃ x ∈ st.session_.sources, (st.src x).name = base ++ toString j) ∧
      (∀ x, x ≠ s → st1.src x = st.src x) ∧
      (st1.src s).mode = (st.src s).mode ∧ (st1.src s).failed = (st.src s).failed ∧
      st1.session_ = st.session_ ∧ st1.candidate_sources_ = st.candidate_sources_ := by
  have hb : renameBase newname = base := by
    unfold renameBase
    by_cases h : newname = ""
    · rw [if_pos h]; exact (hbase.2 h).symm
    · rw [if_neg h]; exact (hbase.1 h).symm
  obtain ⟨st1, h1, h2, h3, h4, h5, h6, h7, h8, h9⟩ :=
    renameSource_spec st s newname (by rw [hb]; exact hne)
  rw [hb] at h3 h4
  refine ⟨st1, h1, h2, fun hfree => h3 ?_, fun hused => ?_, h5, h6, h7, h8, h9⟩
  · rw [mem_names]
    rintro ⟨x, hx, hn⟩
    exact hfree x hx hn
  · obtain ⟨k, k1, k2, k3, k4, k5⟩ := h4 ((mem_names st base).mpr hused)
    refine ⟨k, k1, k2, k3, digitsValue_repr k, fun x hx hn => k4 ?_, fun j j1 j2 => ?_⟩
    · exact (mem_names st _).mpr ⟨x, hx, hn⟩
    · exact (mem_names st _).mp (k5 j j1 j2)

/-- Witness of `renameSource_result`, on the front Sources `0` and `1` named `a` and
`a2`: the empty name gives `source` to Source `2`; the name `a`, which is in use,
gives it `a` followed by a number. -/
theorem renameSource_result_witness :
    (∃ st1, (fresh heapA [0, 1]).renameSource (some 2) "" = some st1 ∧
      (st1.src 2).name = "source") ∧
    (∃ st1, (fresh heapA [0, 1]).renameSource (some 2) "a" = some st1 ∧
      ∃ k, 2 ≤ k ∧ (st1.src 2).name = "a" ++ toString k) :=
  ⟨(renameSource_result (fresh heapA [0, 1]) 2 "" "source"
      ⟨fun h => absurd rfl h, fun _ => rfl⟩ (by decide)).elim
      (fun st1 h => ⟨st1, h.2.1, h.2.2.1 (by decide)⟩),
    (renameSource_result (fresh heapA [0, 1]) 2 "a" "a"
      ⟨fun _ => rfl, fun h => absurd h (by decide)⟩ (by decide)).elim
      (fun st1 h => ⟨st1, h.2.1,
        (h.2.2.2.1 ⟨0, by decide, by decide⟩).elim (fun k hk => ⟨k, hk.1, hk.2.2.1⟩)⟩)⟩

/-! ## Frame properties of the cursor operations -/

theorem sameSessions_refl (st : Mixer) : sameSessions st st :=
  ⟨rfl, rfl, rfl, rfl, rfl, rfl, rfl, rfl, rfl, rfl, fun _ => ⟨rfl, rfl⟩⟩

theorem sameSessions_trans {a b c : Mixer} (h1 : sameSessions a b) (h2 : sameSessions b c) :
    sameSessions a c := by
  obtain ⟨a1, a2, a3, a4, a5, a6, a7, a8, a9, a10, a11⟩ := h1
  obtain ⟨b1, b2, b3, b4, b5, b6, b7, b8, b9, b10, b11⟩ := h2
  exact ⟨a1.trans b1, a2.trans b2, a3.trans b3, a4.trans b4, a5.trans b5, a6.trans b6,
    a7.trans b7, a8.trans b8, a9.trans b9, a10.trans b10,
    fun x => ⟨(a11 x).1.trans (b11 x).1, (a11 x).2.trans (b11 x).2⟩⟩

theorem setMode_same (st : Mixer) (s : SourceId) (m : Source.Mode) :
    sameSessions (st.setMode s m) st := by
  refine ⟨rfl, rfl, rfl, rfl, rfl, rfl, rfl, rfl, rfl, rfl, fun x => ?_⟩
  by_cases h : x = s <;> simp [setMode, h]

theorem unsetCurrentSource_same (st : Mixer) : sameSessions st.unsetCurrentSource st := by
  unfold unsetCurrentSource
  cases st.current_source_ with
  | none => exact sameSessions_refl st
  | some c =>
    by_cases h : Selection.size st.selection > 1
    · simp only [h, if_true]
      exact setMode_same st c .SELECTED
    · simp only [h, if_false]
      exact sameSessions_refl st

theorem setCurrentSource_same (st : Mixer) (it : Option SourceId) :
    sameSessions (st.setCurrentSource it) st := by
  unfold setCurrentSource
  by_cases h : st.current_source_ = it
  · simp only [h, if_true]
    exact sameSessions_refl st
  · simp only [h, if_false]
    cases it with
    | none => exact unsetCurrentSource_same st
    | some s =>
      refine sameSessions_trans (setMode_same _ s .CURRENT) ?_
      refine sameSessions_trans ?_ (unsetCurrentSource_same st)
      by_cases hc : Selection.contains st.unsetCurrentSource.selection s = true
      · simp only [hc, if_true]
        exact sameSessions_refl _
      · simp only [hc]
        exact sameSessions_refl _

theorem setView_same (st : Mixer) (m : View.Mode) : sameSessions (st.setView m) st := by
  cases m <;> exact sameSessions_refl st

theorem sameSessions_ws {a b : Mixer} (h : sameSessions a b) (v : View.Mode) :
    a.ws v = b.ws v := by
  obtain ⟨_, _, h3, h4, h5, _⟩ := h
  cases v <;> simp [ws, h3, h4, h5]

/-! ## `insertSource` and `deleteSource` -/

theorem insertSource_sources (st : Mixer) (s : SourceId) (b : Bool) :
    (st.insertSource (some s) b).session_.sources = st.session_.sources ++ [s] := by
  cases b
  · rfl
  · simp only [insertSource, if_true]
    rw [(setCurrentSource_same _ _).1, (setView_same _ _).1]
    rfl

theorem insertSource_ws (st : Mixer) (s : SourceId) (b : Bool) (v : View.Mode) :
    (st.insertSource (some s) b).ws v =
      if v = .MIXING ∨ v = .GEOMETRY ∨ v = .LAYER then st.ws v ++ [Source.group s v]
      else st.ws v := by
  have h0 : ∀ v, (st.insertSource (some s) false).ws v =
      if v = .MIXING ∨ v = .GEOMETRY ∨ v = .LAYER then st.ws v ++ [Source.group s v]
      else st.ws v := by
    intro v
    cases v <;> simp [insertSource, Session.addSource, attachSource, ws, Group.attach]
  cases b
  · exact h0 v
  · rw [← h0 v]
    simp only [insertSource, if_true]
    rw [sameSessions_ws (setCurrentSource_same _ _), sameSessions_ws (setView_same _ _)]
    simp

theorem deleteSource_sources (st : Mixer) (s : SourceId) :
    (st.deleteSource (some s)).session_.sources = st.session_.sources.erase s := by
  simp only [deleteSource, Session.deleteSource, detatchSource]
  rw [(unsetCurrentSource_same st).1]

theorem deleteSource_ws (st : Mixer) (s : SourceId) (v : View.Mode) :
    (st.deleteSource (some s)).ws v = (st.ws v).erase (Source.group s v) := by
  obtain ⟨_, _, h3, h4, h5, _⟩ := unsetCurrentSource_same st
  cases v <;> simp [deleteSource, detatchSource, ws, Group.detatch, h3, h4, h5]

theorem group_injective (v : View.Mode) : Function.Injective (fun s => Source.group s v) := by
  intro a b h
  simpa [Source.group] using h

theorem attachedFront_iff (st : Mixer) :
    st.attachedFront ↔ ∀ v, v = View.Mode.MIXING ∨ v = View.Mode.GEOMETRY ∨ v = View.Mode.LAYER →
      (st.ws v).Perm (st.session_.sources.map (fun s => Source.group s v)) := by
  constructor
  · rintro ⟨h1, h2, h3⟩ v (rfl | rfl | rfl)
    · exact h1
    · exact h2
    · exact h3
  · intro h
    exact ⟨h _ (Or.inl rfl), h _ (Or.inr (Or.inl rfl)), h _ (Or.inr (Or.inr rfl))⟩

theorem ws_other (st : Mixer) (v : View.Mode)
    (hv : ¬ (v = View.Mode.MIXING ∨ v = View.Mode.GEOMETRY ∨ v = View.Mode.LAYER)) :
    st.ws v = [] := by
  cases v <;> simp_all [ws]

/-- `insertSource` keeps the workspaces in step with the front Session. -/
theorem insertSource_attachedFront (st : Mixer) (s : SourceId) (b : Bool)
    (hinv : st.attachedFront) : (st.insertSource (some s) b).attachedFront := by
  rw [attachedFront_iff] at hinv ⊢
  intro v hv
  rw [insertSource_ws, if_pos hv, insertSource_sources, List.map_append]
  exact List.Perm.append_right _ (hinv v hv)

/-- `deleteSource` keeps the workspaces in step with the front Session. -/
theorem deleteSource_attachedFront (st : Mixer) (s : SourceId)
    (hinv : st.attachedFront) : (st.deleteSource (some s)).attachedFront := by
  rw [attachedFront_iff] at hinv ⊢
  intro v hv
  rw [deleteSource_ws, deleteSource_sources, List.map_erase (group_injective v)]
  exact List.Perm.erase _ (hinv v hv)

/-- In a state whose workspaces are in step with the front Session, a Source outside
the Session has no node attached. -/
theorem attachCount_zero (st : Mixer) (s : SourceId) (v : View.Mode)
    (hinv : st.attachedFront) (hs : s ∉ st.session_.sources) : st.attachCount s v = 0 := by
  unfold attachCount
  by_cases hv : v = View.Mode.MIXING ∨ v = View.Mode.GEOMETRY ∨ v = View.Mode.LAYER
  · rw [((attachedFront_iff st).1 hinv v hv).count_eq, List.count_eq_zero]
    intro hmem
    obtain ⟨x, hx, hxs⟩ := List.mem_map.1 hmem
    have : x = s := group_injective v hxs
    exact hs (this ▸ hx)
  · rw [ws_other st v hv]; rfl

/-- C3. Attach/detach atomicity.  In a Mixer whose workspaces hold exactly the nodes of
the front Session, for a Source `s` not yet in the front Session and either value of
`makecurrent`: after `insertSource` the Source is in the front Session and its Mixing,
Geometry and Layer nodes are each attached exactly once to the workspace of their view;
after a following `deleteSource` the Source is no longer in the front Session and no
node of `s` is attached to any view.  Both calls with a null Source change nothing. -/
theorem insertSource_deleteSource_attachment (st : Mixer) (s : SourceId) (makecurrent : Bool)
    (hinv : st.attachedFront) (hs : s ∉ st.session_.sources) :
    (s ∈ (st.insertSource (some s) makecurrent).session_.sources ∧
      (st.insertSource (some s) makecurrent).attachCount s .MIXING = 1 ∧
      (st.insertSource (some s) makecurrent).attachCount s .GEOMETRY = 1 ∧
      (st.insertSource (some s) makecurrent).attachCount s .LAYER = 1 ∧
      (st.insertSource (some s) makecurrent).attachedFront) ∧
    (s ∉ ((st.insertSource (some s) makecurrent).deleteSource (some s)).session_.sources ∧
      (∀ v, ∀ n ∈ ((st.insertSource (some s) makecurrent).deleteSource (some s)).ws v,
        n.source ≠ s) ∧
      ((st.insertSource (some s) makecurrent).deleteSource (some s)).attachedFront) ∧
    (∀ b, st.insertSource none b = st) ∧ st.deleteSource none = st := by
  have hin := insertSource_attachedFront st s makecurrent hinv
  have hdel := deleteSource_attachedFront _ s hin
  have hcount : ∀ v, v = View.Mode.MIXING ∨ v = View.Mode.GEOMETRY ∨ v = View.Mode.LAYER →
      (st.insertSource (some s) makecurrent).attachCount s v = 1 := by
    intro v hv
    have h0 := attachCount_zero st s v hinv hs
    unfold attachCount at h0 ⊢
    rw [insertSource_ws, if_pos hv, List.count_append, h0]
    simp
  have hout : s ∉ ((st.insertSource (some s) makecurrent).deleteSource (some s)).session_.sources := by
    rw [deleteSource_sources, insertSource_sources, List.erase_append_right _ hs]
    simpa using hs
  refine ⟨⟨?_, hcount _ (Or.inl rfl), hcount _ (Or.inr (Or.inl rfl)),
    hcount _ (Or.inr (Or.inr rfl)), hin⟩, ⟨hout, ?_, hdel⟩, fun _ => rfl, rfl⟩
  · rw [insertSource_sources]; simp
  · intro v n hn hns
    by_cases hv : v = View.Mode.MIXING ∨ v = View.Mode.GEOMETRY ∨ v = View.Mode.LAYER
    · have hmem := (((attachedFront_iff _).1 hdel v hv).mem_iff).1 hn
      obtain ⟨x, hx, hxn⟩ := List.mem_map.1 hmem
      have : x = s := by rw [← hns, ← hxn]; rfl
      exact hout (this ▸ hx)
    · rw [ws_other _ v hv] at hn
      simp at hn

/-- Witness of `insertSource_deleteSource_attachment`: two Sources are live, a third
one is inserted and made current, then deleted. -/
theorem insertSource_deleteSource_attachment_witness :
    (2 ∈ ((live heapA [0, 1]).insertSource (some 2) true).session_.sources ∧
      ((live heapA [0, 1]).insertSource (some 2) true).attachCount 2 .MIXING = 1 ∧
      ((live heapA [0, 1]).insertSource (some 2) true).attachCount 2 .GEOMETRY = 1 ∧
      ((live heapA [0, 1]).insertSource (some 2) true).attachCount 2 .LAYER = 1 ∧
      ((live heapA [0, 1]).insertSource (some 2) true).attachedFront) ∧
    (2 ∉ (((live heapA [0, 1]).insertSource (some 2) true).deleteSource (some 2)).session_.sources ∧
      (∀ v, ∀ n ∈ (((live heapA [0, 1]).insertSource (some 2) true).deleteSource (some 2)).ws v,
        n.source ≠ 2) ∧
      (((live heapA [0, 1]).insertSource (some 2) true).deleteSource (some 2)).attachedFront) ∧
    (∀ b, (live heapA [0, 1]).insertSource none b = live heapA [0, 1]) ∧
    (live heapA [0, 1]).deleteSource none = live heapA [0, 1] :=
  insertSource_deleteSource_attachment (live heapA [0, 1]) 2 true (by decide) (by decide)

/-! ## `swap` -/

theorem foldl_detatchSource (l : List SourceId) : ∀ st : Mixer,
    l.foldl detatchSource st =
      { st with
        mixing_ws := l.foldl (fun w s => Group.detatch w (Source.group s .MIXING)) st.mixing_ws,
        geometry_ws :=
          l.foldl (fun w s => Group.detatch w (Source.group s .GEOMETRY)) st.geometry_ws,
        layer_ws := l.foldl (fun w s => Group.detatch w (Source.group s .LAYER)) st.layer_ws } := by
  induction l with
  | nil => intro st; rfl
  | cons a t ih => intro st; rw [List.foldl_cons, ih]; rfl

theorem foldl_attachSource (l : List SourceId) : ∀ st : Mixer,
    l.foldl attachSource st =
      { st with
        mixing_ws := st.mixing_ws ++ l.map (fun s => Source.group s .MIXING),
        geometry_ws := st.geometry_ws ++ l.map (fun s => Source.group s .GEOMETRY),
        layer_ws := st.layer_ws ++ l.map (fun s => Source.group s .LAYER) } := by
  induction l with
  | nil => intro st; simp
  | cons a t ih =>
    intro st
    rw [List.foldl_cons, ih]
    simp [attachSource, Group.attach]

/-- Detaching the node of every Source of a sequence empties a workspace that held
exactly these nodes. -/
theorem foldl_detatch_all (v : View.Mode) (l : List SourceId) : ∀ w : List Node,
    w.Perm (l.map (fun s => Source.group s v)) →
    l.foldl (fun w s => Group.detatch w (Source.group s v)) w = [] := by
  induction l with
  | nil => intro w h; simpa using h
  | cons a t ih =>
    intro w h
    rw [List.foldl_cons]
    apply ih
    have := List.Perm.erase (Source.group a v) h
    simpa [Group.detatch] using this

/-- The state `swap` produces when there is a back Session and the workspaces held
exactly the nodes of the front Session. -/
theorem swap_eq (st : Mixer) (back : Session) (hb : st.back_session_ = some back)
    (hinv : st.attachedFront) :
    st.swap =
      { st with
        selection := [],
        mixing_ws := back.sources.map (fun s => Source.group s .MIXING),
        geometry_ws := back.sources.map (fun s => Source.group s .GEOMETRY),
        layer_ws := back.sources.map (fun s => Source.group s .LAYER),
        session_ := back,
        need_deep_update_ := true,
        current_source_ := none,
        current_source_index_ := -1,
        update_time_ := none,
        back_session_ := none } := by
  obtain ⟨h1, h2, h3⟩ := hinv
  simp only [swap, hb, foldl_detatchSource, foldl_attachSource, Selection.clear,
    foldl_detatch_all _ _ _ h1, foldl_detatch_all _ _ _ h2, foldl_detatch_all _ _ _ h3,
    List.nil_append]

/-- The part of the state `swap` sets whatever the workspaces held. -/
theorem swap_fields (st : Mixer) (back : Session) (hb : st.back_session_ = some back) :
    st.swap.session_ = back ∧ st.swap.back_session_ = none ∧ st.swap.selection = [] ∧
    st.swap.current_source_ = none ∧ st.swap.current_source_index_ = -1 ∧
    st.swap.need_deep_update_ = true ∧ st.swap.update_time_ = none ∧
    st.swap.candidate_sources_ = st.candidate_sources_ ∧ st.swap.src = st.src ∧
    st.swap.sessionSwapRequested_ = st.sessionSwapRequested_ ∧
    st.swap.sessionImportRequested_ = st.sessionImportRequested_ := by
  simp [swap, hb, foldl_detatchSource, foldl_attachSource, Selection.clear]

/-- C4. Swap re-attachment.  With a non-null back Session and the workspaces holding
exactly the nodes of the Sources of the front Session: after `swap` the front Session
is the former back Session and, for each of the Mixing, Geometry and Layer views, the
attached nodes are exactly the nodes of the Sources of the new front Session: every
attached node belongs to a Source of the new front Session, every Source of it has its
node attached, with the same multiplicity as in the sequence. -/
theorem swap_reattach (st : Mixer) (back : Session) (hb : st.back_session_ = some back)
    (hinv : st.attachedFront) :
    st.swap.session_ = back ∧ st.swap.attachedFront ∧
    (∀ v, v = View.Mode.MIXING ∨ v = View.Mode.GEOMETRY ∨ v = View.Mode.LAYER →
      st.swap.ws v = back.sources.map (fun s => Source.group s v)) ∧
    (∀ v, ∀ n ∈ st.swap.ws v, n.source ∈ st.swap.session_.sources ∧ n.view = v) ∧
    (∀ v, v = View.Mode.MIXING ∨ v = View.Mode.GEOMETRY ∨ v = View.Mode.LAYER →
      ∀ s ∈ st.swap.session_.sources, Source.group s v ∈ st.swap.ws v) := by
  have hws : ∀ v, v = View.Mode.MIXING ∨ v = View.Mode.GEOMETRY ∨ v = View.Mode.LAYER →
      st.swap.ws v = back.sources.map (fun s => Source.group s v) := by
    rintro v (rfl | rfl | rfl) <;> rw [swap_eq st back hb hinv] <;> rfl
  have hsess : st.swap.session_ = back := (swap_fields st back hb).1
  refine ⟨hsess, ?_, hws, ?_, ?_⟩
  · rw [attachedFront_iff]
    intro v hv
    rw [hws v hv, hsess]
  · intro v n hn
    by_cases hv : v = View.Mode.MIXING ∨ v = View.Mode.GEOMETRY ∨ v = View.Mode.LAYER
    · rw [hws v hv] at hn
      obtain ⟨x, hx, rfl⟩ := List.mem_map.1 hn
      exact ⟨hsess ▸ hx, rfl⟩
    · rw [ws_other _ v hv] at hn
      simp at hn
  · intro v hv x hx
    rw [hws v hv]
    exact List.mem_map.2 ⟨x, hsess ▸ hx, rfl⟩

/-- Witness of `swap_reattach`: two Sources are live, the back Session holds the
Sources `5` and `6`. -/
theorem swap_reattach_witness :
    (swapReady.swap.session_ = ⟨1, [5, 6], "b.mix", none⟩ ∧ swapReady.swap.attachedFront ∧
    (∀ v, v = View.Mode.MIXING ∨ v = View.Mode.GEOMETRY ∨ v = View.Mode.LAYER →
      swapReady.swap.ws v =
        (⟨1, [5, 6], "b.mix", none⟩ : Session).sources.map (fun s => Source.group s v)) ∧
    (∀ v, ∀ n ∈ swapReady.swap.ws v, n.source ∈ swapReady.swap.session_.sources ∧ n.view = v) ∧
    (∀ v, v = View.Mode.MIXING ∨ v = View.Mode.GEOMETRY ∨ v = View.Mode.LAYER →
      ∀ s ∈ swapReady.swap.session_.sources, Source.group s v ∈ swapReady.swap.ws v)) :=
  swap_reattach swapReady ⟨1, [5, 6], "b.mix", none⟩ rfl (by decide)

/-- C5. State after swap.  With a non-null back Session, immediately after `swap` there
is no current Source (`currentSource` is null, `indexCurrentSource` is `-1`), the
selection is empty, the back Session pointer is null, the deep-update flag is set and
the update-time base is reset to none; with a null back Session `swap` changes
nothing. -/
theorem swap_state (st : Mixer) :
    (st.back_session_ ≠ none →
      st.swap.currentSource = none ∧ st.swap.indexCurrentSource = -1 ∧
      st.swap.selection = [] ∧ st.swap.back_session_ = none ∧
      st.swap.need_deep_update_ = true ∧ st.swap.update_time_ = none) ∧
    (st.back_session_ = none → st.swap = st) := by
  constructor
  · intro hne
    obtain ⟨back, hb⟩ := Option.ne_none_iff_exists'.1 hne
    obtain ⟨_, h2, h3, h4, h5, h6, h7, _⟩ := swap_fields st back hb
    exact ⟨h4, h5, h3, h2, h6, h7⟩
  · intro hnone
    simp [swap, hnone]

/-- Witness of `swap_state`, first part: a state with a back Session, a current Source
and a selection. -/
theorem swap_state_witness :
    (swapReady.back_session_ ≠ none ∧
      swapReady.swap.currentSource = none ∧ swapReady.swap.indexCurrentSource = -1 ∧
      swapReady.swap.selection = [] ∧ swapReady.swap.back_session_ = none ∧
      swapReady.swap.need_deep_update_ = true ∧ swapReady.swap.update_time_ = none) ∧
    ((live heapA [0, 1]).back_session_ = none ∧
      (live heapA [0, 1]).swap = live heapA [0, 1]) :=
  ⟨⟨by decide, (swap_state swapReady).1 (by decide)⟩,
    ⟨rfl, (swap_state (live heapA [0, 1])).2 rfl⟩⟩

/-! ## `merge` -/

theorem foldl_insertSource_sources (l : List SourceId) : ∀ st : Mixer,
    (l.foldl (fun m s => m.insertSource (some s) false) st).session_.sources =
      st.session_.sources ++ l := by
  induction l with
  | nil => intro st; simp
  | cons a t ih =>
    intro st
    rw [List.foldl_cons, ih, insertSource_sources]
    simp

/-- With more fuel than the Session has Sources, the loop of `merge` stops because
`popSource` returns null: the Session is drained and every Source of it has gone
through `insertSource`, in sequence order. -/
theorem mergeLoop_drains : ∀ (fuel : Nat) (st : Mixer) (S : Session),
    S.sources.length < fuel →
    (mergeLoop fuel st S).2.sources = [] ∧ (mergeLoop fuel st S).2.popSource.1 = none ∧
    (mergeLoop fuel st S).1 = S.sources.foldl (fun m s => m.insertSource (some s) false) st := by
  intro fuel
  induction fuel with
  | zero => intro st S h; omega
  | succ fuel ih =>
    intro st S h
    obtain ⟨sid, srcs, fn, fs⟩ := S
    cases srcs with
    | nil => simp [mergeLoop, Session.popSource]
    | cons a t =>
      have := ih (st.insertSource (some a) false) ⟨sid, t, fn, fs⟩
        (by simp only [List.length_cons] at h; show t.length < fuel; omega)
      simpa [mergeLoop, Session.popSource] using this

/-- C6. Merge draining.  For a front Session and a non-null Session `S` whose Sources
are pairwise distinct and distinct from those of the front Session (itself without
duplicates): the loop of `merge` terminates with every fuel above the number of
Sources of `S`, the value `merge` runs it with included, and leaves `S` with an empty
sequence; the front Session has exactly `n` more Sources, `n` the number of Sources of
`S`, and no duplicates.  `merge` of a null Session changes nothing. -/
theorem merge_drains (st : Mixer) (S : Session)
    (hS : S.sources.Nodup) (hF : st.session_.sources.Nodup)
    (hdisj : ∀ x ∈ S.sources, x ∉ st.session_.sources) :
    (∀ fuel, S.sources.length < fuel →
      (mergeLoop fuel st S).2.sources = [] ∧ (mergeLoop fuel st S).2.popSource.1 = none ∧
      (mergeLoop fuel st S).1 = st.merge (some S)) ∧
    (st.merge (some S)).session_.sources.length =
      st.session_.sources.length + S.sources.length ∧
    (st.merge (some S)).session_.sources.Nodup ∧
    st.merge none = st := by
  have hm : st.merge (some S) = S.sources.foldl (fun m s => m.insertSource (some s) false) st :=
    (mergeLoop_drains (S.sources.length + 1) st S (by omega)).2.2
  have hsrc : (st.merge (some S)).session_.sources = st.session_.sources ++ S.sources := by
    rw [hm, foldl_insertSource_sources]
  refine ⟨?_, ?_, ?_, rfl⟩
  · intro fuel hfuel
    obtain ⟨h1, h2, h3⟩ := mergeLoop_drains fuel st S hfuel
    exact ⟨h1, h2, by rw [h3, hm]⟩
  · rw [hsrc, List.length_append]
  · rw [hsrc]
    apply List.Nodup.append hF hS
    intro x hx hxS
    exact hdisj x hxS hx

/-- Witness of `merge_drains`: the Sources `5` and `6` are merged into a front Session
holding `0` and `1`. -/
theorem merge_drains_witness :
    (∀ fuel, (⟨1, [5, 6], "b.mix", none⟩ : Session).sources.length < fuel →
      (mergeLoop fuel (live heapA [0, 1]) ⟨1, [5, 6], "b.mix", none⟩).2.sources = [] ∧
      (mergeLoop fuel (live heapA [0, 1]) ⟨1, [5, 6], "b.mix", none⟩).2.popSource.1 = none ∧
      (mergeLoop fuel (live heapA [0, 1]) ⟨1, [5, 6], "b.mix", none⟩).1 =
        (live heapA [0, 1]).merge (some ⟨1, [5, 6], "b.mix", none⟩)) ∧
    ((live heapA [0, 1]).merge (some ⟨1, [5, 6], "b.mix", none⟩)).session_.sources.length =
      (live heapA [0, 1]).session_.sources.length +
        (⟨1, [5, 6], "b.mix", none⟩ : Session).sources.length ∧
    ((live heapA [0, 1]).merge (some ⟨1, [5, 6], "b.mix", none⟩)).session_.sources.Nodup ∧
    (live heapA [0, 1]).merge none = live heapA [0, 1] :=
  merge_drains (live heapA [0, 1]) ⟨1, [5, 6], "b.mix", none⟩ (by decide) (by decide)
    (by decide)

/-! ## One failed Source per tick -/

theorem countP_erase_of_pos (p : SourceId → Bool) (l : List SourceId) (f : SourceId)
    (hf : f ∈ l) (hp : p f = true) : (l.erase f).countP p = l.countP p - 1 := by
  have := (List.perm_cons_erase hf).countP_eq p
  rw [this, List.countP_cons_of_pos _ _ hp]
  omega

theorem updateSwap_idle (st : Mixer) (h : st.sessionSwapRequested_ = false) :
    st.updateSwap = st := by
  simp [updateSwap, h]

theorem updateImport_idle (st : Mixer) (h : st.sessionImportRequested_ = false) :
    st.updateImport = st := by
  simp [updateImport, h]

/-- What `deleteSource` leaves alone: the queue, the flags, the back Session and the
failure reports. -/
theorem deleteSource_frame (st : Mixer) (s : Option SourceId) :
    (st.deleteSource s).candidate_sources_ = st.candidate_sources_ ∧
    (st.deleteSource s).sessionSwapRequested_ = st.sessionSwapRequested_ ∧
    (st.deleteSource s).sessionImportRequested_ = st.sessionImportRequested_ ∧
    (st.deleteSource s).back_session_ = st.back_session_ ∧
    (st.deleteSource s).session_.sid = st.session_.sid ∧
    ∀ x, ((st.deleteSource s).src x).failed = (st.src x).failed := by
  cases s with
  | none => exact ⟨rfl, rfl, rfl, rfl, rfl, fun _ => rfl⟩
  | some s =>
    obtain ⟨h1, h2, _, _, _, h6, h7, h8, _, _, h11⟩ := unsetCurrentSource_same st
    refine ⟨h6, h7, h8, h2, ?_, fun x => (h11 x).2⟩
    show (st.unsetCurrentSource.session_.deleteSource s).sid = _
    rw [h1]; rfl

/-- The last part of a tick when no candidate is queued. -/
theorem updateSources_idle (st : Mixer) (now : Nat) (mc : Bool)
    (hc : st.candidate_sources_ = []) :
    st.updateSources now mc =
      { Mixer.deleteSource
          { st with update_time_ := some now,
                    session_ := st.session_.update (fun x => (st.src x).failed) }
          (st.session_.sources.find? (fun x => (st.src x).failed))
        with need_deep_update_ := false } := by
  unfold updateSources updateCandidate updateFailed
  simp only [hc]
  rfl

/-- A tick of a quiet Mixer: the flags and the queue stay as they are, the failure
reports are not touched, and the front sequence loses the first failing Source, if
there is one. -/
theorem update_quiet (st : Mixer) (now : Nat) (mc : Bool) (hq : st.quiet) :
    (st.update now mc).quiet ∧
    (∀ x, ((st.update now mc).src x).failed = (st.src x).failed) ∧
    (st.update now mc).session_.sources =
      match st.session_.sources.find? (fun x => (st.src x).failed) with
      | none => st.session_.sources
      | some f => st.session_.sources.erase f := by
  obtain ⟨hc, hs, hi⟩ := hq
  have hupd : st.update now mc = st.updateSources now mc := by
    unfold update
    rw [updateSwap_idle st hs, updateImport_idle st hi]
  rw [hupd, updateSources_idle st now mc hc]
  obtain ⟨h1, h2, h3, _, _, h6⟩ := deleteSource_frame
    { st with update_time_ := some now,
              session_ := st.session_.update (fun x => (st.src x).failed) }
    (st.session_.sources.find? (fun x => (st.src x).failed))
  refine ⟨⟨h1.trans hc, h2.trans hs, h3.trans hi⟩, h6, ?_⟩
  cases hfind : st.session_.sources.find? (fun x => (st.src x).failed) with
  | none => rfl
  | some f => exact deleteSource_sources _ f

/-- A tick of a quiet Mixer lowers the number of failing Sources by one, down to zero. -/
theorem update_failingCount (st : Mixer) (now : Nat) (mc : Bool) (hq : st.quiet) :
    (st.update now mc).failingCount = st.failingCount - 1 := by
  obtain ⟨_, hfail, hsrc⟩ := update_quiet st now mc hq
  have hp : (fun x => ((st.update now mc).src x).failed) = (fun x => (st.src x).failed) :=
    funext hfail
  unfold failingCount
  rw [hp, hsrc]
  cases hfind : st.session_.sources.find? (fun x => (st.src x).failed) with
  | none =>
    have h0 : st.session_.sources.countP (fun x => (st.src x).failed) = 0 := by
      rw [List.countP_eq_zero]
      exact List.find?_eq_none.1 hfind
    simp [h0]
  | some f =>
    exact countP_erase_of_pos _ _ f (List.mem_of_find?_eq_some hfind)
      (List.find?_some (p := fun x => (st.src x).failed) hfind)

theorem run_failingCount (mc : Bool) (ticks : List Nat) : ∀ st : Mixer, st.quiet →
    (run mc st ticks).quiet ∧ (run mc st ticks).failingCount = st.failingCount - ticks.length := by
  induction ticks with
  | nil => intro st hq; exact ⟨hq, by simp [run]⟩
  | cons now rest ih =>
    intro st hq
    obtain ⟨h1, h2⟩ := ih (st.update now mc) (update_quiet st now mc hq).1
    refine ⟨h1, ?_⟩
    simp only [run, h2, update_failingCount st now mc hq, List.length_cons]
    omega

/-- C7. At most one failure per tick.  In a Mixer with an empty candidate queue and no
pending swap or import whose front Session holds `N ≥ 2` Sources reporting failed (and
keeping to): each `update` deletes exactly one of them, the one `Session::update`
records as `failedSource`, so the number of failing Sources of the front Session goes
down by exactly one per tick; after any run of ticks it is `N` minus the number of
ticks, so it is zero after `N` ticks and not before. -/
theorem update_one_failure_per_tick (st : Mixer) (mc : Bool) (N : Nat)
    (hq : st.quiet) (hN : st.failingCount = N) (h2 : 2 ≤ N) :
    (∀ now, ∃ f,
      (st.session_.update (fun x => (st.src x).failed)).failedSource = some f ∧
      (st.src f).failed = true ∧ f ∈ st.session_.sources ∧
      (st.update now mc).session_.sources = st.session_.sources.erase f ∧
      (st.update now mc).session_.sources.length + 1 = st.session_.sources.length ∧
      (st.update now mc).failingCount = N - 1 ∧
      (∀ x, ((st.update now mc).src x).failed = (st.src x).failed) ∧
      (st.update now mc).quiet) ∧
    (∀ ticks, (run mc st ticks).failingCount = N - ticks.length) ∧
    (∀ ticks, (run mc st ticks).failingCount = 0 ↔ N ≤ ticks.length) := by
  have hrun : ∀ ticks, (run mc st ticks).failingCount = N - ticks.length := by
    intro ticks
    rw [← hN]
    exact (run_failingCount mc ticks st hq).2
  refine ⟨?_, hrun, ?_⟩
  · intro now
    obtain ⟨hq1, hfail, hsrc⟩ := update_quiet st now mc hq
    cases hfind : st.session_.sources.find? (fun x => (st.src x).failed) with
    | none =>
      exfalso
      have h0 : st.failingCount = 0 := by
        unfold failingCount
        rw [List.countP_eq_zero]
        exact List.find?_eq_none.1 hfind
      omega
    | some f =>
      have hmem := List.mem_of_find?_eq_some hfind
      rw [hfind] at hsrc
      refine ⟨f, by simp [Session.update, hfind],
        List.find?_some (p := fun x => (st.src x).failed) hfind, hmem, hsrc, ?_, ?_,
        hfail, hq1⟩
      · rw [hsrc, List.length_erase_of_mem hmem]
        have := List.length_pos_of_mem hmem
        omega
      · rw [update_failingCount st now mc hq, hN]
  · intro ticks
    rw [hrun ticks]
    omega

/-- Witness of `update_one_failure_per_tick`: three Sources, all failing. -/
theorem update_one_failure_per_tick_witness :
    (∀ now, ∃ f,
      ((live heapFailed [0, 1, 2]).session_.update
        (fun x => ((live heapFailed [0, 1, 2]).src x).failed)).failedSource = some f ∧
      ((live heapFailed [0, 1, 2]).src f).failed = true ∧
      f ∈ (live heapFailed [0, 1, 2]).session_.sources ∧
      ((live heapFailed [0, 1, 2]).update now true).session_.sources =
        (live heapFailed [0, 1, 2]).session_.sources.erase f ∧
      ((live heapFailed [0, 1, 2]).update now true).session_.sources.length + 1 =
        (live heapFailed [0, 1, 2]).session_.sources.length ∧
      ((live heapFailed [0, 1, 2]).update now true).failingCount = 3 - 1 ∧
      (∀ x, (((live heapFailed [0, 1, 2]).update now true).src x).failed =
        ((live heapFailed [0, 1, 2]).src x).failed) ∧
      ((live heapFailed [0, 1, 2]).update now true).quiet) ∧
    (∀ ticks, (run true (live heapFailed [0, 1, 2]) ticks).failingCount = 3 - ticks.length) ∧
    (∀ ticks, (run true (live heapFailed [0, 1, 2]) ticks).failingCount = 0 ↔
      3 ≤ ticks.length) :=
  update_one_failure_per_tick (live heapFailed [0, 1, 2]) true 3 (by decide) (by decide)
    (by decide)

/-- On the example the three ticks delete the Sources `0`, `1`, `2` in this order. -/
theorem run_example :
    (run true (live heapFailed [0, 1, 2]) [10]).session_.sources = [1, 2] ∧
    (run true (live heapFailed [0, 1, 2]) [10, 20]).session_.sources = [2] ∧
    (run true (live heapFailed [0, 1, 2]) [10, 20, 30]).session_.sources = [] := by
  decide

/-! ## The flags at a tick -/

/-- What `insertSource` leaves alone. -/
theorem insertSource_frame (st : Mixer) (s : Option SourceId) (b : Bool) :
    (st.insertSource s b).back_session_ = st.back_session_ ∧
    (st.insertSource s b).sessionSwapRequested_ = st.sessionSwapRequested_ ∧
    (st.insertSource s b).sessionImportRequested_ = st.sessionImportRequested_ ∧
    (st.insertSource s b).session_.sid = st.session_.sid := by
  cases s with
  | none => exact ⟨rfl, rfl, rfl, rfl⟩
  | some s =>
    cases b
    · exact ⟨rfl, rfl, rfl, rfl⟩
    · simp only [insertSource, if_true]
      obtain ⟨h1, h2, _, _, _, _, h7, h8, _⟩ :=
        sameSessions_trans (setCurrentSource_same _ _) (setView_same _ _)
      rw [h1, h2, h7, h8]
      exact ⟨rfl, rfl, rfl, rfl⟩

/-- The last part of a tick touches neither flag nor Session pointer. -/
theorem updateSources_frame (st : Mixer) (now : Nat) (mc : Bool) :
    (st.updateSources now mc).back_session_ = st.back_session_ ∧
    (st.updateSources now mc).sessionSwapRequested_ = st.sessionSwapRequested_ ∧
    (st.updateSources now mc).sessionImportRequested_ = st.sessionImportRequested_ ∧
    (st.updateSources now mc).session_.sid = st.session_.sid := by
  have hcand : ∀ m : Mixer, (m.updateCandidate mc).back_session_ = m.back_session_ ∧
      (m.updateCandidate mc).sessionSwapRequested_ = m.sessionSwapRequested_ ∧
      (m.updateCandidate mc).sessionImportRequested_ = m.sessionImportRequested_ ∧
      (m.updateCandidate mc).session_.sid = m.session_.sid := by
    intro m
    unfold updateCandidate
    cases m.candidate_sources_ with
    | nil => exact ⟨rfl, rfl, rfl, rfl⟩
    | cons c rest => exact insertSource_frame m (some c) mc
  have hfailed : ∀ m : Mixer, m.updateFailed.back_session_ = m.back_session_ ∧
      m.updateFailed.sessionSwapRequested_ = m.sessionSwapRequested_ ∧
      m.updateFailed.sessionImportRequested_ = m.sessionImportRequested_ ∧
      m.updateFailed.session_.sid = m.session_.sid := by
    intro m
    obtain ⟨_, d2, d3, d4, d5, _⟩ := deleteSource_frame
      { m with session_ := m.session_.update (fun x => (m.src x).failed) }
      (m.session_.update (fun x => (m.src x).failed)).failedSource
    exact ⟨d4, d2, d3, d5⟩
  obtain ⟨a1, a2, a3, a4⟩ := hcand { st with update_time_ := some now }
  obtain ⟨b1, b2, b3, b4⟩ :=
    hfailed (Mixer.updateCandidate { st with update_time_ := some now } mc)
  exact ⟨b1.trans a1, b2.trans a2, b3.trans a3, b4.trans a4⟩

/-- The first block of a tick, by cases. -/
theorem updateSwap_eq (st : Mixer) :
    st.updateSwap =
      if st.sessionSwapRequested_ = true ∧ st.back_session_ ≠ none then
        { Mixer.swap { st with sessionSwapRequested_ := false } with
          title := (Mixer.swap { st with sessionSwapRequested_ := false }).session_.filename,
          recentSessions :=
            historyPush (Mixer.swap { st with sessionSwapRequested_ := false }).recentSessions
              (Mixer.swap { st with sessionSwapRequested_ := false }).session_.filename }
      else { st with sessionSwapRequested_ := false } := by
  unfold updateSwap
  by_cases hs : st.sessionSwapRequested_ = true
  · cases hb : st.back_session_ with
    | none => simp [hs, hb]
    | some b => simp [hs, hb]
  · have hs1 : st.sessionSwapRequested_ = false := by simpa using hs
    simp only [hs, false_and, if_false]
    cases st
    simp_all

/-- The first block of a tick: flags and Session pointers afterwards. -/
theorem updateSwap_fields (st : Mixer) :
    st.updateSwap.sessionSwapRequested_ = false ∧
    st.updateSwap.sessionImportRequested_ = st.sessionImportRequested_ ∧
    (∀ b, st.sessionSwapRequested_ = true → st.back_session_ = some b →
      st.updateSwap.session_ = b ∧ st.updateSwap.back_session_ = none) ∧
    (¬ (st.sessionSwapRequested_ = true ∧ st.back_session_ ≠ none) →
      st.updateSwap.session_ = st.session_ ∧ st.updateSwap.back_session_ = st.back_session_) := by
  rw [updateSwap_eq]
  by_cases hc : st.sessionSwapRequested_ = true ∧ st.back_session_ ≠ none
  · obtain ⟨b, hb⟩ := Option.ne_none_iff_exists'.1 hc.2
    obtain ⟨h1, h2, _, _, _, _, _, _, _, h10, h11⟩ :=
      swap_fields { st with sessionSwapRequested_ := false } b hb
    rw [if_pos hc]
    refine ⟨h10, h11, ?_, fun h => absurd ⟨hc.1, hc.2⟩ h⟩
    intro b1 _ hb1
    rw [hb] at hb1
    cases hb1
    exact ⟨h1, h2⟩
  · rw [if_neg hc]
    refine ⟨rfl, rfl, ?_, fun _ => ⟨rfl, rfl⟩⟩
    intro b hs hb
    exact absurd ⟨hs, by rw [hb]; simp⟩ hc

/-- The second block of a tick, by cases. -/
theorem updateImport_eq (st : Mixer) :
    st.updateImport =
      if st.sessionImportRequested_ = true then
        { Mixer.merge { st with sessionImportRequested_ := false } st.back_session_ with
          back_session_ := none }
      else st := by
  unfold updateImport
  by_cases hi : st.sessionImportRequested_ = true <;> simp [hi]

theorem foldl_insertSource_frame (l : List SourceId) : ∀ st : Mixer,
    (l.foldl (fun m s => m.insertSource (some s) false) st).sessionSwapRequested_ =
      st.sessionSwapRequested_ ∧
    (l.foldl (fun m s => m.insertSource (some s) false) st).sessionImportRequested_ =
      st.sessionImportRequested_ ∧
    (l.foldl (fun m s => m.insertSource (some s) false) st).session_.sid = st.session_.sid := by
  induction l with
  | nil => intro st; exact ⟨rfl, rfl, rfl⟩
  | cons a t ih =>
    intro st
    obtain ⟨h1, h2, h3⟩ := ih (st.insertSource (some a) false)
    obtain ⟨_, f2, f3, f4⟩ := insertSource_frame st (some a) false
    rw [List.foldl_cons]
    exact ⟨h1.trans f2, h2.trans f3, h3.trans f4⟩

/-- What `merge` does to the flags and to the front Session. -/
theorem merge_frame (st : Mixer) (session : Option Session) :
    (st.merge session).sessionSwapRequested_ = st.sessionSwapRequested_ ∧
    (st.merge session).sessionImportRequested_ = st.sessionImportRequested_ ∧
    (st.merge session).session_.sid = st.session_.sid ∧
    (st.merge session).session_.sources =
      st.session_.sources ++ (session.map Session.sources).getD [] := by
  cases session with
  | none => simp [merge]
  | some S =>
    have hm : st.merge (some S) = S.sources.foldl (fun m s => m.insertSource (some s) false) st :=
      (mergeLoop_drains (S.sources.length + 1) st S (by omega)).2.2
    rw [hm]
    obtain ⟨h1, h2, h3⟩ := foldl_insertSource_frame S.sources st
    exact ⟨h1, h2, h3, by simpa using foldl_insertSource_sources S.sources st⟩

/-! ## Loading a Session: `open`, the task body and the next tick -/

theorem loadSession_failed (st : Mixer) (f : String) (target : Nat) :
    st.loadSession f target none = { st with sessionThreadActive_ := false } := rfl

theorem merge_empty (st : Mixer) (n : Nat) : st.merge (some (Session.empty n)) = st := rfl

/-- A tick that finds no swap requested, at most an import of an empty back Session, no
candidate and no failing Source leaves the front Session as it is. -/
theorem update_keeps_front (st : Mixer) (now : Nat) (mc : Bool)
    (hs : st.sessionSwapRequested_ = false)
    (hb : st.sessionImportRequested_ = false ∨ ∃ n, st.back_session_ = some (Session.empty n))
    (hc : st.candidate_sources_ = [])
    (hfail : ∀ x ∈ st.session_.sources, (st.src x).failed = false) :
    (st.update now mc).session_.sid = st.session_.sid ∧
    (st.update now mc).session_.sources = st.session_.sources ∧
    (st.update now mc).session_.filename = st.session_.filename ∧
    (st.update now mc).sessionSwapRequested_ = false := by
  have himp : st.updateImport.session_ = st.session_ ∧ st.updateImport.src = st.src ∧
      st.updateImport.candidate_sources_ = st.candidate_sources_ ∧
      st.updateImport.sessionSwapRequested_ = st.sessionSwapRequested_ := by
    by_cases hi : st.sessionImportRequested_ = true
    · rcases hb with hb | ⟨n, hb⟩
      · rw [hb] at hi; exact absurd hi (by decide)
      · simp [updateImport, hi, hb, merge_empty]
    · rw [updateImport_idle st (by simpa using hi)]
      exact ⟨rfl, rfl, rfl, rfl⟩
  obtain ⟨h1, h2, h3, h4⟩ := himp
  have hfind : st.updateImport.session_.sources.find?
      (fun x => (st.updateImport.src x).failed) = none := by
    rw [List.find?_eq_none, h1, h2]
    intro x hx
    simp [hfail x hx]
  unfold update
  rw [updateSwap_idle st hs, updateSources_idle _ now mc (h3.trans hc), hfind]
  simp [deleteSource, Session.update, h1, h4, hs]

/-- C8, as stated, fails in two ways.  With a candidate queued, `open` of a file whose
parse fails is followed by a tick that promotes the candidate, so the source sequence
of the front Session is not the one before the `open` call.  And with an earlier
`open(a.mix)` still in flight when `open(f.mix)` is called (no swap requested at that
time): the earlier load ends and requests the swap, the load of `f.mix` fails, and the
tick swaps to the empty Session created for `f.mix`; the front Session is another
object.  The same happens when the swap is already requested at the time of the
call (state `swapReady`). -/
theorem open_failed_load_counterexample :
    (((((live heapA [0]).addSource (some 1)).open_.loadSession "f.mix" 1 none
        ).sessionSwapRequested_ = false) ∧
      ((((live heapA [0]).addSource (some 1)).open_.loadSession "f.mix" 1 none).update 10 true
        ).session_.sources = [0, 1] ∧
      ((live heapA [0]).addSource (some 1)).session_.sources = [0]) ∧
    ((live heapA [0, 1]).open_.sessionSwapRequested_ = false ∧
      (live heapA [0, 1]).open_.session_ = ⟨0, [0, 1], "", none⟩ ∧
      (((((live heapA [0, 1]).open_.open_.loadSession "a.mix" 1 (some [5, 6])).loadSession
        "f.mix" 2 none).update 10 true).session_ = ⟨2, [], "", none⟩)) ∧
    (swapReady.sessionSwapRequested_ = true ∧ swapReady.session_.sid = 0 ∧
      ((swapReady.open_.loadSession "f.mix" 2 none).update 10 true).session_
        = ⟨2, [], "", none⟩) := by
  decide

/-- A tick that finds no swap requested keeps the front Session object and leaves the
flag cleared. -/
theorem update_no_swap (st : Mixer) (now : Nat) (mc : Bool)
    (hs : st.sessionSwapRequested_ = false) :
    (st.update now mc).session_.sid = st.session_.sid ∧
    (st.update now mc).sessionSwapRequested_ = false := by
  obtain ⟨_, u2, _, u4⟩ := updateSources_frame st.updateSwap.updateImport now mc
  have hupd : st.update now mc = st.updateSwap.updateImport.updateSources now mc := rfl
  rw [hupd, u2, u4, updateSwap_idle st hs, updateImport_eq]
  by_cases hi : st.sessionImportRequested_ = true
  · obtain ⟨m1, _, m3, _⟩ := merge_frame
      { st with sessionImportRequested_ := false } st.back_session_
    rw [if_pos hi]
    exact ⟨m3, m1.trans hs⟩
  · rw [if_neg hi]
    exact ⟨rfl, hs⟩

/-- C8, amended.  A load whose parse fails leaves both flags and both Sessions of
every state as they are.  When no swap is requested at the time `open(f)` is called,
nothing but the load task of `f` runs between that call and the next `update`, and
the parse of `f` fails: the swap-requested flag is not set and the `update` does not
swap, so the front Session is the same Session object; when, besides, no candidate is
queued and no Source of the front Session reports failed, it has the same source
sequence as before the `open(f)` call.  This holds whether the task ends before the
tick or after it. -/
theorem open_failed_load (st : Mixer) (f : String) (now : Nat) (mc : Bool)
    (hs : st.sessionSwapRequested_ = false) :
    (∀ (m : Mixer) (target : Nat),
      (m.loadSession f target none).sessionSwapRequested_ = m.sessionSwapRequested_ ∧
      (m.loadSession f target none).sessionImportRequested_ = m.sessionImportRequested_ ∧
      (m.loadSession f target none).session_ = m.session_ ∧
      (m.loadSession f target none).back_session_ = m.back_session_) ∧
    (st.open_.loadSession f st.nextSession none).sessionSwapRequested_ = false ∧
    (((st.open_.loadSession f st.nextSession none).update now mc).session_.sid
        = st.session_.sid ∧
      ((st.open_.loadSession f st.nextSession none).update now mc).sessionSwapRequested_
        = false) ∧
    (((st.open_.update now mc).loadSession f st.nextSession none).session_.sid
        = st.session_.sid ∧
      ((st.open_.update now mc).loadSession f st.nextSession none).sessionSwapRequested_
        = false) ∧
    (st.candidate_sources_ = [] → (∀ x ∈ st.session_.sources, (st.src x).failed = false) →
      ((st.open_.loadSession f st.nextSession none).update now mc).session_.sources =
        st.session_.sources ∧
      ((st.open_.update now mc).loadSession f st.nextSession none).session_.sources =
        st.session_.sources) := by
  refine ⟨fun _ _ => ⟨rfl, rfl, rfl, rfl⟩, hs,
    update_no_swap (st.open_.loadSession f st.nextSession none) now mc hs,
    update_no_swap st.open_ now mc hs, ?_⟩
  intro hc hfail
  obtain ⟨_, a2, _, _⟩ := update_keeps_front (st.open_.loadSession f st.nextSession none) now mc
    hs (Or.inr ⟨st.nextSession, rfl⟩) hc hfail
  obtain ⟨_, b2, _, _⟩ := update_keeps_front st.open_ now mc
    hs (Or.inr ⟨st.nextSession, rfl⟩) hc hfail
  exact ⟨a2, b2⟩

/-- Witness of `open_failed_load`: two live Sources, nothing queued, nothing failing. -/
theorem open_failed_load_witness :
    (live heapA [0, 1]).sessionSwapRequested_ = false ∧
    (((live heapA [0, 1]).open_.loadSession "f.mix" 1 none).update 10 true).session_.sid
      = (live heapA [0, 1]).session_.sid ∧
    (((live heapA [0, 1]).open_.loadSession "f.mix" 1 none).update 10 true).session_.sources
      = (live heapA [0, 1]).session_.sources ∧
    (((live heapA [0, 1]).open_.update 10 true).loadSession "f.mix" 1 none).session_.sources
      = (live heapA [0, 1]).session_.sources :=
  ⟨rfl, (open_failed_load (live heapA [0, 1]) "f.mix" 10 true rfl).2.2.1.1,
    (open_failed_load (live heapA [0, 1]) "f.mix" 10 true rfl).2.2.2.2 rfl (by decide)⟩

/-- C9, the code at the failing input.  Two Sources are live, no swap is pending.
`open(a.mix)` is issued and its load completes with the Sources `5` and `6` (swap
requested); `open(b.mix)`, or `import(b.mix)`, is issued before the next tick.  The
tick, run before the second load has delivered anything, still finds the swap
requested and a non-null back Session: it swaps, the front Session is now the empty
Session created for the second call and the old front Session is gone.  Without the
first `open` the same tick keeps the front Session. -/
theorem superseded_load_swaps_early :
    (((((live heapA [0, 1]).open_.loadSession "a.mix" 1 (some [5, 6])).open_).update 10 true
      ).session_ = ⟨2, [], "", none⟩) ∧
    (((((live heapA [0, 1]).open_.loadSession "a.mix" 1 (some [5, 6])).open_).update 10 true
      ).back_session_ = none) ∧
    (((((live heapA [0, 1]).open_.loadSession "a.mix" 1 (some [5, 6])).import_).update 10 true
      ).session_ = ⟨2, [], "", none⟩) ∧
    (((live heapA [0, 1]).open_.update 10 true).session_ = ⟨0, [0, 1], "", none⟩) ∧
    (((live heapA [0, 1]).open_.update 10 true).back_session_ = some ⟨1, [], "", none⟩) ∧
    (((live heapA [0, 1]).open_.loadSession "a.mix" 1 (some [5, 6])).back_session_
      = some ⟨1, [5, 6], "a.mix", none⟩) ∧
    (((live heapA [0, 1]).open_.loadSession "a.mix" 1 (some [5, 6])).sessionSwapRequested_
      = true) := by
  decide

/-! ## Promotion of the candidates -/

/-- The failure reports are untouched by `insertSource`, and so is the queue. -/
theorem insertSource_failed (st : Mixer) (s : Option SourceId) (b : Bool) :
    (st.insertSource s b).candidate_sources_ = st.candidate_sources_ ∧
    ∀ x, ((st.insertSource s b).src x).failed = (st.src x).failed := by
  cases s with
  | none => exact ⟨rfl, fun _ => rfl⟩
  | some s =>
    cases b
    · exact ⟨rfl, fun _ => rfl⟩
    · simp only [insertSource, if_true]
      obtain ⟨_, _, _, _, _, h6, _, _, _, _, h11⟩ :=
        sameSessions_trans (setCurrentSource_same _ _) (setView_same _ _)
      exact ⟨h6, fun x => (h11 x).2⟩

/-- The candidate block: the head of the queue is popped and appended to the front
Session; with an empty queue nothing happens. -/
theorem updateCandidate_spec (st : Mixer) (mc : Bool) :
    (st.updateCandidate mc).candidate_sources_ = st.candidate_sources_.tail ∧
    (st.updateCandidate mc).session_.sources =
      st.session_.sources ++ st.candidate_sources_.head?.toList ∧
    (∀ x, ((st.updateCandidate mc).src x).failed = (st.src x).failed) ∧
    (st.candidate_sources_ = [] → st.updateCandidate mc = st) := by
  unfold updateCandidate
  cases hq : st.candidate_sources_ with
  | nil => simp [hq]
  | cons c rest =>
    refine ⟨rfl, ?_, (insertSource_failed st (some c) mc).2, fun h => by simp at h⟩
    simpa using insertSource_sources st c mc

/-- The failure block: the first failing Source of the front Session, if any, is
removed; queue and failure reports stay. -/
theorem updateFailed_spec (st : Mixer) :
    st.updateFailed.candidate_sources_ = st.candidate_sources_ ∧
    (∀ x, (st.updateFailed.src x).failed = (st.src x).failed) ∧
    st.updateFailed.session_.sources =
      match st.session_.sources.find? (fun x => (st.src x).failed) with
      | none => st.session_.sources
      | some f => st.session_.sources.erase f := by
  unfold updateFailed
  obtain ⟨h1, _, _, _, _, h6⟩ := deleteSource_frame
    { st with session_ := st.session_.update (fun x => (st.src x).failed) }
    (st.session_.update (fun x => (st.src x).failed)).failedSource
  refine ⟨h1, h6, ?_⟩
  simp only [Session.update]
  cases hfind : st.session_.sources.find? (fun x => (st.src x).failed) with
  | none => rfl
  | some f => exact deleteSource_sources _ f

/-- The part of a tick after the flag blocks: the queue loses its head, the head is
appended to the front Session, then the first failing Source is removed. -/
theorem updateSources_spec (st : Mixer) (now : Nat) (mc : Bool) :
    (st.updateSources now mc).candidate_sources_ = st.candidate_sources_.tail ∧
    (∀ x, ((st.updateSources now mc).src x).failed = (st.src x).failed) ∧
    (st.updateSources now mc).session_.sources =
      match (st.session_.sources ++ st.candidate_sources_.head?.toList).find?
          (fun x => (st.src x).failed) with
      | none => st.session_.sources ++ st.candidate_sources_.head?.toList
      | some f => (st.session_.sources ++ st.candidate_sources_.head?.toList).erase f := by
  obtain ⟨c1, c2, c3, _⟩ := updateCandidate_spec { st with update_time_ := some now } mc
  obtain ⟨f1, f2, f3⟩ :=
    updateFailed_spec (Mixer.updateCandidate { st with update_time_ := some now } mc)
  have hp : (fun x => ((Mixer.updateCandidate { st with update_time_ := some now } mc).src
      x).failed) = (fun x => (st.src x).failed) := funext c3
  refine ⟨f1.trans c1, fun x => (f2 x).trans (c3 x), ?_⟩
  show (Mixer.updateCandidate { st with update_time_ := some now } mc).updateFailed.session_.sources
    = _
  rw [f3, hp, c2]

theorem foldl_insertSource_failed (l : List SourceId) : ∀ st : Mixer,
    (l.foldl (fun m s => m.insertSource (some s) false) st).candidate_sources_ =
      st.candidate_sources_ ∧
    ∀ x, ((l.foldl (fun m s => m.insertSource (some s) false) st).src x).failed =
      (st.src x).failed := by
  induction l with
  | nil => intro st; exact ⟨rfl, fun _ => rfl⟩
  | cons a t ih =>
    intro st
    obtain ⟨h1, h2⟩ := ih (st.insertSource (some a) false)
    obtain ⟨f1, f2⟩ := insertSource_failed st (some a) false
    rw [List.foldl_cons]
    exact ⟨h1.trans f1, fun x => (h2 x).trans (f2 x)⟩

theorem merge_failed (st : Mixer) (session : Option Session) :
    (st.merge session).candidate_sources_ = st.candidate_sources_ ∧
    ∀ x, ((st.merge session).src x).failed = (st.src x).failed := by
  cases session with
  | none => exact ⟨rfl, fun _ => rfl⟩
  | some S =>
    have hm : st.merge (some S) = S.sources.foldl (fun m s => m.insertSource (some s) false) st :=
      (mergeLoop_drains (S.sources.length + 1) st S (by omega)).2.2
    rw [hm]
    exact foldl_insertSource_failed S.sources st

/-- The two flag blocks of a tick touch neither the queue nor the failure reports, and
leave both flags cleared. -/
theorem updateFlags_frame (st : Mixer) :
    st.updateSwap.updateImport.candidate_sources_ = st.candidate_sources_ ∧
    (∀ x, (st.updateSwap.updateImport.src x).failed = (st.src x).failed) ∧
    st.updateSwap.updateImport.sessionSwapRequested_ = false ∧
    st.updateSwap.updateImport.sessionImportRequested_ = false := by
  have hswap : st.updateSwap.candidate_sources_ = st.candidate_sources_ ∧
      (∀ x, (st.updateSwap.src x).failed = (st.src x).failed) := by
    rw [updateSwap_eq]
    by_cases hc : st.sessionSwapRequested_ = true ∧ st.back_session_ ≠ none
    · obtain ⟨b, hb⟩ := Option.ne_none_iff_exists'.1 hc.2
      obtain ⟨_, _, _, _, _, _, _, h8, h9, _, _⟩ :=
        swap_fields { st with sessionSwapRequested_ := false } b hb
      rw [if_pos hc]
      exact ⟨h8, fun x => by rw [show _ = _ from congrFun h9 x]⟩
    · rw [if_neg hc]
      exact ⟨rfl, fun _ => rfl⟩
  obtain ⟨s1, s2⟩ := hswap
  obtain ⟨w1, w2, _, _⟩ := updateSwap_fields st
  rw [updateImport_eq]
  by_cases hi : st.updateSwap.sessionImportRequested_ = true
  · rw [if_pos hi]
    obtain ⟨m1, m2, _, _⟩ := merge_frame
      { st.updateSwap with sessionImportRequested_ := false } st.updateSwap.back_session_
    obtain ⟨q1, q2⟩ := merge_failed { st.updateSwap with sessionImportRequested_ := false }
      st.updateSwap.back_session_
    exact ⟨q1.trans s1, fun x => (q2 x).trans (s2 x), m1.trans w1, m2⟩
  · rw [if_neg hi]
    exact ⟨s1, s2, w1, by simpa using hi⟩

/-- A tick: the queue loses its head; the head is appended to the front Session the
flag blocks left, and then the first failing Source of it is removed. -/
theorem update_promotes (st : Mixer) (now : Nat) (mc : Bool) :
    (st.update now mc).candidate_sources_ = st.candidate_sources_.tail ∧
    (∀ x, ((st.update now mc).src x).failed = (st.src x).failed) ∧
    (st.update now mc).sessionSwapRequested_ = false ∧
    (st.update now mc).sessionImportRequested_ = false ∧
    (st.update now mc).session_.sources =
      match (st.updateSwap.updateImport.session_.sources ++
          st.candidate_sources_.head?.toList).find? (fun x => (st.src x).failed) with
      | none => st.updateSwap.updateImport.session_.sources ++ st.candidate_sources_.head?.toList
      | some f => (st.updateSwap.updateImport.session_.sources ++
          st.candidate_sources_.head?.toList).erase f := by
  obtain ⟨g1, g2, g3, g4⟩ := updateFlags_frame st
  obtain ⟨u1, u2, u3⟩ := updateSources_spec st.updateSwap.updateImport now mc
  obtain ⟨_, v2, v3, _⟩ := updateSources_frame st.updateSwap.updateImport now mc
  have hp : (fun x => (st.updateSwap.updateImport.src x).failed) = (fun x => (st.src x).failed) :=
    funext g2
  have hupd : st.update now mc = st.updateSwap.updateImport.updateSources now mc := rfl
  rw [hupd]
  refine ⟨by rw [u1, g1], fun x => (u2 x).trans (g2 x), v2.trans g3, v3.trans g4, ?_⟩
  rw [u3, hp, g1]

/-- A non-failing sequence that sits in order in the front Session still does after the
removal of the first failing Source. -/
theorem sublist_after_failure (failed : SourceId → Bool) (P L : List SourceId)
    (hP : ∀ x ∈ P, failed x = false) (hsub : P.Sublist L) :
    P.Sublist (match L.find? failed with
      | none => L
      | some f => L.erase f) := by
  cases hfind : L.find? failed with
  | none => exact hsub
  | some f =>
    have hf : failed f = true := List.find?_some (p := failed) hfind
    have hnot : f ∉ P := fun hmem => by rw [hP f hmem] at hf; exact absurd hf (by decide)
    have := List.Sublist.erase f hsub
    rwa [List.erase_of_not_mem hnot] at this

/-- Ticks of a Mixer with both flags cleared: the non-failing Sources already promoted
and the non-failing candidates of the queue end up in the front Session, in order. -/
theorem run_promotes (mc : Bool) : ∀ (cs : List SourceId) (st : Mixer) (P : List SourceId)
    (ticks : List Nat), st.candidate_sources_ = cs → ticks.length = cs.length →
    st.sessionSwapRequested_ = false → st.sessionImportRequested_ = false →
    (∀ x ∈ P ++ cs, (st.src x).failed = false) → P.Sublist st.session_.sources →
    (run mc st ticks).candidate_sources_ = [] ∧
    (P ++ cs).Sublist (run mc st ticks).session_.sources := by
  intro cs
  induction cs with
  | nil =>
    intro st P ticks hq hlen _ _ _ hsub
    have : ticks = [] := List.length_eq_zero.1 (by simpa using hlen)
    subst this
    simpa [run, hq] using hsub
  | cons c rest ih =>
    intro st P ticks hq hlen hs hi hok hsub
    obtain ⟨now, ticks1, rfl⟩ : ∃ now ticks1, ticks = now :: ticks1 := by
      cases ticks with
      | nil => simp at hlen
      | cons a t => exact ⟨a, t, rfl⟩
    obtain ⟨p1, p2, p3, p4, p5⟩ := update_promotes st now mc
    have hpre : st.updateSwap.updateImport = st := by
      rw [updateSwap_idle st hs, updateImport_idle st hi]
    rw [hpre, hq] at p5
    have hstep : (P ++ [c]).Sublist (st.update now mc).session_.sources := by
      rw [p5]
      apply sublist_after_failure
      · intro x hx
        apply hok
        simp only [List.mem_append, List.mem_singleton, List.mem_cons] at hx ⊢
        tauto
      · simpa using List.Sublist.append hsub (List.Sublist.refl [c])
    have := ih (st.update now mc) (P ++ [c]) ticks1 (by rw [p1, hq]; rfl)
      (by simpa using hlen) p3 p4
      (by
        intro x hx
        rw [p2]
        apply hok
        simp only [List.mem_append, List.mem_singleton, List.mem_cons] at hx ⊢
        tauto)
      hstep
    simpa [run] using this

/-- C11, as stated, fails: the queued Source `7` reports failed; the tick inserts it and
removes it again as the failed Source of the tick, so after one tick the queue is empty
and the candidate is not in the front Session. -/
theorem candidate_promotion_counterexample :
    ((fresh heapFailed []).addSource (some 7)).candidate_sources_ = [7] ∧
    (((fresh heapFailed []).addSource (some 7)).update 10 true).candidate_sources_ = [] ∧
    (((fresh heapFailed []).addSource (some 7)).update 10 true).session_.sources = [] := by
  decide

/-- C11, amended.  `addSource` of a non-null Source appends it at the back of the queue
and does not change the front Session; `addSource(null)` changes nothing.  Each
`update` removes exactly the head of the queue, if there is one; its candidate block
appends exactly that Source to the front Session (as the flag blocks left it) and does
nothing when the queue is empty; the failure block of the same tick then removes the
first failing Source.  Hence candidates enqueued in some order, none of which reports
failed, are all in the front Session, in the same order, after as many ticks as there
are candidates, and the queue is then empty. -/
theorem candidate_promotion (st : Mixer) (mc : Bool) :
    ((∀ s, (st.addSource (some s)).candidate_sources_ = st.candidate_sources_ ++ [s] ∧
        (st.addSource (some s)).session_ = st.session_) ∧
      st.addSource none = st) ∧
    (∀ now, (st.update now mc).candidate_sources_ = st.candidate_sources_.tail ∧
      (st.update now mc).session_.sources =
        match (st.updateSwap.updateImport.session_.sources ++
            st.candidate_sources_.head?.toList).find? (fun x => (st.src x).failed) with
        | none =>
          st.updateSwap.updateImport.session_.sources ++ st.candidate_sources_.head?.toList
        | some f => (st.updateSwap.updateImport.session_.sources ++
            st.candidate_sources_.head?.toList).erase f) ∧
    (∀ c rest, st.candidate_sources_ = c :: rest →
      (st.updateCandidate mc).candidate_sources_ = rest ∧
      (st.updateCandidate mc).session_.sources = st.session_.sources ++ [c]) ∧
    (st.candidate_sources_ = [] → st.updateCandidate mc = st) ∧
    (∀ ticks, ticks.length = st.candidate_sources_.length →
      (∀ c ∈ st.candidate_sources_, (st.src c).failed = false) →
      (run mc st ticks).candidate_sources_ = [] ∧
      st.candidate_sources_.Sublist (run mc st ticks).session_.sources) := by
  refine ⟨⟨fun s => ⟨rfl, rfl⟩, rfl⟩, ?_, ?_, (updateCandidate_spec st mc).2.2.2, ?_⟩
  · intro now
    obtain ⟨p1, _, _, _, p5⟩ := update_promotes st now mc
    exact ⟨p1, p5⟩
  · intro c rest hq
    obtain ⟨c1, c2, _, _⟩ := updateCandidate_spec st mc
    rw [hq] at c1 c2
    exact ⟨c1, by simpa using c2⟩
  · intro ticks hlen hok
    cases hq : st.candidate_sources_ with
    | nil =>
      rw [hq] at hlen
      have : ticks = [] := List.length_eq_zero.1 (by simpa using hlen)
      subst this
      simp [run, hq]
    | cons c rest =>
      rw [hq] at hlen hok
      obtain ⟨now, ticks1, rfl⟩ : ∃ now ticks1, ticks = now :: ticks1 := by
        cases ticks with
        | nil => simp at hlen
        | cons a t => exact ⟨a, t, rfl⟩
      obtain ⟨p1, p2, p3, p4, p5⟩ := update_promotes st now mc
      rw [hq] at p1 p5
      have hstep : [c].Sublist (st.update now mc).session_.sources := by
        rw [p5]
        apply sublist_after_failure
        · intro x hx
          rw [List.mem_singleton] at hx
          exact hok x (by rw [hx]; exact List.mem_cons_self _ _)
        · simp
      have := run_promotes mc rest (st.update now mc) [c] ticks1 p1 (by simpa using hlen) p3 p4
        (by
          intro x hx
          rw [p2]
          exact hok x (by simpa using hx))
        hstep
      simpa [run] using this

/-- Witness of `candidate_promotion`: the Sources `5` and `6` are queued in this order
behind a front Session holding `0` and `1`; two ticks promote them. -/
theorem candidate_promotion_witness :
    (run true (((live heapA [0, 1]).addSource (some 5)).addSource (some 6)) [10, 20]
      ).candidate_sources_ = [] ∧
    (((live heapA [0, 1]).addSource (some 5)).addSource (some 6)).candidate_sources_.Sublist
      (run true (((live heapA [0, 1]).addSource (some 5)).addSource (some 6)) [10, 20]
        ).session_.sources :=
  (candidate_promotion (((live heapA [0, 1]).addSource (some 5)).addSource (some 6)) true
    ).2.2.2.2 [10, 20] rfl (by decide)

/-- On the example the two ticks give the front sequence `0, 1, 5, 6`. -/
theorem candidate_promotion_example :
    (run true (((live heapA [0, 1]).addSource (some 5)).addSource (some 6)) [10]
      ).session_.sources = [0, 1, 5] ∧
    (run true (((live heapA [0, 1]).addSource (some 5)).addSource (some 6)) [10, 20]
      ).session_.sources = [0, 1, 5, 6] := by
  decide

/-! ## The flag protocol of a tick -/

/-- The tick on the example state `swapReady` swaps, and a tick with the import flag
set merges the back Session behind the front Sources. -/
theorem update_example :
    (swapReady.update 10 true).session_.sid = 1 ∧
    (swapReady.update 10 true).session_.sources = [5, 6] ∧
    (swapReady.update 10 true).back_session_ = none ∧
    (Mixer.update { swapReady with sessionSwapRequested_ := false,
                                   sessionImportRequested_ := true } 10 true).session_.sources
      = [0, 1, 5, 6] ∧
    (Mixer.update { swapReady with sessionSwapRequested_ := false,
                                   sessionImportRequested_ := true } 10 true).back_session_
      = none := by
  decide

/-! ## The current-source cursor -/

/-- C12. Switching to the already-current target is a no-op: when the iterator equals the
cursor (the end cursor included), `setCurrentSource` returns the state as it is, so
the cursor, the current index, the selection and the mode of every Source are
unchanged. -/
theorem setCurrentSource_same_target (st : Mixer) (it : Option SourceId)
    (h : st.current_source_ = it) :
    st.setCurrentSource it = st ∧
    (st.setCurrentSource it).current_source_ = st.current_source_ ∧
    (st.setCurrentSource it).indexCurrentSource = st.indexCurrentSource ∧
    (st.setCurrentSource it).selection = st.selection ∧
    ∀ x, ((st.setCurrentSource it).src x).mode = (st.src x).mode := by
  have heq : st.setCurrentSource it = st := by
    unfold setCurrentSource
    rw [if_pos h]
  rw [heq]
  exact ⟨rfl, rfl, rfl, rfl, fun _ => rfl⟩

/-- Witness of `setCurrentSource_same_target`: the current Source `0`, and the end
cursor of a state without current Source. -/
theorem setCurrentSource_same_target_witness :
    (cursorOn.setCurrentSource (some 0) = cursorOn ∧
      (cursorOn.setCurrentSource (some 0)).current_source_ = cursorOn.current_source_ ∧
      (cursorOn.setCurrentSource (some 0)).indexCurrentSource = cursorOn.indexCurrentSource ∧
      (cursorOn.setCurrentSource (some 0)).selection = cursorOn.selection ∧
      ∀ x, ((cursorOn.setCurrentSource (some 0)).src x).mode = (cursorOn.src x).mode) ∧
    ((live heapA [0, 1]).setCurrentSource none = live heapA [0, 1]) :=
  ⟨setCurrentSource_same_target cursorOn (some 0) rfl,
    (setCurrentSource_same_target (live heapA [0, 1]) none rfl).1⟩

/-- What `unsetCurrentSource` does when there is a current Source. -/
theorem unsetCurrentSource_spec (st : Mixer) (c : SourceId) (hc : st.current_source_ = some c) :
    st.unsetCurrentSource.current_source_ = none ∧
    st.unsetCurrentSource.current_source_index_ = -1 ∧
    st.unsetCurrentSource.session_ = st.session_ ∧
    (Selection.size st.selection > 1 →
      st.unsetCurrentSource.selection = st.selection ∧
      (st.unsetCurrentSource.src c).mode = .SELECTED ∧
      ∀ x, x ≠ c → st.unsetCurrentSource.src x = st.src x) ∧
    (¬ Selection.size st.selection > 1 →
      st.unsetCurrentSource.selection = Selection.remove st.selection c ∧
      st.unsetCurrentSource.src = st.src) := by
  by_cases h : Selection.size st.selection > 1
  · have e : st.unsetCurrentSource =
        { st.setMode c .SELECTED with current_source_ := none, current_source_index_ := -1 } := by
      simp [unsetCurrentSource, hc, h]
    rw [e]
    refine ⟨rfl, rfl, rfl, fun _ => ⟨rfl, by simp [setMode], fun x hx => by simp [setMode, hx]⟩,
      fun hn => absurd h hn⟩
  · have e : st.unsetCurrentSource =
        { st with selection := Selection.remove st.selection c,
                  current_source_ := none, current_source_index_ := -1 } := by
      simp [unsetCurrentSource, hc, h]
    rw [e]
    exact ⟨rfl, rfl, rfl, fun hp => absurd hp h, fun _ => ⟨rfl, rfl⟩⟩

theorem not_mem_remove (sel : List SourceId) (c : SourceId) : c ∉ Selection.remove sel c := by
  simp [Selection.remove]

/-- What `setCurrentSource` does for a valid target that is not the current Source. -/
theorem setCurrentSource_spec (st : Mixer) (t : SourceId) (h : st.current_source_ ≠ some t) :
    (st.setCurrentSource (some t)).current_source_ = some t ∧
    (st.setCurrentSource (some t)).current_source_index_ = st.session_.index (some t) ∧
    (st.setCurrentSource (some t)).session_ = st.session_ ∧
    (st.setCurrentSource (some t)).selection =
      (if t ∈ st.unsetCurrentSource.selection then st.unsetCurrentSource.selection else [t]) ∧
    ((st.setCurrentSource (some t)).src t).mode = .CURRENT ∧
    ∀ x, x ≠ t → (st.setCurrentSource (some t)).src x = st.unsetCurrentSource.src x := by
  have hs := (unsetCurrentSource_same st).1
  by_cases hm : t ∈ st.unsetCurrentSource.selection
  · have e : st.setCurrentSource (some t) =
        Mixer.setMode { st.unsetCurrentSource with
          current_source_ := some t,
          current_source_index_ := st.unsetCurrentSource.session_.index (some t) } t .CURRENT := by
      simp [setCurrentSource, h, Selection.contains, hm]
    rw [e, if_pos hm]
    refine ⟨rfl, by rw [← hs]; rfl, hs, rfl, by simp [setMode], fun x hx => by simp [setMode, hx]⟩
  · have e : st.setCurrentSource (some t) =
        Mixer.setMode { st.unsetCurrentSource with
          current_source_ := some t,
          current_source_index_ := st.unsetCurrentSource.session_.index (some t),
          selection := [t] } t .CURRENT := by
      simp [setCurrentSource, h, Selection.contains, hm, Selection.set]
    rw [e, if_neg hm]
    refine ⟨rfl, by rw [← hs]; rfl, hs, rfl, by simp [setMode], fun x hx => by simp [setMode, hx]⟩

/-- C13, as stated, fails for `setCurrentSource` to another target: `0` is current, `0`
and `1` are selected; after `setCurrentSource(2)` the cursor is on `2`, not none, and
the selection is `2` alone, so `0` is not left in the selection although the selection
held more than one Source. -/
theorem switch_away_counterexample :
    cursorOn.current_source_ = some 0 ∧ cursorOn.selection = [0, 1] ∧
    (cursorOn.setCurrentSource (some 2)).current_source_ = some 2 ∧
    (cursorOn.setCurrentSource (some 2)).current_source_index_ = 2 ∧
    (cursorOn.setCurrentSource (some 2)).selection = [2] := by
  decide

/-- C13, amended.  With a current Source `c`: `unsetCurrentSource` makes the cursor none
and the current index `-1`; when the selection holds more than one Source it leaves
the selection as it is (so `c` stays selected if it was) and gives `c` the mode
SELECTED; otherwise it removes `c` from the selection, which is then empty when `c`
was the sole selected Source.  `setCurrentSource` to the end cursor is exactly this;
`setCurrentSource` to another valid target `t` makes `t` current, keeps the selection
and the mode SELECTED of `c` when the selection holds more than one Source and `t` is
one of them, and replaces the selection by `t` alone when `t` was not selected. -/
theorem switch_away (st : Mixer) (c : SourceId) (hc : st.current_source_ = some c) :
    (st.unsetCurrentSource.currentSource = none ∧
      st.unsetCurrentSource.indexCurrentSource = -1) ∧
    (Selection.size st.selection > 1 →
      st.unsetCurrentSource.selection = st.selection ∧
      (c ∈ st.selection → c ∈ st.unsetCurrentSource.selection) ∧
      (st.unsetCurrentSource.src c).mode = .SELECTED) ∧
    (¬ Selection.size st.selection > 1 → c ∉ st.unsetCurrentSource.selection) ∧
    (st.selection = [c] → st.unsetCurrentSource.selection = []) ∧
    st.setCurrentSource none = st.unsetCurrentSource ∧
    (∀ t, t ≠ c →
      (st.setCurrentSource (some t)).currentSource = some t ∧
      (Selection.size st.selection > 1 → t ∈ st.selection →
        (st.setCurrentSource (some t)).selection = st.selection ∧
        ((st.setCurrentSource (some t)).src c).mode = .SELECTED) ∧
      (t ∉ st.selection → (st.setCurrentSource (some t)).selection = [t])) := by
  obtain ⟨u1, u2, _, u4, u5⟩ := unsetCurrentSource_spec st c hc
  refine ⟨⟨u1, u2⟩, ?_, ?_, ?_, ?_, ?_⟩
  · intro h
    obtain ⟨a, b, _⟩ := u4 h
    exact ⟨a, fun hm => by rw [a]; exact hm, b⟩
  · intro h
    rw [(u5 h).1]
    exact not_mem_remove _ _
  · intro hsel
    have h : ¬ Selection.size st.selection > 1 := by simp [hsel, Selection.size]
    rw [(u5 h).1, hsel]
    simp [Selection.remove]
  · simp [setCurrentSource, hc]
  · intro t htc
    have hne : st.current_source_ ≠ some t := by
      rw [hc]; intro h; exact htc (Option.some.inj h).symm
    obtain ⟨s1, _, _, s4, _, s6⟩ := setCurrentSource_spec st t hne
    refine ⟨s1, ?_, ?_⟩
    · intro h ht
      obtain ⟨a, b, _⟩ := u4 h
      rw [s4, a, if_pos ht, s6 c (fun h => htc h.symm)]
      exact ⟨rfl, b⟩
    · intro ht
      have hnot : t ∉ st.unsetCurrentSource.selection := by
        by_cases h : Selection.size st.selection > 1
        · rw [(u4 h).1]; exact ht
        · rw [(u5 h).1]
          intro hm
          exact ht (List.mem_of_mem_filter hm)
      rw [s4, if_neg hnot]

/-- Witness of `switch_away`: `0` is current, `0` and `1` are selected. -/
theorem switch_away_witness :
    (cursorOn.unsetCurrentSource.currentSource = none ∧
      cursorOn.unsetCurrentSource.indexCurrentSource = -1) ∧
    (cursorOn.unsetCurrentSource.selection = cursorOn.selection ∧
      (0 ∈ cursorOn.selection → 0 ∈ cursorOn.unsetCurrentSource.selection) ∧
      (cursorOn.unsetCurrentSource.src 0).mode = .SELECTED) ∧
    (cursorAlone.unsetCurrentSource.selection = []) :=
  ⟨(switch_away cursorOn 0 rfl).1, (switch_away cursorOn 0 rfl).2.1 (by decide),
    (switch_away cursorAlone 0 rfl).2.2.2.1 rfl⟩

/-! ## The deletion path -/

/-- C14, as stated, fails: `0` is current and the Source `1` is deleted; the cursor does
not stay on `0`, `deleteSource` unsets it whichever Source it pointed at. -/
theorem deleteSource_path_counterexample :
    cursorAlone.currentSource = some 0 ∧ 1 ∈ cursorAlone.session_.sources ∧
    (cursorAlone.deleteSource (some 1)).currentSource = none ∧
    (cursorAlone.deleteSource (some 1)).indexCurrentSource = -1 ∧
    (cursorAlone.deleteSource (some 1)).session_.sources = [0] := by
  decide

/-- C14, amended.  For a Source `s` of the front Session, after `deleteSource(s)` the
sequence of the front Session is the former one with (the first occurrence of) `s`
removed, the other Sources keeping their relative order, so `s` is gone when the
sequence had no duplicates; `s` is not in the selection; and there is no current
Source any more, whether the cursor pointed at `s` or at another Source. -/
theorem deleteSource_path (st : Mixer) (s : SourceId) (hs : s ∈ st.session_.sources) :
    (st.deleteSource (some s)).session_.sources = st.session_.sources.erase s ∧
    (st.deleteSource (some s)).session_.sources.Sublist st.session_.sources ∧
    (st.deleteSource (some s)).session_.sources.length + 1 = st.session_.sources.length ∧
    (st.session_.sources.Nodup → s ∉ (st.deleteSource (some s)).session_.sources ∧
      ∀ x ∈ st.session_.sources, x ≠ s → x ∈ (st.deleteSource (some s)).session_.sources) ∧
    s ∉ (st.deleteSource (some s)).selection ∧
    (st.deleteSource (some s)).currentSource = none ∧
    (st.deleteSource (some s)).indexCurrentSource = -1 := by
  have hsrc := deleteSource_sources st s
  refine ⟨hsrc, ?_, ?_, ?_, ?_, rfl, rfl⟩
  · rw [hsrc]; exact List.erase_sublist _ _
  · rw [hsrc, List.length_erase_of_mem hs]
    have := List.length_pos_of_mem hs
    omega
  · intro hnd
    rw [hsrc]
    refine ⟨fun hmem => ((List.Nodup.mem_erase_iff hnd).1 hmem).1 rfl, fun x hx hxs => ?_⟩
    exact (List.Nodup.mem_erase_iff hnd).2 ⟨hxs, hx⟩
  · show s ∉ Selection.remove st.unsetCurrentSource.selection s
    exact not_mem_remove _ _

/-- Witness of `deleteSource_path`: `0` is current and deleted. -/
theorem deleteSource_path_witness :
    (cursorOn.deleteSource (some 0)).session_.sources = cursorOn.session_.sources.erase 0 ∧
    (cursorOn.deleteSource (some 0)).session_.sources.Sublist cursorOn.session_.sources ∧
    (cursorOn.deleteSource (some 0)).session_.sources.length + 1 =
      cursorOn.session_.sources.length ∧
    (cursorOn.session_.sources.Nodup → 0 ∉ (cursorOn.deleteSource (some 0)).session_.sources ∧
      ∀ x ∈ cursorOn.session_.sources, x ≠ 0 →
        x ∈ (cursorOn.deleteSource (some 0)).session_.sources) ∧
    0 ∉ (cursorOn.deleteSource (some 0)).selection ∧
    (cursorOn.deleteSource (some 0)).currentSource = none ∧
    (cursorOn.deleteSource (some 0)).indexCurrentSource = -1 :=
  deleteSource_path cursorOn 0 (by decide)

/-! ## Saving -/

theorem mem_historyPush (h : List String) (f : String) :
    (historyPush h f).head? = some f ∧ f ∈ historyPush h f := by
  simp [historyPush]

/-- C15. Save outcome.  When writing the document fails the save task leaves the
filename of every Session and the recent-sessions list unchanged; when it succeeds
the filename of the Session it was launched with is the target path and this path is
pushed on the recent-sessions list (nothing else of the Session changes); in both
cases the busy flag is cleared when the task ends.  `save` with an empty filename of
the front Session starts no task, and otherwise starts one on the front Session with
its own filename. -/
theorem saveSession_outcome (st : Mixer) (filename : String) :
    (∀ target, (st.saveSession filename target false).session_ = st.session_ ∧
      (st.saveSession filename target false).back_session_ = st.back_session_ ∧
      (st.saveSession filename target false).recentSessions = st.recentSessions ∧
      (st.saveSession filename target false).sessionThreadActive_ = false) ∧
    ((st.saveSession filename st.session_.sid true).session_.filename = filename ∧
      (st.saveSession filename st.session_.sid true).session_.sources = st.session_.sources ∧
      (st.saveSession filename st.session_.sid true).session_.sid = st.session_.sid ∧
      (st.saveSession filename st.session_.sid true).recentSessions =
        historyPush st.recentSessions filename ∧
      (st.saveSession filename st.session_.sid true).recentSessions.head? = some filename ∧
      (st.saveSession filename st.session_.sid true).sessionThreadActive_ = false) ∧
    (st.session_.filename = "" → st.save = (st, none)) ∧
    (st.session_.filename ≠ "" →
      st.save = (st, some ⟨st.session_.filename, st.session_.sid⟩)) := by
  refine ⟨fun target => ⟨rfl, rfl, rfl, rfl⟩, ?_, ?_, ?_⟩
  · simp [saveSession, onSession, Session.setFilename, (mem_historyPush _ _).1]
  · intro h
    simp [save, h]
  · intro h
    simp [save, saveas, h]

/-- Witness of `saveSession_outcome`: `save` on an unsaved Session and on a Session
named `b.mix`. -/
theorem saveSession_outcome_witness :
    ((live heapA [0, 1]).session_.filename = "" ∧
      (live heapA [0, 1]).save = (live heapA [0, 1], none)) ∧
    (swapReady.swap.session_.filename ≠ "" ∧
      swapReady.swap.save =
        (swapReady.swap, some ⟨swapReady.swap.session_.filename, swapReady.swap.session_.sid⟩)) :=
  ⟨⟨rfl, (saveSession_outcome (live heapA [0, 1]) "x.mix").2.2.1 rfl⟩,
    ⟨by decide, (saveSession_outcome swapReady.swap "x.mix").2.2.2 (by decide)⟩⟩

/-! ## Creation of a Source from a file -/

/-- `renameSource` always terminates; it touches neither the front Session, nor the
queue, nor the recent-import list. -/
theorem renameSource_total (st : Mixer) (s : Option SourceId) (newname : String) :
    ∃ st1, st.renameSource s newname = some st1 ∧ st1.session_ = st.session_ ∧
      st1.candidate_sources_ = st.candidate_sources_ ∧
      st1.recentImport = st.recentImport := by
  cases s with
  | none => exact ⟨st, rfl, rfl, rfl, rfl⟩
  | some s =>
    by_cases hne : renameBase newname = (st.src s).name
    · exact ⟨st, by simp [renameSource, renameSourceFuel, hne], rfl, rfl, rfl⟩
    · obtain ⟨n, hn, _⟩ := renameLoop_terminates st.names (renameBase newname)
        (st.session_.sources.length + 2) (by simp [names])
      refine ⟨st.setName s n, ?_, rfl, rfl, rfl⟩
      simp only [renameSource, renameSourceFuel, hne, if_false]
      rw [hn]

/-- C17. Missing file at source creation.  `createSourceFile` returns, and it returns
null if and only if the file does not exist; when the file does not exist the state
is unchanged, so no Source is renamed and the recent-import list is as before; in
every case the candidate queue and the source sequence of the front Session are
unchanged by the call.  When the file exists the Source returned is the object just
created and the path is pushed on the recent-import list. -/
theorem createSourceFile_missing (st : Mixer) (path : String) (info : FileInfo)
    (ss ms : SourceId) :
    ∃ r st1, st.createSourceFile path info ss ms = some (r, st1) ∧
      (r = none ↔ info.file_exists = false) ∧
      (info.file_exists = false → st1 = st) ∧
      (info.file_exists = true →
        r = some (if info.extension_filename = "mix" then ss else ms) ∧
        st1.recentImport = historyPush st.recentImport path) ∧
      st1.candidate_sources_ = st.candidate_sources_ ∧
      st1.session_ = st.session_ := by
  by_cases he : info.file_exists = true
  · obtain ⟨st1, h1, h2, h3, h4⟩ := renameSource_total
      { st with recentImport := historyPush st.recentImport path,
                recentImportPath := info.path_filename }
      (some (if info.extension_filename = "mix" then ss else ms)) info.base_filename
    refine ⟨some (if info.extension_filename = "mix" then ss else ms), st1, ?_, ?_, ?_, ?_,
      h3, h2⟩
    · simp only [createSourceFile, he, if_true]
      rw [h1]
    · simp [he]
    · intro hf; rw [he] at hf; exact absurd hf (by decide)
    · intro _; exact ⟨rfl, h4⟩
  · have hf : info.file_exists = false := by simpa using he
    refine ⟨none, st, by simp [createSourceFile, hf], by simp [hf], fun _ => rfl,
      fun h => absurd h he, rfl, rfl⟩

/-- On the example a missing file gives null and the same state; an existing media file
`a.mp4` gives the new Source `9`, named `a3` because `a` and `a2` are taken. -/
theorem createSourceFile_example :
    (((live heapA [0, 1]).createSourceFile "a.mp4" ⟨false, "mp4", "a", "/"⟩ 8 9).map
      (fun r => r.1)) = some none ∧
    (((live heapA [0, 1]).createSourceFile "a.mp4" ⟨true, "mp4", "a", "/"⟩ 8 9).map
      (fun r => (r.1, (r.2.src 9).name, r.2.recentImport, r.2.candidate_sources_,
        r.2.session_.sources))) = some (some 9, "a3", ["a.mp4"], [], [0, 1]) := by
  decide

/-- Witness of `createSourceFile_missing`: a path that does not exist. -/
theorem createSourceFile_missing_witness :
    ∃ r st1, (live heapA [0, 1]).createSourceFile "a.mp4" ⟨false, "mp4", "a", "/"⟩ 8 9
        = some (r, st1) ∧
      (r = none ↔ (⟨false, "mp4", "a", "/"⟩ : FileInfo).file_exists = false) ∧
      ((⟨false, "mp4", "a", "/"⟩ : FileInfo).file_exists = false → st1 = live heapA [0, 1]) ∧
      ((⟨false, "mp4", "a", "/"⟩ : FileInfo).file_exists = true →
        r = some (if (⟨false, "mp4", "a", "/"⟩ : FileInfo).extension_filename = "mix"
          then 8 else 9) ∧
        st1.recentImport = historyPush (live heapA [0, 1]).recentImport "a.mp4") ∧
      st1.candidate_sources_ = (live heapA [0, 1]).candidate_sources_ ∧
      st1.session_ = (live heapA [0, 1]).session_ :=
  createSourceFile_missing (live heapA [0, 1]) "a.mp4" ⟨false, "mp4", "a", "/"⟩ 8 9

/-! ## Switching the cursor by key, cyclic next, cursor invariant -/

theorem findNode_mem (S : Session) (node : Option Node) (x : SourceId)
    (h : S.findNode node = some x) : x ∈ S.sources := by
  cases node with
  | none => simp [Session.findNode] at h
  | some n =>
    by_cases hm : n.source ∈ S.sources
    · simp [Session.findNode, hm] at h
      rw [← h]; exact hm
    · simp [Session.findNode, hm] at h

theorem findName_mem (S : Session) (names : SourceId → String) (n : String) (x : SourceId)
    (h : S.findName names n = some x) : x ∈ S.sources :=
  List.mem_of_find?_eq_some h

theorem find_mem (S : Session) (s : Option SourceId) (x : SourceId)
    (h : s.bind S.find = some x) : x ∈ S.sources := by
  cases s with
  | none => simp at h
  | some a =>
    by_cases hm : a ∈ S.sources
    · simp [Session.find, hm] at h
      rw [← h]; exact hm
    · simp [Session.find, hm] at h

theorem findIndex_mem (S : Session) (i : Int) (x : SourceId)
    (h : S.findIndex i = some x) : x ∈ S.sources := by
  by_cases hi : i < 0
  · simp [Session.findIndex, hi] at h
  · simp only [Session.findIndex, hi, if_false] at h
    obtain ⟨hlt, he⟩ := List.getElem?_eq_some.mp h
    rw [← he]
    exact List.getElem_mem _

/-- The selection seen by `setCurrentSource` after it has cleared the cursor: a Source
other than the current one is selected after `unsetCurrentSource` exactly when it was
before, and the selection is then unchanged. -/
theorem unsetCurrentSource_selection (st : Mixer) (x : SourceId)
    (hne : st.current_source_ ≠ some x) :
    (x ∈ st.unsetCurrentSource.selection ↔ x ∈ st.selection) ∧
    (x ∈ st.selection → st.unsetCurrentSource.selection = st.selection) := by
  cases hc : st.current_source_ with
  | none =>
    have e : st.unsetCurrentSource.selection = st.selection := by
      simp [unsetCurrentSource, hc]
    rw [e]
    exact ⟨Iff.rfl, fun _ => rfl⟩
  | some c =>
    have hxc : x ≠ c := fun h => hne (by rw [hc, h])
    obtain ⟨_, _, _, u4, u5⟩ := unsetCurrentSource_spec st c hc
    by_cases h : Selection.size st.selection > 1
    · rw [(u4 h).1]
      exact ⟨Iff.rfl, fun _ => rfl⟩
    · rw [(u5 h).1]
      refine ⟨by simp [Selection.remove, hxc], fun hx => ?_⟩
      cases hsel : st.selection with
      | nil => rw [hsel] at hx; simp at hx
      | cons a t =>
        rw [hsel] at h hx
        cases t with
        | nil =>
          have hax : a = x := by simpa using (List.mem_singleton.mp hx).symm
          simp [Selection.remove, hax, hxc]
        | cons b u => simp [Selection.size] at h

/-- The effect of `setCurrentSource` for an iterator that designates a Source of the
front Session other than the current one. -/
theorem setCurrentSource_member (st : Mixer) (x : SourceId) (hx : x ∈ st.session_.sources)
    (hne : st.current_source_ ≠ some x) :
    (st.setCurrentSource (some x)).currentSource = some x ∧
    (st.setCurrentSource (some x)).indexCurrentSource = (st.session_.sources.indexOf x : Int) ∧
    ((st.setCurrentSource (some x)).src x).mode = .CURRENT ∧
    x ∈ (st.setCurrentSource (some x)).selection ∧
    (x ∉ st.selection → (st.setCurrentSource (some x)).selection = [x]) ∧
    (x ∈ st.selection → (st.setCurrentSource (some x)).selection = st.selection) := by
  obtain ⟨s1, s2, _, s4, s5, _⟩ := setCurrentSource_spec st x hne
  obtain ⟨u1, u2⟩ := unsetCurrentSource_selection st x hne
  refine ⟨s1, ?_, s5, ?_, ?_, ?_⟩
  · show (st.setCurrentSource (some x)).current_source_index_ = _
    rw [s2]
    simp [Session.index, hx]
  · rw [s4]
    by_cases h : x ∈ st.unsetCurrentSource.selection
    · rw [if_pos h]; exact h
    · rw [if_neg h]; simp
  · intro h
    rw [s4, if_neg (fun h1 => h (u1.mp h1))]
  · intro h
    rw [s4, if_pos (u1.mpr h)]
    exact u2 h

theorem setCurrentSource_end (st : Mixer) : (st.setCurrentSource none).current_source_ = none := by
  by_cases h : st.current_source_ = none
  · simp [setCurrentSource, h]
  · simp [setCurrentSource, h, unsetCurrentSource]

/-- C25. Canonical cursor switch.  Each keyed overload of `setCurrentSource` (node,
name, Source pointer, integer index) is `setCurrentSource` applied to the iterator that
`find` of the front Session returns for the key.  When that iterator designates a
Source `x` that is not the current one, afterwards `x` is the current Source, the
current index is the position of `x` in the front Session, `x` has mode CURRENT and is
selected; the selection is `x` alone when `x` was not selected and is unchanged when it
was.  When the key is not found, afterwards there is no current Source. -/
theorem setCurrentSource_by_key (st : Mixer) (it : Option SourceId)
    (hkey : (∃ node, it = st.session_.findNode node) ∨
      (∃ n, it = st.session_.findName (fun x => (st.src x).name) n) ∨
      (∃ s : Option SourceId, it = s.bind st.session_.find) ∨
      (∃ i, it = st.session_.findIndex i)) :
    ((∀ node, st.setCurrentSourceNode node = st.setCurrentSource (st.session_.findNode node)) ∧
      (∀ n, st.setCurrentSourceName n =
        st.setCurrentSource (st.session_.findName (fun x => (st.src x).name) n)) ∧
      (∀ s, st.setCurrentSourcePtr (some s) = st.setCurrentSource (st.session_.find s)) ∧
      (∀ i, st.setCurrentSourceIndex i = st.setCurrentSource (st.session_.findIndex i))) ∧
    (∀ x, it = some x → st.current_source_ ≠ some x →
      x ∈ st.session_.sources ∧
      (st.setCurrentSource it).currentSource = some x ∧
      (st.setCurrentSource it).indexCurrentSource = (st.session_.sources.indexOf x : Int) ∧
      ((st.setCurrentSource it).src x).mode = .CURRENT ∧
      x ∈ (st.setCurrentSource it).selection ∧
      (x ∉ st.selection → (st.setCurrentSource it).selection = [x]) ∧
      (x ∈ st.selection → (st.setCurrentSource it).selection = st.selection)) ∧
    (it = none → (st.setCurrentSource it).currentSource = none) := by
  refine ⟨⟨fun _ => rfl, fun _ => rfl, fun _ => rfl, fun _ => rfl⟩, ?_, ?_⟩
  · intro x hx hne
    have hm : x ∈ st.session_.sources := by
      rcases hkey with ⟨node, h⟩ | ⟨n, h⟩ | ⟨s, h⟩ | ⟨i, h⟩
      · exact findNode_mem _ node x (by rw [← h, hx])
      · exact findName_mem _ _ n x (by rw [← h, hx])
      · exact find_mem _ s x (by rw [← h, hx])
      · exact findIndex_mem _ i x (by rw [← h, hx])
    rw [hx]
    exact ⟨hm, setCurrentSource_member st x hm hne⟩
  · intro h
    rw [h]
    exact setCurrentSource_end st

/-- Witness of `setCurrentSource_by_key`: Source `0` is current, `0` and `1` are
selected; the key `2` (as an index) resolves to Source `2`. -/
theorem setCurrentSource_by_key_witness :
    cursorOn.session_.findIndex 2 = some 2 ∧ cursorOn.current_source_ ≠ some 2 ∧
    (cursorOn.setCurrentSourceIndex 2).currentSource = some 2 ∧
    (cursorOn.setCurrentSourceIndex 2).indexCurrentSource = 2 ∧
    (cursorOn.setCurrentSourceIndex 2).selection = [2] ∧
    (cursorOn.setCurrentSourceName "zz").currentSource = none :=
  have h := setCurrentSource_by_key cursorOn (cursorOn.session_.findIndex 2)
    (Or.inr (Or.inr (Or.inr ⟨2, rfl⟩)))
  have h2 := h.2.1 2 (by decide) (by decide)
  ⟨by decide, by decide, h2.2.1, h2.2.2.1, h2.2.2.2.2.2.1 (by decide), by decide⟩

/-- What the loop of `merge` leaves alone and what it appends: the cursor, the current
index, the selection and the heap are unchanged, and every workspace gets the nodes of
the inserted Sources at its end, in insertion order. -/
theorem foldl_insertSource_cursor (l : List SourceId) : ∀ st : Mixer,
    (l.foldl (fun m s => m.insertSource (some s) false) st).current_source_ =
      st.current_source_ ∧
    (l.foldl (fun m s => m.insertSource (some s) false) st).current_source_index_ =
      st.current_source_index_ ∧
    (l.foldl (fun m s => m.insertSource (some s) false) st).selection = st.selection ∧
    ∀ v, v = View.Mode.MIXING ∨ v = View.Mode.GEOMETRY ∨ v = View.Mode.LAYER →
      (l.foldl (fun m s => m.insertSource (some s) false) st).ws v =
        st.ws v ++ l.map (fun s => Source.group s v) := by
  induction l with
  | nil => intro st; simp
  | cons a t ih =>
    intro st
    obtain ⟨h1, h2, h3, h4⟩ := ih (st.insertSource (some a) false)
    rw [List.foldl_cons]
    refine ⟨h1.trans rfl, h2.trans rfl, h3.trans rfl, fun v hv => ?_⟩
    rw [h4 v hv, insertSource_ws, if_pos hv]
    simp

/-- C26. Merge preserves order and focus.  For a front Session with sequence `f1..fm`
and a Session `S` with sequence `s1..sn`: after `merge(S)` the sequence of the front
Session is `f1..fm` followed by `s1..sn` in the same order, the node of every `si` for
each of the Mixing, Geometry and Layer views is among the children of the workspace of
that view (the workspace holds its former children followed by the nodes of `s1..sn`),
and the cursor, the current index and the selection are the same as before. -/
theorem merge_order_focus (st : Mixer) (S : Session) :
    (st.merge (some S)).session_.sources = st.session_.sources ++ S.sources ∧
    (∀ v, v = View.Mode.MIXING ∨ v = View.Mode.GEOMETRY ∨ v = View.Mode.LAYER →
      (st.merge (some S)).ws v = st.ws v ++ S.sources.map (fun s => Source.group s v) ∧
      ∀ s ∈ S.sources, Source.group s v ∈ (st.merge (some S)).ws v) ∧
    (st.merge (some S)).current_source_ = st.current_source_ ∧
    (st.merge (some S)).currentSource = st.currentSource ∧
    (st.merge (some S)).indexCurrentSource = st.indexCurrentSource ∧
    (st.merge (some S)).selection = st.selection := by
  have hm : st.merge (some S) = S.sources.foldl (fun m s => m.insertSource (some s) false) st :=
    (mergeLoop_drains (S.sources.length + 1) st S (by omega)).2.2
  obtain ⟨h1, h2, h3, h4⟩ := foldl_insertSource_cursor S.sources st
  rw [hm]
  refine ⟨foldl_insertSource_sources S.sources st, fun v hv => ⟨h4 v hv, fun s hs => ?_⟩,
    h1, h1, h2, h3⟩
  rw [h4 v hv]
  exact List.mem_append_right _ (List.mem_map_of_mem _ hs)

/-- Witness of `merge_order_focus`: Source `0` is current in the front Session
`0, 1, 2`; the Session `5, 6` is merged. -/
theorem merge_order_focus_witness :
    (cursorOn.merge (some ⟨7, [5, 6], "", none⟩)).session_.sources = [0, 1, 2, 5, 6] ∧
    Source.group 6 .LAYER ∈ (cursorOn.merge (some ⟨7, [5, 6], "", none⟩)).ws .LAYER ∧
    (cursorOn.merge (some ⟨7, [5, 6], "", none⟩)).currentSource = some 0 ∧
    (cursorOn.merge (some ⟨7, [5, 6], "", none⟩)).indexCurrentSource = 0 :=
  have h := merge_order_focus cursorOn ⟨7, [5, 6], "", none⟩
  ⟨h.1, (h.2.1 .LAYER (Or.inr (Or.inr rfl))).2 6 (by decide), h.2.2.2.1, h.2.2.2.2.1⟩

theorem cursorConsistent_unset (st : Mixer) : st.unsetCurrentSource.cursorConsistent :=
  ⟨fun _ => rfl, fun c hc => by cases hc⟩

theorem cursorConsistent_setCurrentSource (st : Mixer) (it : Option SourceId)
    (hinv : st.cursorConsistent) (hit : ∀ s, it = some s → s ∈ st.session_.sources) :
    (st.setCurrentSource it).cursorConsistent := by
  by_cases h : st.current_source_ = it
  · have e : st.setCurrentSource it = st := by
      unfold setCurrentSource
      rw [if_pos h]
    rw [e]; exact hinv
  · cases it with
    | none =>
      have e : st.setCurrentSource none = st.unsetCurrentSource := by
        simp [setCurrentSource, h]
      rw [e]; exact cursorConsistent_unset st
    | some t =>
      obtain ⟨s1, s2, s3, _⟩ := setCurrentSource_spec st t h
      have ht := hit t rfl
      refine ⟨fun hn => (by rw [s1] at hn; cases hn), fun c hc => ?_⟩
      rw [s1] at hc
      cases hc
      rw [s3, s2]
      exact ⟨ht, by simp [Session.index, ht]⟩

theorem cursorConsistent_append (st st1 : Mixer) (l : List SourceId)
    (hinv : st.cursorConsistent)
    (h1 : st1.current_source_ = st.current_source_)
    (h2 : st1.current_source_index_ = st.current_source_index_)
    (h3 : st1.session_.sources = st.session_.sources ++ l) : st1.cursorConsistent := by
  refine ⟨fun hn => ?_, fun c hc => ?_⟩
  · rw [h2]; exact hinv.1 (h1 ▸ hn)
  · obtain ⟨hm, hi⟩ := hinv.2 c (h1 ▸ hc)
    rw [h3, h2, hi, List.indexOf_append_of_mem hm]
    exact ⟨List.mem_append_left _ hm, rfl⟩

theorem cursorConsistent_insertSource (st : Mixer) (s : Option SourceId) (b : Bool)
    (hinv : st.cursorConsistent) : (st.insertSource s b).cursorConsistent := by
  cases s with
  | none => exact hinv
  | some s =>
    have h0 : (st.insertSource (some s) false).cursorConsistent :=
      cursorConsistent_append st _ [s] hinv rfl rfl rfl
    cases b
    · exact h0
    · have h1 : ((st.insertSource (some s) false).setView .MIXING).cursorConsistent := h0
      exact cursorConsistent_setCurrentSource _ (some s) h1
        (fun x hx => by
          rw [← Option.some.inj hx]
          show s ∈ st.session_.sources ++ [s]
          simp)

theorem cursorConsistent_deleteSource (st : Mixer) (s : Option SourceId)
    (hinv : st.cursorConsistent) : (st.deleteSource s).cursorConsistent := by
  cases s with
  | none => exact hinv
  | some s => exact ⟨fun _ => rfl, fun c hc => by cases hc⟩

theorem cursorConsistent_merge (st : Mixer) (session : Option Session)
    (hinv : st.cursorConsistent) : (st.merge session).cursorConsistent := by
  cases session with
  | none => exact hinv
  | some S =>
    have hm : st.merge (some S) = S.sources.foldl (fun m s => m.insertSource (some s) false) st :=
      (mergeLoop_drains (S.sources.length + 1) st S (by omega)).2.2
    obtain ⟨h1, h2, _, _⟩ := foldl_insertSource_cursor S.sources st
    rw [hm]
    exact cursorConsistent_append st _ S.sources hinv h1 h2
      (foldl_insertSource_sources S.sources st)

theorem cursorConsistent_swap (st : Mixer) (hinv : st.cursorConsistent) :
    st.swap.cursorConsistent := by
  cases hb : st.back_session_ with
  | none =>
    have e : st.swap = st := by simp [swap, hb]
    rw [e]; exact hinv
  | some back =>
    obtain ⟨_, _, _, h4, h5, _⟩ := swap_fields st back hb
    exact ⟨fun _ => h5, fun c hc => by rw [h4] at hc; cases hc⟩

/-- The iterator `setCurrentNext` hands to `setCurrentSource` is `end` or designates a
Source of the front Session. -/
theorem setCurrentNext_target (st st1 : Mixer) (h : st.setCurrentNext = some st1) :
    ∃ it, st1 = st.setCurrentSource it ∧ ∀ s, it = some s → s ∈ st.session_.sources := by
  unfold setCurrentNext at h
  cases hc : st.current_source_ with
  | none =>
    rw [hc] at h
    simp only [ite_self, Option.some.injEq] at h
    exact ⟨_, h.symm, fun s hs => List.mem_of_mem_head? hs⟩
  | some c =>
    rw [hc] at h
    by_cases hm : c ∈ st.session_.sources
    · simp only [hm, if_true, Option.some.injEq] at h
      refine ⟨_, h.symm, fun s hs => ?_⟩
      by_cases hn : st.session_.next c = none
      · rw [if_pos hn] at hs
        exact List.mem_of_mem_head? hs
      · rw [if_neg hn] at hs
        obtain ⟨hlt, he⟩ := List.getElem?_eq_some.mp hs
        rw [← he]
        exact List.getElem_mem _
    · simp [hm] at h

theorem cursorConsistent_reachable (st : Mixer) (h : CursorReachable st) :
    st.cursorConsistent := by
  induction h with
  | construct st h1 h2 => exact ⟨fun _ => h2, fun c hc => by rw [h1] at hc; cases hc⟩
  | setCurrentSource st it _ hit ih => exact cursorConsistent_setCurrentSource st it ih hit
  | setCurrentSourceNode st node _ ih =>
    exact cursorConsistent_setCurrentSource st _ ih (fun s hs => findNode_mem _ node s hs)
  | setCurrentSourceName st n _ ih =>
    exact cursorConsistent_setCurrentSource st _ ih (fun s hs => findName_mem _ _ n s hs)
  | setCurrentSourcePtr st p _ ih =>
    exact cursorConsistent_setCurrentSource st _ ih (fun s hs => find_mem _ p s hs)
  | setCurrentSourceIndex st i _ ih =>
    exact cursorConsistent_setCurrentSource st _ ih (fun s hs => findIndex_mem _ i s hs)
  | setCurrentNext st st1 _ hn ih =>
    obtain ⟨it, e, hit⟩ := setCurrentNext_target st st1 hn
    rw [e]
    exact cursorConsistent_setCurrentSource st it ih hit
  | unsetCurrentSource st _ _ => exact cursorConsistent_unset st
  | insertSource st s b _ ih => exact cursorConsistent_insertSource st s b ih
  | deleteSource st s _ ih => exact cursorConsistent_deleteSource st s ih
  | merge st S _ ih => exact cursorConsistent_merge st S ih
  | swap st _ ih => exact cursorConsistent_swap st ih

/-- C27. Cursor/index consistency.  In every Mixer state reachable from construction
through `setCurrentSource` (all overloads), `setCurrentNext`, `unsetCurrentSource`,
`insertSource`, `deleteSource`, `merge` and `swap`: `indexCurrentSource()` is `-1`
exactly when there is no current Source; otherwise the current Source is a Source of
the front Session and `indexCurrentSource()` is its position in the sequence.  In
every such state `setCurrentNext` returns a state that is reachable again; without
current Source (after construction, `swap`, `deleteSource`) it is `setCurrentSource`
of the first Source of the front Session. -/
theorem cursor_index_invariant (st : Mixer) (h : CursorReachable st) :
    (st.indexCurrentSource = -1 ↔ st.currentSource = none) ∧
    (∀ c, st.currentSource = some c →
      c ∈ st.session_.sources ∧
      st.indexCurrentSource = (st.session_.sources.indexOf c : Int) ∧
      st.session_.sources[st.session_.sources.indexOf c]? = some c) ∧
    (∃ st1, st.setCurrentNext = some st1 ∧ CursorReachable st1) ∧
    (st.currentSource = none → st.setCurrentNext = some (st.setCurrentSource st.session_.begin))
    := by
  obtain ⟨h1, h2⟩ := cursorConsistent_reachable st h
  have hnext : ∃ st1, st.setCurrentNext = some st1 := by
    unfold setCurrentNext
    cases hc : st.current_source_ with
    | none => exact ⟨_, rfl⟩
    | some c => simp [(h2 c hc).1]
  refine ⟨⟨fun hi => ?_, h1⟩, fun c hc => ?_,
    hnext.elim (fun st1 h1 => ⟨st1, h1, CursorReachable.setCurrentNext st st1 h h1⟩),
    fun hc => ?_⟩
  rotate_left
  · obtain ⟨hm, hi⟩ := h2 c hc
    refine ⟨hm, hi, ?_⟩
    rw [List.getElem?_eq_getElem (List.indexOf_lt_length.mpr hm)]
    simp
  · have hc1 : st.current_source_ = none := hc
    simp [setCurrentNext, hc1]
  · cases hc : st.current_source_ with
    | none => exact hc
    | some c =>
      have := (h2 c hc).2
      have hi2 : st.current_source_index_ = -1 := hi
      rw [hi2] at this
      omega

/-- Witness of `cursor_index_invariant`: from a Mixer with the Sources `0` and `1`,
Source `5` is inserted and made current, then the Source at index `1` is made
current; and `setCurrentNext` on the constructed Mixer, which has no current Source,
makes the first Source current with index `0`. -/
theorem cursor_index_invariant_witness :
    (((live heapA [0, 1]).insertSource (some 5) true).setCurrentSourceIndex 1).currentSource =
      some 1 ∧
    ((((live heapA [0, 1]).insertSource (some 5) true).setCurrentSourceIndex 1).indexCurrentSource
        = -1 ↔
      (((live heapA [0, 1]).insertSource (some 5) true).setCurrentSourceIndex 1).currentSource
        = none) ∧
    (live heapA [0, 1]).setCurrentNext =
      some ((live heapA [0, 1]).setCurrentSource (live heapA [0, 1]).session_.begin) ∧
    ((live heapA [0, 1]).setCurrentNext.map (fun st => (st.currentSource, st.indexCurrentSource)))
      = some (some 0, 0) :=
  ⟨by decide,
    (cursor_index_invariant _
      (CursorReachable.setCurrentSourceIndex _ 1
        (CursorReachable.insertSource _ (some 5) true
          (CursorReachable.construct (live heapA [0, 1]) rfl rfl)))).1,
    (cursor_index_invariant _ (CursorReachable.construct (live heapA [0, 1]) rfl rfl)).2.2.2 rfl,
    by decide⟩

theorem next_cyclic (l : List SourceId) (hnd : l.Nodup) (i : Nat) (hi : i < l.length) :
    (if l[List.indexOf l[i] l + 1]? = none then l.head? else l[List.indexOf l[i] l + 1]?) =
      l[(i + 1) % l.length]? := by
  rw [List.indexOf_getElem hnd i hi]
  by_cases h : i + 1 < l.length
  · rw [Nat.mod_eq_of_lt h, if_neg (by simp [List.getElem?_eq_getElem h])]
  · have e : i + 1 = l.length := by omega
    rw [e, Nat.mod_self, if_pos (by simp), List.head?_eq_getElem?]

/-- C28. Cyclic next.  For a front Session with `n >= 1` pairwise distinct Sources whose
current Source is the one at position `i` (and the current index is `i`):
`setCurrentNext()` returns, and afterwards the current Source is the one at position
`(i + 1) mod n` and the current index is `(i + 1) mod n`, wrapping from the last Source
to the first; the sequence of the front Session is unchanged; for `n = 1` the whole
state is unchanged. -/
theorem setCurrentNext_cyclic (st : Mixer) (i : Nat) (hnd : st.session_.sources.Nodup)
    (hi : i < st.session_.sources.length)
    (hc : st.current_source_ = st.session_.sources[i]?)
    (hidx : st.current_source_index_ = (i : Int)) :
    ∃ st1, st.setCurrentNext = some st1 ∧
      st1.currentSource = st.session_.sources[(i + 1) % st.session_.sources.length]? ∧
      st1.currentSource ≠ none ∧
      st1.indexCurrentSource = (((i + 1) % st.session_.sources.length : Nat) : Int) ∧
      st1.session_ = st.session_ ∧
      (st.session_.sources.length = 1 → st1 = st) := by
  have hci : st.current_source_ = some st.session_.sources[i] := by
    rw [hc, List.getElem?_eq_getElem hi]
  have hlt : (i + 1) % st.session_.sources.length < st.session_.sources.length :=
    Nat.mod_lt _ (by omega)
  have hnext := next_cyclic st.session_.sources hnd i hi
  have e : st.setCurrentNext = some (st.setCurrentSource
      st.session_.sources[(i + 1) % st.session_.sources.length]?) := by
    unfold setCurrentNext
    rw [hci]
    simp only [List.getElem_mem, if_true, Session.next, Session.begin]
    rw [hnext]
  refine ⟨_, e, ?_⟩
  rw [List.getElem?_eq_getElem hlt]
  by_cases hsame : (i + 1) % st.session_.sources.length = i
  · have e2 : st.setCurrentSource (some st.session_.sources[(i + 1) %
        st.session_.sources.length]) = st := by
      unfold setCurrentSource
      rw [if_pos (by rw [hci]; simp [hsame])]
    rw [e2]
    refine ⟨?_, ?_, ?_, rfl, fun _ => rfl⟩
    · show st.current_source_ = _
      rw [hci]
      simp [hsame]
    · show st.current_source_ ≠ none
      rw [hci]; simp
    · show st.current_source_index_ = _
      rw [hidx, hsame]
  · have hne : st.current_source_ ≠
        some st.session_.sources[(i + 1) % st.session_.sources.length] := by
      rw [hci]
      intro h
      exact hsame ((List.Nodup.getElem_inj_iff hnd).mp (Option.some.inj h)).symm
    obtain ⟨s1, s2, s3, _⟩ := setCurrentSource_spec st _ hne
    refine ⟨s1, by rw [Mixer.currentSource, s1]; simp, ?_, s3, fun h1 => ?_⟩
    · show (st.setCurrentSource _).current_source_index_ = _
      rw [s2]
      simp [Session.index, List.getElem_mem, List.indexOf_getElem hnd]
    · exfalso
      apply hsame
      rw [h1] at hi ⊢
      omega

/-- Witness of `setCurrentNext_cyclic`: the last Source `2` of the front Session
`0, 1, 2` is current; the next one is the first. -/
theorem setCurrentNext_cyclic_witness :
    ∃ st1, ({ cursorOn with current_source_ := some 2, current_source_index_ := 2 } :
        Mixer).setCurrentNext = some st1 ∧
      st1.currentSource = some 0 ∧ st1.indexCurrentSource = 0 :=
  have h := setCurrentNext_cyclic
    { cursorOn with current_source_ := some 2, current_source_index_ := 2 } 2
    (by decide) (by decide) (by decide) (by decide)
  h.elim (fun st1 h1 => ⟨st1, h1.1, h1.2.1, h1.2.2.2.1⟩)

end Mixer

/-! ## The saved document -/

theorem foldl_accept (l : List SourceId) : ∀ (n : String) (a : List (String × Int))
    (c : List XMLNode),
    l.foldl SessionVisitor.accept (XMLNode.element n a c) =
      XMLNode.element n a (c ++ l.map XMLNode.source) := by
  induction l with
  | nil => intro n a c; simp
  | cons x t ih =>
    intro n a c
    rw [List.foldl_cons]
    simp only [SessionVisitor.accept, XMLNode.insertEndChild]
    rw [ih]
    simp

/-- The document built by `saveSession`, written out. -/
theorem saveDocument_eq (appName : String) (major minor : Int) (S : Session) :
    saveDocument appName major minor S =
      [XMLNode.element appName [("major", major), ("minor", minor)] [],
       XMLNode.element "Session" [] (S.sources.map XMLNode.source),
       XMLNode.element "Views" []
         [XMLNode.element "Mixing" [] [XMLNode.transform .MIXING],
          XMLNode.element "Geometry" [] [XMLNode.transform .GEOMETRY],
          XMLNode.element "Layer" [] [XMLNode.transform .LAYER],
          XMLNode.element "Rendering" [] [XMLNode.transform .RENDERING]]] := by
  simp [saveDocument, foldl_accept, XMLNode.insertEndChild, XMLNode.setAttribute]

/-- C16, as stated, fails: the document has three top-level elements; the application
tag element is the first of them and has no child, the Session and the Views element
are its siblings, not its children. -/
theorem saveDocument_shape_counterexample :
    (saveDocument "vmix" 0 1 ⟨0, [3, 4], "a.mix", none⟩).length = 3 ∧
    (saveDocument "vmix" 0 1 ⟨0, [3, 4], "a.mix", none⟩).map XMLNode.name =
      [some "vmix", some "Session", some "Views"] ∧
    ((saveDocument "vmix" 0 1 ⟨0, [3, 4], "a.mix", none⟩).head?.map XMLNode.children) = some [] := by
  rw [saveDocument_eq]
  exact ⟨rfl, rfl, rfl⟩

/-- C16, amended.  The document built by the save task holds three top-level elements,
in this order: the application tag element with the major and minor version
attributes and no child; a Session element with exactly one child subtree per Source,
in the source order of the Session; a Views element with exactly four sub-blocks named
Mixing, Geometry, Layer and Rendering, in this order, each holding exactly the one
serialized transform node of its view. -/
theorem saveDocument_shape (appName : String) (major minor : Int) (S : Session) :
    ∃ version session views,
      saveDocument appName major minor S = [version, session, views] ∧
      (version.name = some appName ∧
        version.attributes = [("major", major), ("minor", minor)] ∧ version.children = []) ∧
      (session.name = some "Session" ∧ session.children = S.sources.map XMLNode.source ∧
        session.children.length = S.sources.length) ∧
      (views.name = some "Views" ∧
        views.children.map XMLNode.name =
          [some "Mixing", some "Geometry", some "Layer", some "Rendering"] ∧
        views.children.map XMLNode.children =
          [[XMLNode.transform .MIXING], [XMLNode.transform .GEOMETRY],
           [XMLNode.transform .LAYER], [XMLNode.transform .RENDERING]]) := by
  refine ⟨_, _, _, saveDocument_eq appName major minor S, ⟨rfl, rfl, rfl⟩, ⟨rfl, rfl, ?_⟩,
    ⟨rfl, rfl, rfl⟩⟩
  simp [XMLNode.children]

/-! ## Nested session sources -/

namespace SessionSource

/-- C18. Detach transfers the nested Session.  For a SessionSource holding the Session
`S`, `detach` returns exactly `S` (the same object, its sequence untouched); afterwards
the source holds the Session just built by `new Session`, which is empty and, being a
new object, different from `S`; the source reports failed and is not ready. -/
theorem detach_transfers (s : SessionSource) (S : Session) (sid : Nat)
    (hS : s.session_ = some S) (hnew : sid ≠ S.sid) :
    (s.detach sid).1 = some S ∧
    (s.detach sid).2.session_ = some (Session.empty sid) ∧
    (Session.empty sid).sources = [] ∧
    (s.detach sid).2.session_ ≠ some S ∧
    (s.detach sid).2.failed = true ∧
    (s.detach sid).2.ready_ = false := by
  refine ⟨hS, rfl, rfl, ?_, rfl, rfl⟩
  intro h
  have : Session.empty sid = S := Option.some.inj h
  exact hnew (by rw [← this]; rfl)

/-- Witness of `detach_transfers`: a source holding a Session with two Sources. -/
theorem detach_transfers_witness :
    (SessionSource.detach ⟨some ⟨1, [5, 6], "a.mix", none⟩, false, true, true, false, 0⟩ 2).1
      = some ⟨1, [5, 6], "a.mix", none⟩ ∧
    (SessionSource.detach ⟨some ⟨1, [5, 6], "a.mix", none⟩, false, true, true, false, 0⟩ 2
      ).2.session_ = some (Session.empty 2) ∧
    (Session.empty 2).sources = [] ∧
    (SessionSource.detach ⟨some ⟨1, [5, 6], "a.mix", none⟩, false, true, true, false, 0⟩ 2
      ).2.session_ ≠ some ⟨1, [5, 6], "a.mix", none⟩ ∧
    (SessionSource.detach ⟨some ⟨1, [5, 6], "a.mix", none⟩, false, true, true, false, 0⟩ 2
      ).2.failed = true ∧
    (SessionSource.detach ⟨some ⟨1, [5, 6], "a.mix", none⟩, false, true, true, false, 0⟩ 2
      ).2.ready_ = false :=
  detach_transfers ⟨some ⟨1, [5, 6], "a.mix", none⟩, false, true, true, false, 0⟩
    ⟨1, [5, 6], "a.mix", none⟩ 2 rfl (by decide)

/-- The result of `update` on a non-null nested Session, by the failed Source on
record when `failedSource()` is tested: the record of the Session update when the
source is active and not paused, else the record already in the Session. -/
theorem update_eq (s : SessionSource) (failed : SourceId → Bool) (elapsed : Nat) (S : Session)
    (hS : s.session_ = some S) :
    (s.update failed elapsed).session_ = some
      (match (if s.active_ && !s.paused_ then S.update failed else S).failedSource with
        | some f => (if s.active_ && !s.paused_ then S.update failed else S).deleteSource f
        | none => (if s.active_ && !s.paused_ then S.update failed else S)) ∧
    (s.update failed elapsed).failed_ =
      (match (if s.active_ && !s.paused_ then S.update failed else S).failedSource with
        | some f => if ((if s.active_ && !s.paused_ then S.update failed else S).deleteSource
            f).numSource < 1 then true else s.failed_
        | none => s.failed_) := by
  unfold update
  rw [hS]
  dsimp only
  generalize (if (s.active_ && !s.paused_) = true then S.update failed else S) = S1
  cases S1.failedSource <;> exact ⟨rfl, rfl⟩

/-- C24, as stated, fails for a source that is not active (or is paused) and whose
nested Session is empty but still holds the record of a failed Source from an earlier
update: `session_->update(dt)` is skipped, `failedSource()` returns the old record,
`deleteSource` finds nothing to remove, and `numSource() < 1` sets the failed flag.
The flag is set in a call in which no removal happened. -/
theorem update_exhaustion_counterexample :
    ((⟨some ⟨1, [], "", some 5⟩, false, true, false, false, 0⟩ : SessionSource).update
        (fun _ => false) 16000).session_ = some ⟨1, [], "", some 5⟩ ∧
    (⟨some ⟨1, [], "", some 5⟩, false, true, false, false, 0⟩ : SessionSource).failed_ = false ∧
    ((⟨some ⟨1, [], "", some 5⟩, false, true, false, false, 0⟩ : SessionSource).update
        (fun _ => false) 16000).failed_ = true := by
  decide

/-- C24, amended.  `update` does nothing without nested Session.  Otherwise let `r` be
the failed Source on record when `update` tests `failedSource()` (the record of
`session_->update(dt)` when the source is active and not paused, else the record
already in the nested Session).  Without record the sequence and the failed flag are
unchanged; with a record `f` the sequence is the former one with `f` removed (one
Source less when `f` is in the sequence, unchanged when it is not), so at most one
Source is removed, and the failed flag is set exactly when the nested Session has no
Sources after the call of `deleteSource`.  When the source is active and not paused
the recorded Source is a failing Source of the sequence, so the sequence loses exactly
one Source and the flag is newly set exactly when this removal left the nested
Session without Sources.  A nested Session that is empty and has no recorded failed
Source leaves the failed flag as it is. -/
theorem update_exhaustion (s : SessionSource) (failed : SourceId → Bool) (elapsed : Nat) :
    (s.session_ = none → s.update failed elapsed = s) ∧
    ∀ S r, s.session_ = some S →
      r = (if s.active_ && !s.paused_ then S.sources.find? failed else S.failedSource) →
      ∃ S1, (s.update failed elapsed).session_ = some S1 ∧
        (r = none → S1.sources = S.sources ∧ (s.update failed elapsed).failed_ = s.failed_) ∧
        (∀ f, r = some f → S1.sources = S.sources.erase f ∧
          (f ∈ S.sources → S1.sources.length + 1 = S.sources.length) ∧
          (f ∉ S.sources → S1.sources = S.sources) ∧
          ((s.update failed elapsed).failed_ = true ↔ (s.failed_ = true ∨ S1.sources = []))) ∧
        S1.sources.length ≤ S.sources.length ∧ S.sources.length ≤ S1.sources.length + 1 ∧
        (s.active_ = true → s.paused_ = false → ∀ f, r = some f →
          f ∈ S.sources ∧ failed f = true ∧ S1.sources.length + 1 = S.sources.length) ∧
        (S.sources = [] → S.failedSource = none →
          (s.update failed elapsed).failed_ = s.failed_) := by
  refine ⟨fun h => by simp [update, h], fun S r hS hr => ?_⟩
  obtain ⟨e1, e2⟩ := update_eq s failed elapsed S hS
  have hrec : (if s.active_ && !s.paused_ then S.update failed else S).failedSource = r := by
    rw [hr]
    by_cases c : (s.active_ && !s.paused_) = true
    · simp only [c, if_true]; rfl
    · simp only [c]; rfl
  have hsrc : (if s.active_ && !s.paused_ then S.update failed else S).sources = S.sources := by
    by_cases c : (s.active_ && !s.paused_) = true
    · simp only [c, if_true]; rfl
    · simp only [c]; rfl
  rw [hrec] at e1 e2
  cases r with
  | none =>
    simp only at e1 e2
    refine ⟨_, e1, fun _ => ⟨hsrc, e2⟩, fun f hf => (by cases hf), (by rw [hsrc]),
      (by rw [hsrc]; omega), fun _ _ f hf => (by cases hf), fun _ _ => e2⟩
  | some f =>
    simp only at e1 e2
    have hS1 : ((if s.active_ && !s.paused_ then S.update failed else S).deleteSource f).sources
        = S.sources.erase f := by
      show (if s.active_ && !s.paused_ then S.update failed else S).sources.erase f = _
      rw [hsrc]
    refine ⟨_, e1, fun h => (by cases h), fun g hg => ?_, ?_, ?_, fun ha hp g hg => ?_,
      fun hempty hnone => ?_⟩
    · cases hg
      refine ⟨hS1, fun hm => ?_, fun hm => ?_, ?_⟩
      · rw [hS1, List.length_erase, if_pos hm]
        have : 0 < S.sources.length := List.length_pos_of_mem hm
        omega
      · rw [hS1, List.erase_of_not_mem hm]
      · rw [e2]
        simp only [Session.numSource, hS1]
        cases hl : S.sources.erase f with
        | nil => simp
        | cons a t => simp
    · rw [hS1]; exact (List.erase_sublist f S.sources).length_le
    · rw [hS1, List.length_erase]
      split <;> omega
    · cases hg
      have hfind : S.sources.find? failed = some f := by
        simp only [ha, hp, Bool.not_false, Bool.and_self, if_true] at hr
        exact hr.symm
      have hm : f ∈ S.sources := List.mem_of_find?_eq_some hfind
      refine ⟨hm, List.find?_some (p := failed) hfind, ?_⟩
      rw [hS1, List.length_erase, if_pos hm]
      have : 0 < S.sources.length := List.length_pos_of_mem hm
      omega
    · exfalso
      by_cases c : (s.active_ && !s.paused_) = true
      · simp only [c, if_true, hempty, List.find?_nil] at hr
        cases hr
      · simp only [c, hnone] at hr
        cases hr

/-- Witness of `update_exhaustion`: the only nested Source `5` fails during the update;
it is removed and the source is marked failed. -/
theorem update_exhaustion_witness :
    ((⟨some ⟨1, [5], "", none⟩, false, true, true, false, 0⟩ : SessionSource).update
        (fun _ => true) 16000).session_ = some ⟨1, [], "", some 5⟩ ∧
    ((⟨some ⟨1, [5], "", none⟩, false, true, true, false, 0⟩ : SessionSource).update
        (fun _ => true) 16000).failed_ = true ∧
    ((⟨some ⟨1, [], "", none⟩, false, true, true, false, 0⟩ : SessionSource).update
        (fun _ => true) 16000).failed_ = false :=
  have h := (update_exhaustion ⟨some ⟨1, [5], "", none⟩, false, true, true, false, 0⟩
    (fun _ => true) 16000).2 ⟨1, [5], "", none⟩ (some 5) rfl rfl
  have h0 := (update_exhaustion ⟨some ⟨1, [], "", none⟩, false, true, true, false, 0⟩
    (fun _ => true) 16000).2 ⟨1, [], "", none⟩ none rfl rfl
  ⟨by decide, h.elim (fun S1 h1 => (h1.2.2.1 5 rfl).2.2.2.mpr
      (Or.inr (by rw [(h1.2.2.1 5 rfl).1]; rfl))),
    h0.elim (fun S1 h1 => h1.2.2.2.2.2.2 rfl rfl)⟩

end SessionSource

namespace SessionFileSource

/-- The last part of `init` changes neither the flags, nor the nested Session, nor the
render buffer. -/
theorem initDone_fields (s : SessionFileSource) :
    s.initDone.initialized_ = s.initialized_ ∧ s.initDone.ready_ = s.ready_ ∧
    s.initDone.session_ = s.session_ ∧ s.initDone.renderbuffer_ = s.renderbuffer_ ∧
    s.initDone.rendering_attached = s.rendering_attached ∧
    s.initDone.wait_for_sources_ = s.wait_for_sources_ ∧
    s.initDone.failed_ = s.failed_ := by
  unfold initDone
  cases h : s.initialized_ <;> simp [h]

/-- The first part of `init`, case by case on the state it finds. -/
theorem initSession_spec (s s1 : SessionFileSource) (env : InitEnv)
    (h : s.initSession env = some s1) :
    s1.ready_ = s.ready_ ∧
    (s.initialized_ = true → s1.initialized_ = true) ∧
    (s1.session_ = none → s.session_ = none) ∧
    (s.session_ = none → s1.initialized_ = s.initialized_ ∧
      s1.renderbuffer_ = s.renderbuffer_ ∧ s1.rendering_attached = s.rendering_attached) ∧
    (s.initialized_ = false → s1.initialized_ = true →
      ∃ S, s1.session_ = some S ∧ ∀ x ∈ S.sources, env.isInitialized x = true) := by
  unfold initSession at h
  cases hs : s.session_ with
  | none =>
    rw [hs] at h
    simp only at h
    by_cases hv : s.loader_valid = true
    · rw [if_pos hv] at h
      cases hl : env.loaded with
      | none =>
        rw [hl] at h
        cases Option.some.inj h
        exact ⟨rfl, id, fun _ => rfl, fun _ => ⟨rfl, rfl, rfl⟩,
          fun h0 h1 => by rw [h0] at h1; exact absurd h1 (by decide)⟩
      | some result =>
        rw [hl] at h
        simp only at h
        by_cases hr : result.isNone = true
        · rw [if_pos hr] at h
          cases Option.some.inj h
          exact ⟨rfl, id, fun _ => rfl, fun _ => ⟨rfl, rfl, rfl⟩,
            fun h0 h1 => by simp only at h1; rw [h0] at h1; exact absurd h1 (by decide)⟩
        · rw [if_neg hr] at h
          cases Option.some.inj h
          exact ⟨rfl, id, fun _ => rfl, fun _ => ⟨rfl, rfl, rfl⟩,
            fun h0 h1 => by simp only at h1; rw [h0] at h1; exact absurd h1 (by decide)⟩
    · rw [if_neg hv] at h
      exact absurd h (by simp)
  | some S =>
    rw [hs] at h
    simp only at h
    by_cases hw : s.wait_for_sources_ = true
    · rw [if_pos hw] at h
      by_cases hall : (S.update env.failed).sources.all env.isInitialized = true
      · rw [if_pos hall] at h
        cases Option.some.inj h
        refine ⟨rfl, fun _ => rfl, fun h0 => by simp at h0, fun h0 => by simp at h0,
          fun _ _ => ⟨S.update env.failed, rfl, ?_⟩⟩
        intro x hx
        exact List.all_eq_true.1 hall x hx
      · rw [if_neg hall] at h
        cases Option.some.inj h
        exact ⟨rfl, id, fun h0 => by simp at h0, fun h0 => by simp at h0,
          fun h0 h1 => by simp only at h1; rw [h0] at h1; exact absurd h1 (by decide)⟩
    · rw [if_neg hw] at h
      by_cases hf : (!s.failed_) = true
      · rw [if_pos hf] at h
        by_cases hn : (S.update env.failed).numSource > 0
        · rw [if_pos hn] at h
          cases Option.some.inj h
          exact ⟨rfl, id, fun h0 => by simp [attach] at h0, fun h0 => by simp at h0,
            fun h0 h1 => by
              simp only [attach] at h1; rw [h0] at h1; exact absurd h1 (by decide)⟩
        · rw [if_neg hn] at h
          cases Option.some.inj h
          refine ⟨rfl, fun _ => rfl, fun h0 => by simp [attach] at h0, fun h0 => by simp at h0,
            fun _ _ => ⟨S.update env.failed, rfl, ?_⟩⟩
          intro x hx
          have h0 : (S.update env.failed).sources = [] := by
            simpa [Session.numSource] using hn
          rw [h0] at hx
          simp at hx
      · rw [if_neg hf] at h
        cases Option.some.inj h
        exact ⟨rfl, id, fun h0 => by simp_all, fun h0 => by simp at h0,
          fun h0 h1 => by rw [h0] at h1; exact absurd h1 (by decide)⟩

/-- What a call of `init` can do to the flags. -/
theorem init_spec (s s1 : SessionFileSource) (env : InitEnv) (h : s.init env = some s1) :
    s1.ready_ = s.ready_ ∧
    (s.initialized_ = true → s1.initialized_ = true) ∧
    (s1.session_ = none → s.session_ = none) ∧
    (s.session_ = none → s1.initialized_ = s.initialized_ ∧
      s1.renderbuffer_ = s.renderbuffer_ ∧ s1.rendering_attached = s.rendering_attached) ∧
    (s.initialized_ = false → s1.initialized_ = true →
      ∃ S, s1.session_ = some S ∧ ∀ x ∈ S.sources, env.isInitialized x = true) := by
  unfold init at h
  obtain ⟨s0, h0, rfl⟩ := Option.map_eq_some'.1 h
  obtain ⟨d1, d2, d3, d4, d5, _, _⟩ := initDone_fields s0
  obtain ⟨a1, a2, a3, a4, a5⟩ := initSession_spec s s0 env h0
  rw [d1, d2, d3, d4, d5]
  exact ⟨a1, a2, a3, a4, a5⟩

/-- The invariant of the initialization: ready only if initialized, and neither while
no Session has been delivered. -/
theorem reachable_invariant (s : SessionFileSource) (hr : Reachable s) :
    (s.ready_ = true → s.initialized_ = true) ∧
    (s.session_ = none → s.initialized_ = false ∧ s.ready_ = false) := by
  induction hr with
  | new sid =>
    exact ⟨fun h => absurd h (by simp [new, SessionSource.new]),
      fun h => absurd h (by simp [new, SessionSource.new])⟩
  | load s p sid _ _ => exact ⟨fun h => absurd h (by simp [load]), fun _ => ⟨rfl, rfl⟩⟩
  | init s s1 env _ h ih =>
    obtain ⟨a1, a2, a3, a4, _⟩ := init_spec s s1 env h
    refine ⟨fun hr1 => a2 (ih.1 (a1 ▸ hr1)), fun hn => ?_⟩
    have hsn := a3 hn
    exact ⟨(a4 hsn).1.trans (ih.2 hsn).1, a1.trans (ih.2 hsn).2⟩
  | render s s1 env _ h ih =>
    unfold render at h
    by_cases hi : s.initialized_ = true
    · simp only [hi, Bool.not_true, Bool.false_eq_true, if_false] at h
      cases Option.some.inj h
      refine ⟨fun _ => rfl, fun hn => ?_⟩
      have hn0 : s.session_ = none := hn
      have := (ih.2 hn0).1
      rw [hi] at this
      exact absurd this (by decide)
    · have hi0 : s.initialized_ = false := by simpa using hi
      simp only [hi0, Bool.not_false, if_true] at h
      obtain ⟨a1, a2, a3, a4, _⟩ := init_spec s s1 env h
      refine ⟨fun hr1 => a2 (ih.1 (a1 ▸ hr1)), fun hn => ?_⟩
      have hsn := a3 hn
      exact ⟨(a4 hsn).1.trans (ih.2 hsn).1, a1.trans (ih.2 hsn).2⟩

/-- C19. Initialization state machine of `SessionFileSource`.  In every state reachable
through `load`, `init` and `render` the source is ready only if it is initialized, and
while no Session has been delivered (`session_` is null) it is neither initialized nor
ready.  It becomes initialized only in an `init` step (called directly or from
`render`) at whose end every Source of the nested Session reports initialized, which
is vacuous for an empty Session; `load` leaves it not initialized and not ready, and
`render` on an initialized source only sets it ready. -/
theorem init_state_machine :
    (∀ s, Reachable s →
      (s.ready_ = true → s.initialized_ = true) ∧
      (s.session_ = none → s.initialized_ = false ∧ s.ready_ = false)) ∧
    (∀ (s s1 : SessionFileSource) (env : InitEnv), s.init env = some s1 →
      s.initialized_ = false → s1.initialized_ = true →
      ∃ S, s1.session_ = some S ∧ ∀ x ∈ S.sources, env.isInitialized x = true) ∧
    (∀ (s s1 : SessionFileSource) (env : InitEnv), s.render env = some s1 →
      s.initialized_ = false → s1.initialized_ = true →
      s.init env = some s1 ∧
      ∃ S, s1.session_ = some S ∧ ∀ x ∈ S.sources, env.isInitialized x = true) ∧
    (∀ (s : SessionFileSource) (env : InitEnv), s.initialized_ = true →
      s.render env = some { s with ready_ := true }) ∧
    (∀ (s : SessionFileSource) (p : String) (sid : Nat),
      (s.load p sid).initialized_ = false ∧ (s.load p sid).ready_ = false) := by
  refine ⟨reachable_invariant, fun s s1 env h => (init_spec s s1 env h).2.2.2.2, ?_, ?_,
    fun _ _ _ => ⟨rfl, rfl⟩⟩
  · intro s s1 env h h0 h1
    have hinit : s.init env = some s1 := by
      unfold render at h
      simpa [h0] using h
    exact ⟨hinit, (init_spec s s1 env hinit).2.2.2.2 h0 h1⟩
  · intro s env h
    simp [render, h]

/-- Witness of `init_state_machine`: construction, `load`, delivery of a Session with
one Source, start of the wait, and the `init` step in which the Source reports
initialized. -/
theorem init_state_machine_witness :
    (∃ s2, (((SessionFileSource.new 0).load "a.mix" 9).init envLoaded).bind
        (fun s => (s.init envLoaded).bind (fun s1 => s1.init envReady)) = some s2 ∧
      s2.initialized_ = true ∧ s2.ready_ = false ∧
      ∃ S, s2.session_ = some S ∧ ∀ x ∈ S.sources, envReady.isInitialized x = true) ∧
    (((SessionFileSource.new 0).load "a.mix" 9).initialized_ = false ∧
      ((SessionFileSource.new 0).load "a.mix" 9).ready_ = false) :=
  ⟨⟨_, rfl, rfl, rfl,
      init_state_machine.2.1
        { SessionFileSource.new 0 with
          path_ := "a.mix", session_ := some ⟨1, [5], "a.mix", none⟩,
          renderbuffer_ := some (1280, 720), rendering_attached := true,
          wait_for_sources_ := true }
        _ envReady rfl rfl rfl⟩,
    init_state_machine.2.2.2.2 (SessionFileSource.new 0) "a.mix" 9⟩

/-- The `init` steps that get the Session or wait for the nested Sources, and every
step of a failed source, leave the render buffer and the rendering nodes alone. -/
theorem init_buffer_kept (s s1 : SessionFileSource) (env : InitEnv)
    (h : s.init env = some s1)
    (hc : s.session_ = none ∨ s.wait_for_sources_ = true ∨ s.failed_ = true) :
    s1.renderbuffer_ = s.renderbuffer_ ∧ s1.rendering_attached = s.rendering_attached := by
  unfold init at h
  obtain ⟨s0, h0, rfl⟩ := Option.map_eq_some'.1 h
  obtain ⟨_, _, _, d4, d5, _, _⟩ := initDone_fields s0
  rw [d4, d5]
  unfold initSession at h0
  split at h0
  · split at h0
    · split at h0
      · split at h0 <;> (cases Option.some.inj h0; exact ⟨rfl, rfl⟩)
      · cases Option.some.inj h0; exact ⟨rfl, rfl⟩
    · exact absurd h0 (by simp)
  · split at h0
    · split at h0 <;> (cases Option.some.inj h0; exact ⟨rfl, rfl⟩)
    · split at h0
      · rename_i hs hw hf
        rcases hc with hc | hc | hc
        · rw [hs] at hc; exact absurd hc (by simp)
        · exact absurd hc hw
        · rw [hc] at hf; exact absurd hf (by decide)
      · cases Option.some.inj h0; exact ⟨rfl, rfl⟩

/-- The `init` step that finds the Session delivered, the source not failed and not yet
waiting: the render buffer is allocated and the rendering nodes are attached, whatever
the nested Sources report. -/
theorem init_allocates (s : SessionFileSource) (S : Session) (env : InitEnv)
    (hS : s.session_ = some S) (hw : s.wait_for_sources_ = false) (hf : s.failed_ = false) :
    ∃ s1, s.init env = some s1 ∧ s1.renderbuffer_ = some env.resolution ∧
      s1.rendering_attached = true ∧
      (S.sources ≠ [] → s1.wait_for_sources_ = true ∧ s1.initialized_ = s.initialized_) := by
  by_cases hn : (S.update env.failed).numSource > 0
  · have e : s.initSession env = some
        { SessionFileSource.attach { s with session_ := some (S.update env.failed) }
            env.resolution with wait_for_sources_ := true } := by
      simp [initSession, hS, hw, hf, hn]
    obtain ⟨d1, _, _, d4, d5, d6, _⟩ := initDone_fields
      { SessionFileSource.attach { s with session_ := some (S.update env.failed) }
          env.resolution with wait_for_sources_ := true }
    refine ⟨_, by rw [init, e]; rfl, d4.trans rfl, d5.trans rfl,
      fun _ => ⟨d6.trans rfl, d1.trans rfl⟩⟩
  · have e : s.initSession env = some
        { SessionFileSource.attach { s with session_ := some (S.update env.failed) }
            env.resolution with initialized_ := true } := by
      simp [initSession, hS, hw, hf, hn]
    obtain ⟨_, _, _, d4, d5, _, _⟩ := initDone_fields
      { SessionFileSource.attach { s with session_ := some (S.update env.failed) }
          env.resolution with initialized_ := true }
    refine ⟨_, by rw [init, e]; rfl, d4.trans rfl, d5.trans rfl, fun hne => ?_⟩
    exfalso
    apply hn
    have : (S.update env.failed).numSource = S.sources.length := rfl
    rw [gt_iff_lt, this]
    exact List.length_pos.2 hne

/-- C20, as stated, fails: after `load`, the delivery of a Session holding the Source
`5`, and one more `init` step, the render buffer is allocated and the rendering nodes
are attached, although `5` does not report initialized and the source is not
initialized: the allocation comes in the step that starts the wait. -/
theorem render_target_timing_counterexample :
    ((((SessionFileSource.new 0).load "a.mix" 9).init envLoaded).bind
        (fun s => s.init envLoaded)).map
      (fun s => (s.session_.map Session.sources, s.renderbuffer_, s.rendering_attached,
        s.initialized_, s.wait_for_sources_))
      = some (some [5], some (1280, 720), true, false, true) ∧
    envLoaded.isInitialized 5 = false := by
  decide

/-- C20, amended.  For a SessionFileSource whose nested Session holds at least one
Source: the `init` step that finds the Session delivered, the source not failed and
not yet waiting, allocates the render buffer and attaches the rendering nodes,
whatever the nested Sources report, and starts the wait without marking the source
initialized; the `init` steps of the wait (and those of a failed source) leave the
render buffer and the rendering nodes as they are; and the source becomes initialized
only in a step of the wait, at whose end every nested Source reports initialized. -/
theorem render_target_timing (s : SessionFileSource) (S : Session) (env : InitEnv)
    (hS : s.session_ = some S) (hne : S.sources ≠ []) :
    (s.wait_for_sources_ = false → s.failed_ = false →
      ∃ s1, s.init env = some s1 ∧ s1.renderbuffer_ = some env.resolution ∧
        s1.rendering_attached = true ∧ s1.wait_for_sources_ = true ∧
        s1.initialized_ = s.initialized_) ∧
    (s.wait_for_sources_ = true ∨ s.failed_ = true →
      ∀ s1, s.init env = some s1 →
        s1.renderbuffer_ = s.renderbuffer_ ∧ s1.rendering_attached = s.rendering_attached) ∧
    (∀ s1, s.init env = some s1 → s.initialized_ = false → s1.initialized_ = true →
      s.wait_for_sources_ = true ∧
      ∃ S1, s1.session_ = some S1 ∧ ∀ x ∈ S1.sources, env.isInitialized x = true) := by
  refine ⟨?_, ?_, ?_⟩
  · intro hw hf
    obtain ⟨s1, h1, h2, h3, h4⟩ := init_allocates s S env hS hw hf
    exact ⟨s1, h1, h2, h3, (h4 hne).1, (h4 hne).2⟩
  · intro hc s1 h1
    exact init_buffer_kept s s1 env h1 (Or.inr hc)
  · intro s1 h1 h0 hi
    refine ⟨?_, (init_spec s s1 env h1).2.2.2.2 h0 hi⟩
    by_contra hw
    have hw0 : s.wait_for_sources_ = false := by simpa using hw
    by_cases hf : s.failed_ = true
    · have e : s.initSession env = some s := by
        simp [initSession, hS, hw0, hf]
      have h2 : s.init env = some s.initDone := by rw [init, e]; rfl
      rw [h2] at h1
      cases Option.some.inj h1
      rw [(initDone_fields s).1, h0] at hi
      exact absurd hi (by decide)
    · obtain ⟨s2, h2, _, _, h4⟩ := init_allocates s S env hS hw0 (by simpa using hf)
      rw [h2] at h1
      cases Option.some.inj h1
      rw [(h4 hne).2, h0] at hi
      exact absurd hi (by decide)

/-- Witness of `render_target_timing`: the Session with the Source `5` has just been
delivered. -/
theorem render_target_timing_witness :
    ∃ s1, SessionFileSource.init
        { SessionFileSource.new 0 with
          path_ := "a.mix", session_ := some ⟨1, [5], "a.mix", none⟩ } envLoaded = some s1 ∧
      s1.renderbuffer_ = some envLoaded.resolution ∧ s1.rendering_attached = true ∧
      s1.wait_for_sources_ = true ∧
      s1.initialized_ = ({ SessionFileSource.new 0 with
          path_ := "a.mix", session_ := some ⟨1, [5], "a.mix", none⟩ } :
            SessionFileSource).initialized_ :=
  (render_target_timing
    { SessionFileSource.new 0 with path_ := "a.mix", session_ := some ⟨1, [5], "a.mix", none⟩ }
    ⟨1, [5], "a.mix", none⟩ envLoaded rfl (by decide)).1 rfl rfl

/-- No member function of the source clears the failed flag: once `failed()` is true it
stays true under `load`, `init`, `render`, `update`, `setActive`, `replay` and
`detach`. -/
theorem failed_stays (s : SessionFileSource) (h : s.failed_ = true) :
    (∀ p sid, (s.load p sid).failed_ = true) ∧
    (∀ env s1, s.init env = some s1 → s1.failed_ = true) ∧
    (∀ env s1, s.render env = some s1 → s1.failed_ = true) ∧
    (∀ failed elapsed, (s.update failed elapsed).failed_ = true) ∧
    (∀ on_, (s.setActive on_).failed_ = true) ∧
    s.replay.failed_ = true ∧
    (∀ sid, (s.detach sid).2.failed_ = true) := by
  have hinit : ∀ env s1, s.init env = some s1 → s1.failed_ = true := by
    intro env s1 h1
    unfold init at h1
    cases hs : s.initSession env with
    | none => rw [hs] at h1; cases h1
    | some s2 =>
      rw [hs] at h1
      have e : s1 = initDone s2 := by simpa using h1.symm
      have h2 : s2.failed_ = true := by
        unfold initSession at hs
        split at hs
        · split at hs
          · split at hs
            · split at hs <;> (cases hs; simp_all)
            · cases hs; exact h
          · cases hs
        · split at hs
          · split at hs <;> (cases hs; exact h)
          · split at hs
            · simp [h] at *
            · cases hs; exact h
      rw [e]
      unfold initDone
      split <;> exact h2
  refine ⟨fun p sid => ?_, hinit, fun env s1 h1 => ?_, fun failed elapsed => ?_, fun _ => h,
    ?_, fun _ => rfl⟩
  · unfold load
    by_cases hp : p = "" <;> simp [hp, h]
  · unfold render at h1
    split at h1
    · exact hinit env s1 h1
    · cases h1; exact h
  · show (s.toSessionSource.update failed elapsed).failed_ = true
    cases hS : s.session_ with
    | none => simp [SessionSource.update, hS, h]
    | some S =>
      rw [(SessionSource.update_eq s.toSessionSource failed elapsed S hS).2]
      have h0 : s.toSessionSource.failed_ = true := h
      split
      · rw [h0]; simp
      · exact h
  · show s.toSessionSource.replay.failed_ = true
    unfold SessionSource.replay
    split <;> exact h

/-- C21. The claim fails on a source that is told to load again while it waits for the
nested Sources of an earlier load: `load` leaves `wait_for_sources_` set.  When the
second load delivers a null Session, `init()` marks the source failed (not
initialized, no Session); `failed()` stays true afterwards, but after a further
`load` of the empty path the next `init()` takes the branch of `wait_for_sources_`,
which does not test the failed flag, and the failed source becomes initialized. -/
theorem failed_source_initialized :
    (reloadedWhileWaiting.map (fun s => (s.wait_for_sources_, s.failed_, s.initialized_)))
      = some (true, false, false) ∧
    ((reloadedWhileWaiting.bind (fun s => s.init envNull)).map
        (fun s => (s.session_, s.failed_, s.initialized_)))
      = some (none, true, false) ∧
    (((reloadedWhileWaiting.bind (fun s => s.init envNull)).bind
        (fun s => (s.load "" 7).init envNull)).map
          (fun s => (s.failed_, s.initialized_)))
      = some (true, true) := by
  decide

end SessionFileSource

namespace RenderSource

/-- C22. RenderSource staleness check.  `failed()` returns true exactly when a render
target has been allocated, a Session with an output frame is bound, and the resolution
of the render target differs from the resolution of that frame.  A RenderSource with no
render target, or with no Session, is not failed; with a bound Session that has an
output frame `failed()` always returns; and right after `init()` has allocated the
render target from the frame of the bound Session the source is not failed. -/
theorem failed_iff_stale (s : RenderSource) :
    (s.failed = some true ↔
      ∃ rb fb, s.renderbuffer_ = some rb ∧ s.session_ = some (some fb) ∧ rb ≠ fb.resolution) ∧
    (s.renderbuffer_ = none → s.failed = some false) ∧
    (s.session_ = none → s.failed = some false) ∧
    (∀ fb, s.session_ = some (some fb) → s.failed ≠ none) ∧
    (∀ textureBlack fb, s.session_ = some (some fb) → fb.texture ≠ textureBlack →
      (s.init textureBlack).renderbuffer_ = some fb.resolution ∧
      (s.init textureBlack).failed = some false) := by
  obtain ⟨rb, ss, ra, du⟩ := s
  refine ⟨?_, ?_, ?_, ?_, ?_⟩
  · cases rb with
    | none => simp [failed]
    | some r =>
      cases ss with
      | none => simp [failed]
      | some fr =>
        cases fr with
        | none => simp [failed]
        | some fb => simp [failed]
  · intro h
    simp only at h
    subst h
    rfl
  · intro h
    simp only at h
    subst h
    cases rb <;> rfl
  · intro fb h
    simp only at h
    subst h
    cases rb <;> simp [failed]
  · intro tb fb h ht
    simp only at h
    subst h
    simp [init, ht, failed]

/-- Witness of `failed_iff_stale`: a render target of 1280 x 720 bound to a Session
whose output frame is now 1920 x 1080 is failed; a RenderSource without Session is
not. -/
theorem failed_iff_stale_witness :
    (⟨some (1280, 720), some (some ⟨(1920, 1080), 3⟩), true, 1⟩ : RenderSource).failed
      = some true ∧
    RenderSource.new.failed = some false ∧
    ((⟨none, some (some ⟨(1920, 1080), 3⟩), false, 0⟩ : RenderSource).init 0).failed
      = some false :=
  ⟨(failed_iff_stale ⟨some (1280, 720), some (some ⟨(1920, 1080), 3⟩), true, 1⟩).1.mpr
      ⟨(1280, 720), ⟨(1920, 1080), 3⟩, rfl, rfl, by decide⟩,
    (failed_iff_stale RenderSource.new).2.1 rfl,
    ((failed_iff_stale ⟨none, some (some ⟨(1920, 1080), 3⟩), false, 0⟩).2.2.2.2 0
      ⟨(1920, 1080), 3⟩ rfl (by decide)).2⟩

end RenderSource

namespace SessionThreads

/-- While the flag is set, a task in its wait loop stays there and changes nothing. -/
theorem step_waiting_blocked (p : SessionThreads) (i : Nat)
    (hflag : p.sessionThreadActive_ = true) (hi : p.tasks[i]? = some .waiting) :
    p.step i = p := by
  unfold step
  rw [hi]
  simp [hflag]

/-- C23. The flag does not serialize the task bodies: its test in the wait loop and
the store `sessionThreadActive_ = true` are two steps.  Two tasks are started while
the flag is clear; each reads the flag as false and leaves its loop before the other
has set it, then each sets it: both are between setting and clearing the flag.  When
the first then clears the flag, the second is still at work and a third task started
now gets through as well. -/
theorem busy_flag_race :
    ((⟨false, []⟩ : SessionThreads).start.start.run [0, 1]).tasks = [.passed, .passed] ∧
    ((⟨false, []⟩ : SessionThreads).start.start.run [0, 1, 0, 1]).tasks
      = [.working, .working] ∧
    ((⟨false, []⟩ : SessionThreads).start.start.run [0, 1, 0, 1]).working = 2 ∧
    (((⟨false, []⟩ : SessionThreads).start.start.run [0, 1, 0, 1, 0]).start.run [2, 2]).tasks
      = [.done, .working, .working] := by
  decide

end SessionThreads

namespace AppLog

/-- The loop of `AddLog` appends the offsets after the newlines of the scanned part. -/
theorem scanLines_eq (Buf : List Char) : ∀ (n old_size : Nat) (offs : List Nat),
    scanLines Buf n old_size offs =
      offs ++ ((List.range' old_size n).filter (fun k => Buf[k]? = some '\n')).map
        (fun k => k + 1) := by
  intro n
  induction n with
  | zero => intro k offs; simp [scanLines]
  | succ n ih =>
    intro k offs
    rw [scanLines, ih, List.range'_succ]
    by_cases h : Buf[k]? = some '\n'
    · simp [h, List.filter_cons]
    · simp [h, List.filter_cons]

theorem newlineOffsets_append (A B : List Char) :
    newlineOffsets (A ++ B) =
      newlineOffsets A ++
        ((List.range' A.length B.length).filter (fun k => (A ++ B)[k]? = some '\n')).map
          (fun k => k + 1) := by
  unfold newlineOffsets
  have hr : List.range (A ++ B).length = List.range A.length ++ List.range' A.length B.length := by
    rw [List.length_append, List.range_eq_range', List.range_eq_range']
    have := List.range'_append 0 A.length B.length 1
    simp only [Nat.zero_add, Nat.one_mul] at this
    rw [this, Nat.add_comm]
  rw [hr, List.filter_append, List.map_append]
  congr 2
  apply List.filter_congr
  intro k hk
  rw [List.mem_range] at hk
  rw [List.getElem?_append_left hk]

/-- The invariant of the log: `LineOffsets` is `0` followed by the positions after the
newlines of `Buf`. -/
theorem logged_offsets (log : AppLog) (h : Logged log) :
    log.LineOffsets = 0 :: newlineOffsets log.Buf := by
  induction h with
  | new => rfl
  | Clear log _ _ => rfl
  | AddLog log text _ ih =>
    show scanLines (log.Buf ++ text ++ ['\n']) ((log.Buf ++ text ++ ['\n']).length
      - log.Buf.length) log.Buf.length log.LineOffsets =
        0 :: newlineOffsets (log.Buf ++ text ++ ['\n'])
    rw [scanLines_eq, ih, List.append_assoc, newlineOffsets_append]
    have e : (log.Buf ++ (text ++ ['\n'])).length - log.Buf.length = (text ++ ['\n']).length := by
      rw [List.length_append]; omega
    rw [e]
    rfl

theorem newlineOffsets_pos (Buf : List Char) (p : Nat) (hp : p ∈ newlineOffsets Buf) :
    ∃ k, p = k + 1 ∧ k < Buf.length ∧ Buf[k]? = some '\n' := by
  unfold newlineOffsets at hp
  rw [List.mem_map] at hp
  obtain ⟨k, hk, rfl⟩ := hp
  rw [List.mem_filter, List.mem_range] at hk
  exact ⟨k, rfl, hk.1, by simpa using hk.2⟩

theorem newlineOffsets_sorted (Buf : List Char) :
    (newlineOffsets Buf).Pairwise (fun a b => a < b) := by
  unfold newlineOffsets
  rw [List.pairwise_map]
  exact ((List.pairwise_lt_range Buf.length).filter _).imp (fun h => by omega)

theorem newlineOffsets_length (Buf : List Char) :
    (newlineOffsets Buf).length = Buf.count '\n' := by
  induction Buf using List.reverseRecOn with
  | nil => rfl
  | append_singleton l a ih =>
    rw [newlineOffsets_append, List.length_append, ih, List.count_append]
    congr 1
    by_cases h : a = '\n'
    · subst h
      simp [List.range'_succ]
    · have h2 : ¬ ('\n' = a) := fun e => h e.symm
      simp [List.range'_succ, h, h2]

/-- C29. Log line index invariant.  After every sequence of `Clear` and `AddLog` calls:
`LineOffsets` is strictly increasing and starts with `0`; its other entries are
exactly the positions immediately after the newline characters of `Buf`, so its size
is one plus the number of newlines in `Buf` and its last entry is at most
`Buf.size()`; and for every `line_no` below the size of `LineOffsets` the pair
`line_start`, `line_end` of `Draw` satisfies `0 <= line_start <= line_end <=
Buf.size()`. -/
theorem line_index_invariant (log : AppLog) (h : Logged log) :
    log.LineOffsets.Pairwise (fun a b => a < b) ∧
    log.LineOffsets.head? = some 0 ∧
    log.LineOffsets.tail = newlineOffsets log.Buf ∧
    (∀ p, p ∈ log.LineOffsets.tail ↔
      ∃ k, p = k + 1 ∧ k < log.Buf.length ∧ log.Buf[k]? = some '\n') ∧
    log.LineOffsets.length = 1 + log.Buf.count '\n' ∧
    (∀ p, log.LineOffsets.getLast? = some p → p ≤ log.Buf.length) ∧
    (∀ line_no, line_no < log.LineOffsets.length →
      ∃ line_start line_end, log.lineRange line_no = some (line_start, line_end) ∧
        0 ≤ line_start ∧ line_start ≤ line_end ∧ line_end ≤ (log.Buf.length : Int)) := by
  have hinv := logged_offsets log h
  have hle : ∀ p ∈ log.LineOffsets, p ≤ log.Buf.length := by
    intro p hp
    rw [hinv, List.mem_cons] at hp
    rcases hp with rfl | hp
    · exact Nat.zero_le _
    · obtain ⟨k, rfl, hk, _⟩ := newlineOffsets_pos _ p hp
      omega
  have hsorted : log.LineOffsets.Pairwise (fun a b => a < b) := by
    rw [hinv, List.pairwise_cons]
    refine ⟨fun p hp => ?_, newlineOffsets_sorted _⟩
    obtain ⟨k, rfl, _, _⟩ := newlineOffsets_pos _ p hp
    omega
  refine ⟨hsorted, by rw [hinv]; rfl, by rw [hinv]; rfl, fun p => ?_, ?_, fun p hp => ?_,
    fun line_no hlt => ?_⟩
  · rw [hinv, List.tail_cons]
    refine ⟨newlineOffsets_pos _ p, fun ⟨k, hp, hk, hnl⟩ => ?_⟩
    unfold newlineOffsets
    rw [List.mem_map]
    exact ⟨k, by rw [List.mem_filter, List.mem_range]; exact ⟨hk, by simpa using hnl⟩, hp.symm⟩
  · rw [hinv, List.length_cons, newlineOffsets_length]
    omega
  · exact hle p (List.mem_of_mem_getLast? hp)
  · have hstart : log.LineOffsets[line_no]? = some log.LineOffsets[line_no] :=
      List.getElem?_eq_getElem hlt
    by_cases hnext : line_no + 1 < log.LineOffsets.length
    · refine ⟨(log.LineOffsets[line_no] : Int), (log.LineOffsets[line_no + 1] : Int) - 1, ?_, ?_, ?_, ?_⟩
      · unfold lineRange
        rw [hstart]
        simp only [hnext, if_true]
        rw [List.getD_eq_getElem _ _ hnext]
      · omega
      · have := List.pairwise_iff_getElem.mp hsorted line_no (line_no + 1) hlt hnext (by omega)
        omega
      · have := hle _ (List.getElem_mem hnext)
        omega
    · refine ⟨(log.LineOffsets[line_no] : Int), (log.Buf.length : Int), ?_, ?_, ?_, le_refl _⟩
      · unfold lineRange
        rw [hstart]
        simp only [hnext, if_false]
      · omega
      · have := hle _ (List.getElem_mem hlt)
        omega

/-- Witness of `line_index_invariant`: the log after the messages `ab` and `c`, whose
buffer is `ab`, newline, `c`, newline. -/
theorem line_index_invariant_witness :
    ((AppLog.new.AddLog ['a', 'b']).AddLog ['c']).LineOffsets = [0, 3, 5] ∧
    ((AppLog.new.AddLog ['a', 'b']).AddLog ['c']).LineOffsets.length =
      1 + ((AppLog.new.AddLog ['a', 'b']).AddLog ['c']).Buf.count '\n' ∧
    ((AppLog.new.AddLog ['a', 'b']).AddLog ['c']).lineRange 1 = some (3, 4) :=
  ⟨by decide,
    (line_index_invariant _ (Logged.AddLog _ ['c'] (Logged.AddLog _ ['a', 'b'] Logged.new))).2.2.2.2.1,
    by decide⟩

end AppLog

namespace MixingView

theorem mem_quadrantOffsets (i j dest : Nat) :
    dest ∈ quadrantOffsets i j ↔
      dest = j * 4 + i * 64 * 4 ∨ dest = (64 - j - 1) * 4 + i * 64 * 4 ∨
      dest = j * 4 + (64 - i - 1) * 64 * 4 ∨ dest = (64 - j - 1) * 4 + (64 - i - 1) * 64 * 4 := by
  simp [quadrantOffsets, CIRCLE_PIXELS]

theorem mem_writes (w : Nat × Nat × Nat) :
    w ∈ writes ↔ w.2.1 < 32 ∧ w.2.2 < 32 ∧ w.1 ∈ quadrantOffsets w.2.1 w.2.2 := by
  obtain ⟨d, i, j⟩ := w
  simp only [writes, CIRCLE_PIXELS, List.mem_flatMap, List.mem_range, List.mem_map,
    Prod.mk.injEq]
  constructor
  · rintro ⟨i1, hi, j1, hj, d1, hd, rfl, rfl, rfl⟩
    exact ⟨hi, hj, hd⟩
  · rintro ⟨hi, hj, hd⟩
    exact ⟨i, hi, j, hj, d, hd, rfl, rfl, rfl⟩

/-- The loop indices of a `memmove` are determined by its destination. -/
theorem quadrant_inj (i j i1 j1 dest : Nat) (hi : i < 32) (hj : j < 32) (hi1 : i1 < 32)
    (hj1 : j1 < 32) (h : dest ∈ quadrantOffsets i j) (h1 : dest ∈ quadrantOffsets i1 j1) :
    i = i1 ∧ j = j1 := by
  rw [mem_quadrantOffsets] at h h1
  omega

theorem foldl_flatMap_eq {α β γ : Type} (f : β → γ → β) (g : α → List γ) (l : List α) :
    ∀ b, (l.flatMap g).foldl f b = l.foldl (fun b a => (g a).foldl f b) b := by
  induction l with
  | nil => intro b; rfl
  | cons a t ih => intro b; rw [List.flatMap_cons, List.foldl_append, ih]; rfl

/-- The double loop performs the `memmove` calls of `writes`, in that order. -/
theorem textureMixingQuadratic_eq (color : Nat → Nat → Nat → Nat) :
    textureMixingQuadratic color =
      writes.foldl (fun m w => memmove m w.1 (color w.2.1 w.2.2)) (fun _ => none) := by
  simp only [writes, foldl_flatMap_eq, List.foldl_map]
  rfl

/-- The byte left at index `b` by a sequence of `memmove` calls, when all the calls that
cover `b` write the same value there. -/
theorem foldl_memmove_value (color : Nat → Nat → Nat → Nat) (b v : Nat)
    (ws : List (Nat × Nat × Nat)) : ∀ m : Matrix,
    (∀ w ∈ ws, w.1 ≤ b ∧ b < w.1 + 4 → color w.2.1 w.2.2 (b - w.1) = v) →
    ((∃ w ∈ ws, w.1 ≤ b ∧ b < w.1 + 4) ∨ m b = some v) →
    (ws.foldl (fun m w => memmove m w.1 (color w.2.1 w.2.2)) m) b = some v := by
  induction ws with
  | nil =>
    intro m _ h
    rcases h with ⟨w, hw, _⟩ | h
    · cases hw
    · exact h
  | cons w t ih =>
    intro m hall h
    rw [List.foldl_cons]
    apply ih
    · exact fun w1 hw1 => hall w1 (List.mem_cons_of_mem _ hw1)
    · by_cases hc : w.1 ≤ b ∧ b < w.1 + 4
      · right
        simp only [memmove, hc, and_self, if_true]
        rw [hall w (List.mem_cons_self _ _) hc]
      · rcases h with ⟨w1, hw1, hcov⟩ | h
        · rcases List.mem_cons.mp hw1 with rfl | hw1
          · exact absurd hcov hc
          · exact Or.inl ⟨w1, hw1, hcov⟩
        · right
          simp only [memmove, hc, if_false]
          exact h

/-- The bytes of the pixel at row `r`, column `c` after the double loop. -/
theorem textureMixingQuadratic_byte (color : Nat → Nat → Nat → Nat) (r c k : Nat)
    (hr : r < 64) (hc : c < 64) (hk : k < 4) :
    textureMixingQuadratic color (pixelOffset r c + k) =
      some (color (if r < 32 then r else 63 - r) (if c < 32 then c else 63 - c) k) := by
  rw [textureMixingQuadratic_eq]
  apply foldl_memmove_value
  · intro w hw hcov
    obtain ⟨d, i, j⟩ := w
    rw [mem_writes, mem_quadrantOffsets] at hw
    simp only [pixelOffset, CIRCLE_PIXELS] at hcov ⊢
    simp only at hw
    have hi : i = if r < 32 then r else 63 - r := by split <;> omega
    have hj : j = if c < 32 then c else 63 - c := by split <;> omega
    have hd : c * 4 + r * 64 * 4 + k - d = k := by omega
    rw [hd, ← hi, ← hj]
  · left
    refine ⟨(pixelOffset r c, if r < 32 then r else 63 - r, if c < 32 then c else 63 - c),
      ?_, by omega⟩
    rw [mem_writes, mem_quadrantOffsets]
    simp only [pixelOffset, CIRCLE_PIXELS]
    refine ⟨by split <;> omega, by split <;> omega, ?_⟩
    split <;> split <;> omega

theorem offsets_nodup :
    ((List.range 32).flatMap (fun i =>
      (List.range 32).flatMap (fun j => quadrantOffsets i j))).Nodup := by
  rw [List.nodup_flatMap]
  constructor
  · intro i hi
    rw [List.mem_range] at hi
    rw [List.nodup_flatMap]
    constructor
    · intro j hj
      rw [List.mem_range] at hj
      simp only [quadrantOffsets, CIRCLE_PIXELS, List.nodup_cons, List.mem_cons,
        List.mem_singleton, List.not_mem_nil, List.nodup_nil, not_or, not_false_eq_true,
        and_true]
      omega
    · apply List.Nodup.pairwise_of_forall_ne (List.nodup_range 32)
      intro j hj j1 hj1 hne
      rw [List.mem_range] at hj hj1
      show List.Disjoint (quadrantOffsets i j) (quadrantOffsets i j1)
      rw [List.disjoint_left]
      intro d h h1
      exact hne (quadrant_inj i j i j1 d hi hj hi hj1 h h1).2
  · apply List.Nodup.pairwise_of_forall_ne (List.nodup_range 32)
    intro i hi i1 hi1 hne
    rw [List.mem_range] at hi hi1
    show List.Disjoint ((List.range 32).flatMap (fun j => quadrantOffsets i j))
      ((List.range 32).flatMap (fun j => quadrantOffsets i1 j))
    rw [List.disjoint_left]
    intro d h h1
    rw [List.mem_flatMap] at h h1
    obtain ⟨j, hj, h⟩ := h
    obtain ⟨j1, hj1, h1⟩ := h1
    rw [List.mem_range] at hj hj1
    exact hne (quadrant_inj i j i1 j1 d hi hj hi1 hj1 h h1).1

theorem writes_destinations :
    writes.map (fun w => w.1) =
      (List.range 32).flatMap (fun i =>
        (List.range 32).flatMap (fun j => quadrantOffsets i j)) := by
  simp only [writes, CIRCLE_PIXELS, List.map_flatMap, List.map_map, Function.comp_def,
    List.map_id']

/-- C30. Mixing texture fill.  For all loop indices `0 <= i, j < 32` each of the four
4-byte writes lies inside the matrix of `64 * 64 * 4` bytes.  The double loop performs
the `memmove` calls listed in `writes`; each of them starts at the first byte of a
pixel, and for every pixel of the 64 x 64 image exactly one call of the whole double
loop has that pixel as its destination.  Afterwards the pixel at row `r`, column `c`
holds the colour computed for the loop indices `min(r, 63 - r)`, `min(c, 63 - c)`, so
the image is mirror-symmetric: pixel `(r, c)` equals pixel `(63 - r, c)` and pixel
`(r, 63 - c)`. -/
theorem textureMixingQuadratic_fill (color : Nat → Nat → Nat → Nat) :
    (∀ i j, i < 32 → j < 32 → ∀ dest ∈ quadrantOffsets i j, dest + 4 ≤ matrixSize) ∧
    textureMixingQuadratic color =
      writes.foldl (fun m w => memmove m w.1 (color w.2.1 w.2.2)) (fun _ => none) ∧
    (∀ w ∈ writes, ∃ r c, r < 64 ∧ c < 64 ∧ w.1 = pixelOffset r c) ∧
    (∀ r c, r < 64 → c < 64 → (writes.map (fun w => w.1)).count (pixelOffset r c) = 1) ∧
    (∀ r c, r < 64 → c < 64 →
      pixel (textureMixingQuadratic color) r c =
        (List.range 4).map (fun k =>
          some (color (if r < 32 then r else 63 - r) (if c < 32 then c else 63 - c) k))) ∧
    (∀ r c, r < 64 → c < 64 →
      pixel (textureMixingQuadratic color) r c = pixel (textureMixingQuadratic color) (63 - r) c ∧
      pixel (textureMixingQuadratic color) r c = pixel (textureMixingQuadratic color) r (63 - c))
    := by
  have hpix : ∀ r c, r < 64 → c < 64 →
      pixel (textureMixingQuadratic color) r c =
        (List.range 4).map (fun k =>
          some (color (if r < 32 then r else 63 - r) (if c < 32 then c else 63 - c) k)) := by
    intro r c hr hc
    unfold pixel
    apply List.map_congr_left
    intro k hk
    rw [List.mem_range] at hk
    exact textureMixingQuadratic_byte color r c k hr hc hk
  refine ⟨?_, textureMixingQuadratic_eq color, ?_, ?_, hpix, ?_⟩
  · intro i j hi hj dest hd
    rw [mem_quadrantOffsets] at hd
    simp only [matrixSize, CIRCLE_PIXELS]
    omega
  · intro w hw
    obtain ⟨d, i, j⟩ := w
    rw [mem_writes, mem_quadrantOffsets] at hw
    simp only at hw
    obtain ⟨hi, hj, hd⟩ := hw
    simp only [pixelOffset, CIRCLE_PIXELS]
    rcases hd with h | h | h | h
    · exact ⟨i, j, by omega, by omega, h⟩
    · exact ⟨i, 64 - j - 1, by omega, by omega, h⟩
    · exact ⟨64 - i - 1, j, by omega, by omega, h⟩
    · exact ⟨64 - i - 1, 64 - j - 1, by omega, by omega, h⟩
  · intro r c hr hc
    apply List.count_eq_one_of_mem
    · rw [writes_destinations]; exact offsets_nodup
    · rw [List.mem_map]
      refine ⟨(pixelOffset r c, if r < 32 then r else 63 - r, if c < 32 then c else 63 - c),
        ?_, rfl⟩
      rw [mem_writes, mem_quadrantOffsets]
      simp only [pixelOffset, CIRCLE_PIXELS]
      refine ⟨by split <;> omega, by split <;> omega, ?_⟩
      split <;> split <;> omega
  · intro r c hr hc
    rw [hpix r c hr hc, hpix (63 - r) c (by omega) hc, hpix r (63 - c) hr (by omega)]
    constructor
    · congr 1
      funext k
      have e : (if 63 - r < 32 then 63 - r else 63 - (63 - r)) = if r < 32 then r else 63 - r := by
        split <;> split <;> omega
      rw [e]
    · congr 1
      funext k
      have e : (if 63 - c < 32 then 63 - c else 63 - (63 - c)) = if c < 32 then c else 63 - c := by
        split <;> split <;> omega
      rw [e]

/-- Witness of `textureMixingQuadratic_fill`: the last write of the last iteration ends
at the last byte of the matrix, and the pixels of the four corners are equal. -/
theorem textureMixingQuadratic_fill_witness :
    (63 - 31) * 4 + (63 - 31) * 64 * 4 + 4 ≤ matrixSize ∧
    pixel (textureMixingQuadratic (fun i j k => i + j + k)) 0 0 =
      pixel (textureMixingQuadratic (fun i j k => i + j + k)) 63 0 ∧
    pixel (textureMixingQuadratic (fun i j k => i + j + k)) 0 0 =
      pixel (textureMixingQuadratic (fun i j k => i + j + k)) 0 63 :=
  have h := textureMixingQuadratic_fill (fun i j k => i + j + k)
  ⟨h.1 31 31 (by decide) (by decide) _ (by decide), (h.2.2.2.2.2 0 0 (by decide) (by decide)).1,
    (h.2.2.2.2.2 0 0 (by decide) (by decide)).2⟩

end MixingView

end VMix
